import Mathlib

/-!
A shallow embedding, in Lean 4, of the peer lifecycle and reputation core of
the eth2_libp2p networking stack (the PeerDB state machine of
src/peer_manager/peerdb.rs, the pruning and peer-limit logic of
src/peer_manager/mod.rs, the inbound connection handler of
src/peer_manager/network_behaviour.rs and the ENR reconciliation of
src/discovery/enr.rs), together with proofs and refutations of the frozen
claims about that code.

Modelling conventions:
- PeerId, IpAddr and node ids are abstracted to Nat; Instant is a Nat tick
  supplied to every mutating call (the code only compares instants).
- HashMap PeerId to PeerInfo is modelled as an association list with distinct
  keys kept in insertion order; HashMap iteration order is arbitrary in Rust,
  so an iteration-order-sensitive result of the source is modelled either at
  one fixed instance (counterexamples) or universally over orderings
  (theorems).
- f64 scores are modelled as integers: the source only adds, clamps and
  compares scores, and every claim depends only on the ordering of scores,
  which the order-embedding of the integers reproduces.
- The peer_info.rs, score.rs and sync_status.rs submodules are not part of
  the provided sources; the PeerInfo and Score operations used by peerdb.rs
  are modelled from the specification (sections 3 and 4.1) and are marked
  with a doc comment starting with: Modelled from the spec.
- ENR payloads attached to Connected and Dialing transitions only touch
  fields (stored ENR, custody subnets) that no claim reads, and are omitted.
-/

namespace Spec2Proof

abbrev PeerId := Nat

abbrev Ip := Nat

/-- Association list lookup: the value of the first entry with the given key
(models HashMap get). -/
def lookupP {β : Type} : List (PeerId × β) → PeerId → Option β
  | [], _ => none
  | (k, v) :: rest, key => if k = key then some v else lookupP rest key

/-- Replace the value of the first entry with the given key; append the entry
if the key is absent (models HashMap insert / writing through an entry). -/
def setP {β : Type} : List (PeerId × β) → PeerId → β → List (PeerId × β)
  | [], key, v => [(key, v)]
  | (k, w) :: rest, key, v =>
      if k = key then (key, v) :: rest else (k, w) :: setP rest key v

/-- Remove the first entry with the given key (models HashMap remove). -/
def removeP {β : Type} : List (PeerId × β) → PeerId → List (PeerId × β)
  | [], _ => []
  | (k, w) :: rest, key => if k = key then rest else (k, w) :: removeP rest key

/-- Distinct keys of an association list. -/
def keysNodup {β : Type} (l : List (PeerId × β)) : Prop :=
  (l.map Prod.fst).Nodup

/-- Lookup in a counting map, treating a missing entry as count zero. -/
def lookup0 : List (Ip × Nat) → Ip → Nat
  | [], _ => 0
  | (k, v) :: rest, key => if k = key then v else lookup0 rest key

/-- Increment the count of one ip, creating the entry at 1 if missing
(models entry(address).or_insert(0) += 1). -/
def bumpIp : List (Ip × Nat) → Ip → List (Ip × Nat)
  | [], key => [(key, 1)]
  | (k, v) :: rest, key =>
      if k = key then (k, v + 1) :: rest else (k, v) :: bumpIp rest key

/-- Saturating decrement of the count of one ip; a missing entry is left
missing (models get_mut followed by saturating_sub). -/
def decIp : List (Ip × Nat) → Ip → List (Ip × Nat)
  | [], _ => []
  | (k, v) :: rest, key =>
      if k = key then (k, v - 1) :: rest else (k, v) :: decIp rest key

/-- Fold bumpIp over a list of seen ips. -/
def bumpIps (m : List (Ip × Nat)) (ips : List Ip) : List (Ip × Nat) :=
  ips.foldl bumpIp m

/-- Fold decIp over a list of seen ips. -/
def decIps (m : List (Ip × Nat)) (ips : List Ip) : List (Ip × Nat) :=
  ips.foldl decIp m

/- ## Scores (Modelled from the spec: score.rs is not among the sources). -/

/-- Modelled from the spec: the maximum score; trusted peers are pinned here. -/
def maxScoreValue : ℤ := 100

/-- Modelled from the spec: the minimum score; a Fatal report forces the
report-driven component here. -/
def minScoreValue : ℤ := -100

/-- Modelled from the spec: scores at or below this threshold are Banned. -/
def banThreshold : ℤ := -50

/-- Modelled from the spec: scores at or below this threshold (but above the
ban threshold) are ForcedDisconnect. -/
def disconnectThreshold : ℤ := -20

/-- Modelled from the spec (section 3): a score has a report-driven base
component, a gossipsub component and an ignore-negative-gossip flag. -/
structure Score where
  base : ℤ
  gossip : ℤ
  ignoreNegativeGossip : Bool
  deriving DecidableEq, Repr

/-- Modelled from the spec: the blended score value. The gossip component is
suppressed when negative and flagged to be ignored; a base already in the
banned range keeps the peer banned regardless of the gossip component (the
ban-transition code in peerdb.rs relies on a Fatal report placing the score in
the banned range); the blend is clamped into the score bounds. -/
def Score.value (s : Score) : ℤ :=
  if s.base ≤ banThreshold then s.base
  else
    let g := if s.gossip < 0 ∧ s.ignoreNegativeGossip then 0 else s.gossip
    max minScoreValue (min maxScoreValue (s.base + g))

/-- The fixed enumeration of report severities (section 4.1). -/
inductive PeerAction
  | fatal
  | lowToleranceError
  | midToleranceError
  | highToleranceError
  deriving DecidableEq, Repr

/-- Modelled from the spec: reports apply an additive delta chosen from a
fixed enumeration; Fatal forces the base component to the minimum score. The
non-fatal magnitudes are not fixed by the spec; representative negative
constants are used (no claim depends on them). -/
def Score.applyAction (a : PeerAction) (s : Score) : Score :=
  match a with
  | .fatal => { s with base := minScoreValue }
  | .lowToleranceError =>
      { s with base := max minScoreValue (s.base + (-25 : ℤ)) }
  | .midToleranceError =>
      { s with base := max minScoreValue (s.base + (-10 : ℤ)) }
  | .highToleranceError =>
      { s with base := max minScoreValue (s.base + (-1 : ℤ)) }

/-- The tri-state classification of a score (section 4.1). -/
inductive ScoreState
  | healthy
  | forcedDisconnect
  | banned
  deriving DecidableEq, Repr

/-- Modelled from the spec: thresholds map the score value to its state. -/
def scoreStateOfValue (v : ℤ) : ScoreState :=
  if v ≤ banThreshold then .banned
  else if v ≤ disconnectThreshold then .forcedDisconnect
  else .healthy

def Score.defaultScore : Score := ⟨0, 0, false⟩

def Score.maxScoreRecord : Score := ⟨maxScoreValue, 0, false⟩

/- ## PeerInfo (Modelled from the spec where peer_info.rs is missing). -/

/-- Long-lived subnet kinds (attestation, sync-committee, data-column). -/
inductive SubnetK
  | attestation (n : Nat)
  | syncCommittee (n : Nat)
  | dataColumn (n : Nat)
  deriving DecidableEq, Repr

/-- The connection status variants stored per peer, with Instant stamps as
Nat ticks and Connected carrying the in/out connection counts. -/
inductive PeerConnectionStatus
  | unknown
  | dialing (since : Nat)
  | connected (nIn nOut : Nat)
  | disconnecting (toBan : Bool)
  | disconnected (since : Nat)
  | banned (since : Nat)
  deriving DecidableEq, Repr

/-- The connection direction of an established connection. -/
inductive ConnectionDirection
  | incoming
  | outgoing
  deriving DecidableEq, Repr

/-- The per-peer record (section 3). hasFutureDuty stands for a min_ttl lying
in the future (the only way min_ttl is read by the modelled code). -/
structure PeerInfo where
  connectionStatus : PeerConnectionStatus
  score : Score
  isTrusted : Bool
  hasFutureDuty : Bool
  seenIps : List Ip
  subnets : List SubnetK
  deriving DecidableEq, Repr

/-- Modelled from the spec: a freshly observed peer record. -/
def PeerInfo.defaultInfo : PeerInfo :=
  ⟨.unknown, Score.defaultScore, false, false, [], []⟩

/-- Modelled from the spec: a trusted peer record (score pinned at max). -/
def PeerInfo.trustedPeerInfo : PeerInfo :=
  ⟨.unknown, Score.maxScoreRecord, true, false, [], []⟩

/-- Modelled from the spec: a trusted peer's score reads as the maximum. -/
def PeerInfo.scoreValue (i : PeerInfo) : ℤ :=
  if i.isTrusted then maxScoreValue else i.score.value

def PeerInfo.scoreState (i : PeerInfo) : ScoreState :=
  scoreStateOfValue i.scoreValue

/-- Modelled from the spec: trusted peers are immune to score sanctions. -/
def PeerInfo.applyPeerActionToScore (a : PeerAction) (i : PeerInfo) : PeerInfo :=
  if i.isTrusted then i else { i with score := i.score.applyAction a }

/-- Modelled from the spec: store the gossip component and the
ignore-negative flag supplied for this round. -/
def PeerInfo.updateGossipsubScore (g : ℤ) (ignore : Bool) (i : PeerInfo) :
    PeerInfo :=
  { i with score := { i.score with gossip := g, ignoreNegativeGossip := ignore } }

/-- Insert an ip into the seen-ip set (HashSet semantics). -/
def insertIp (ips : List Ip) (ip : Ip) : List Ip :=
  if ip ∈ ips then ips else ips ++ [ip]

/-- Modelled from the spec: an established connection sets the status to
Connected, bumping the directional count, and records the connection's ip
among the seen ips. -/
def PeerInfo.connectWith (dir : ConnectionDirection) (ip : Option Ip)
    (i : PeerInfo) : PeerInfo :=
  let seen := match ip with
    | some ip => insertIp i.seenIps ip
    | none => i.seenIps
  let status := match i.connectionStatus, dir with
    | .connected nIn nOut, .incoming => PeerConnectionStatus.connected (nIn + 1) nOut
    | .connected nIn nOut, .outgoing => PeerConnectionStatus.connected nIn (nOut + 1)
    | _, .incoming => PeerConnectionStatus.connected 1 0
    | _, .outgoing => PeerConnectionStatus.connected 0 1
  { i with connectionStatus := status, seenIps := seen }

/-- Modelled from the spec: mark the peer as dialing; refuses (leaving the
record unchanged, the caller logs the error) when the peer is connected. -/
def PeerInfo.setDialingPeer (now : Nat) (i : PeerInfo) : PeerInfo :=
  match i.connectionStatus with
  | .connected _ _ => i
  | _ => { i with connectionStatus := .dialing now }

def PeerInfo.clearSubnets (i : PeerInfo) : PeerInfo := { i with subnets := [] }

def PeerInfo.setConnectionStatus (st : PeerConnectionStatus) (i : PeerInfo) :
    PeerInfo :=
  { i with connectionStatus := st }

def PeerInfo.isConnected (i : PeerInfo) : Bool :=
  match i.connectionStatus with
  | .connected _ _ => true
  | _ => false

def PeerInfo.isDialing (i : PeerInfo) : Bool :=
  match i.connectionStatus with
  | .dialing _ => true
  | _ => false

def PeerInfo.isConnectedOrDialing (i : PeerInfo) : Bool :=
  i.isConnected || i.isDialing

def PeerInfo.isDisconnected (i : PeerInfo) : Bool :=
  match i.connectionStatus with
  | .disconnected _ => true
  | _ => false

def PeerInfo.isBanned (i : PeerInfo) : Bool :=
  match i.connectionStatus with
  | .banned _ => true
  | _ => false

/-- Modelled from the spec: outbound-only means connected with no inbound
connections and at least one outbound connection. -/
def PeerInfo.isOutboundOnly (i : PeerInfo) : Bool :=
  match i.connectionStatus with
  | .connected 0 (_ + 1) => true
  | _ => false

def PeerInfo.hasLongLivedSubnet (i : PeerInfo) : Bool := !i.subnets.isEmpty

def PeerInfo.longLivedSubnetCount (i : PeerInfo) : Nat := i.subnets.length

/- ## BannedPeersCount (peerdb.rs lines 1298 to 1344). -/

/-- Max number of disconnected nodes to remember (MAX_DC_PEERS). -/
def MAX_DC_PEERS : Nat := 500

/-- The maximum number of banned nodes to remember (MAX_BANNED_PEERS). -/
def MAX_BANNED_PEERS : Nat := 1000

/-- We ban an IP if there are more than this many banned peers with it. -/
def BANNED_PEERS_PER_IP_THRESHOLD : Nat := 5

/-- Aggregate banned-peer counters: the total and the per-ip counts. -/
structure BannedPeersCount where
  bannedPeers : Nat
  bannedPeersPerIp : List (Ip × Nat)
  deriving DecidableEq, Repr

def BannedPeersCount.defaultCount : BannedPeersCount := ⟨0, []⟩

/-- remove_banned_peer: saturating decrement of the total and of the per-ip
count of every given seen ip (entries are never deleted). -/
def BannedPeersCount.removeBannedPeer (ips : List Ip) (c : BannedPeersCount) :
    BannedPeersCount :=
  ⟨c.bannedPeers - 1, decIps c.bannedPeersPerIp ips⟩

/-- add_banned_peer: increment the total and the per-ip count of every given
seen ip. -/
def BannedPeersCount.addBannedPeer (ips : List Ip) (c : BannedPeersCount) :
    BannedPeersCount :=
  ⟨c.bannedPeers + 1, bumpIps c.bannedPeersPerIp ips⟩

/-- banned_ips: the ips whose per-ip banned count exceeds the threshold. -/
def BannedPeersCount.bannedIps (c : BannedPeersCount) : List Ip :=
  (c.bannedPeersPerIp.filter
    (fun e => BANNED_PEERS_PER_IP_THRESHOLD < e.2)).map (·.1)

/-- ip_is_banned: an ip is banned when more than the threshold many banned
peers share it. -/
def BannedPeersCount.ipIsBanned (ip : Ip) (c : BannedPeersCount) : Bool :=
  BANNED_PEERS_PER_IP_THRESHOLD < lookup0 c.bannedPeersPerIp ip

/- ## The PeerDB (peerdb.rs). -/

/-- Storage of known peers, their reputation and information. -/
structure PeerDB where
  peers : List (PeerId × PeerInfo)
  disconnectedPeers : Nat
  bannedPeersCount : BannedPeersCount
  disablePeerScoring : Bool
  deriving DecidableEq, Repr

/-- PeerDB::new: the peers map is initialized with the trusted peers. -/
def PeerDB.new (trustedPeers : List PeerId) (disablePeerScoring : Bool) :
    PeerDB :=
  ⟨trustedPeers.map (fun pid => (pid, PeerInfo.trustedPeerInfo)), 0,
    BannedPeersCount.defaultCount, disablePeerScoring⟩

def PeerDB.peerInfo (db : PeerDB) (pid : PeerId) : Option PeerInfo :=
  lookupP db.peers pid

def PeerDB.connectionStatusOf (db : PeerDB) (pid : PeerId) :
    Option PeerConnectionStatus :=
  (db.peerInfo pid).map (·.connectionStatus)

/-- ip_is_banned on the PeerDB. -/
def PeerDB.isIpBanned (db : PeerDB) (ip : Ip) : Bool :=
  db.bannedPeersCount.ipIsBanned ip

/-- Checks if any of the peer's known addresses are currently banned. -/
def PeerDB.ipIsBannedFor (db : PeerDB) (i : PeerInfo) : Option Ip :=
  i.seenIps.find? (fun ip => db.isIpBanned ip)

/-- When checking if a peer is banned, the possible reasons. -/
inductive BanResult
  | badScore
  | bannedIp (ip : Ip)
  deriving DecidableEq, Repr

/-- ban_status: a peer is refused when its score state is Banned, or when one
of its seen ips is banned. -/
def PeerDB.banStatus (db : PeerDB) (pid : PeerId) : Option BanResult :=
  match db.peerInfo pid with
  | none => none
  | some i =>
      match i.scoreState with
      | .banned => some .badScore
      | _ => (db.ipIsBannedFor i).map .bannedIp

/-- connected_or_dialing_peers, as a count. -/
def PeerDB.connectedOrDialingCount (db : PeerDB) : Nat :=
  db.peers.countP (fun e => e.2.isConnectedOrDialing)

/-- connected_peers, as a count. -/
def PeerDB.connectedCount (db : PeerDB) : Nat :=
  db.peers.countP (fun e => e.2.isConnected)

/-- The number of entries whose stored status is Disconnected. -/
def PeerDB.countDisconnectedStatus (db : PeerDB) : Nat :=
  db.peers.countP (fun e => e.2.isDisconnected)

/-- The number of entries whose stored status is Banned. -/
def PeerDB.countBannedStatus (db : PeerDB) : Nat :=
  db.peers.countP (fun e => e.2.isBanned)

/-- The number of entries banned and having seen the given ip. -/
def PeerDB.countBannedWithIp (db : PeerDB) (ip : Ip) : Nat :=
  db.peers.countP (fun e => e.2.isBanned && ip ∈ e.2.seenIps)

/- ## The connection-state transition function (peerdb.rs lines 776-1060). -/

/-- Internal enum for managing connection state transitions. The ENR payloads
of Connected and Dialing are omitted (they only set fields no claim reads);
the seen socket address is abstracted to its optional ip. -/
inductive NewConnectionState
  | connected (direction : ConnectionDirection) (seenIp : Option Ip)
  | disconnecting (toBan : Bool)
  | dialing
  | disconnected
  | banned
  | unbanned
  deriving DecidableEq, Repr

/-- When attempting to ban a peer, the operation the peer manager must take. -/
inductive BanOperation
  | temporaryBan
  | disconnectThePeer
  | readyToBan (bannedIps : List Ip)
  | peerDisconnecting
  deriving DecidableEq, Repr

/-- The subset of the peer's seen ips whose per-ip banned count has crossed
the threshold (the banned_ips computation repeated in the Banned arms). -/
def bannedIpsOf (c : BannedPeersCount) (i : PeerInfo) : List Ip :=
  i.seenIps.filter (fun ip => (c.bannedIps).contains ip)

/-- update_connection_state (peerdb.rs lines 776-1060), ported arm by arm in
source order. Instant::now() is the supplied tick. -/
def PeerDB.updateConnectionState (now : Nat) (pid : PeerId)
    (newState : NewConnectionState) (db : PeerDB) :
    PeerDB × Option BanOperation :=
  -- self.peers.entry(*peer_id).or_insert_with(default or trusted record)
  let info0 : PeerInfo :=
    match lookupP db.peers pid with
    | some i => i
    | none =>
        if db.disablePeerScoring then PeerInfo.trustedPeerInfo
        else PeerInfo.defaultInfo
  -- Ban the peer if the score is not already low enough.
  let info1 : PeerInfo :=
    if newState = .banned then
      match info0.scoreState with
      | .banned => info0
      | _ => info0.applyPeerActionToScore .fatal
    else info0
  let ret := fun (info : PeerInfo) (d : Nat) (b : BannedPeersCount)
      (op : Option BanOperation) =>
    ({ db with
        peers := setP db.peers pid info
        disconnectedPeers := d
        bannedPeersCount := b }, op)
  match info1.connectionStatus, newState with
  -- CONNECTED
  | currentState, .connected direction seenIp =>
      let d := match currentState with
        | .disconnected _ => db.disconnectedPeers - 1
        | _ => db.disconnectedPeers
      let b := match currentState with
        | .banned _ => db.bannedPeersCount.removeBannedPeer info1.seenIps
        | _ => db.bannedPeersCount
      ret (info1.connectWith direction seenIp) d b none
  -- DIALING
  | oldState, .dialing =>
      let d := match oldState with
        | .disconnected _ => db.disconnectedPeers - 1
        | _ => db.disconnectedPeers
      let b := match oldState with
        | .banned _ => db.bannedPeersCount.removeBannedPeer info1.seenIps
        | _ => db.bannedPeersCount
      ret (info1.setDialingPeer now) d b none
  -- DISCONNECTED
  | oldState, .disconnected =>
      let info2 := info1.clearSubnets
      match oldState with
      | .banned _ => ret info2 db.disconnectedPeers db.bannedPeersCount none
      | .disconnected _ =>
          ret info2 db.disconnectedPeers db.bannedPeersCount none
      | .disconnecting true =>
          let info3 := info2.setConnectionStatus (.banned now)
          let b := db.bannedPeersCount.addBannedPeer info3.seenIps
          ret info3 db.disconnectedPeers b (some (.readyToBan (bannedIpsOf b info3)))
      | .disconnecting false =>
          ret (info2.setConnectionStatus (.disconnected now))
            (db.disconnectedPeers + 1) db.bannedPeersCount
            (some .temporaryBan)
      | _ =>
          ret (info2.setConnectionStatus (.disconnected now))
            (db.disconnectedPeers + 1) db.bannedPeersCount none
  -- DISCONNECTING
  | .banned _, .disconnecting toBan =>
      -- error: Disconnecting from a banned peer (counters left untouched)
      ret (info1.setConnectionStatus (.disconnecting toBan))
        db.disconnectedPeers db.bannedPeersCount none
  | .disconnected _, .disconnecting toBan =>
      ret (info1.setConnectionStatus (.disconnecting toBan))
        (db.disconnectedPeers - 1) db.bannedPeersCount none
  | _, .disconnecting toBan =>
      ret (info1.setConnectionStatus (.disconnecting toBan))
        db.disconnectedPeers db.bannedPeersCount none
  -- BANNED
  | .disconnected _, .banned =>
      let info2 := info1.setConnectionStatus (.banned now)
      let b := db.bannedPeersCount.addBannedPeer info2.seenIps
      ret info2 (db.disconnectedPeers - 1) b
        (some (.readyToBan (bannedIpsOf b info2)))
  | .disconnecting _, .banned =>
      ret (info1.setConnectionStatus (.disconnecting true))
        db.disconnectedPeers db.bannedPeersCount (some .peerDisconnecting)
  | .banned _, .banned =>
      -- error: Banning already banned peer
      ret info1 db.disconnectedPeers db.bannedPeersCount
        (some (.readyToBan (bannedIpsOf db.bannedPeersCount info1)))
  | .connected _ _, .banned =>
      ret (info1.setConnectionStatus (.disconnecting true))
        db.disconnectedPeers db.bannedPeersCount (some .disconnectThePeer)
  | .dialing _, .banned =>
      ret (info1.setConnectionStatus (.disconnecting true))
        db.disconnectedPeers db.bannedPeersCount (some .disconnectThePeer)
  | .unknown, .banned =>
      let b := db.bannedPeersCount.addBannedPeer info1.seenIps
      let info2 := info1.setConnectionStatus (.banned now)
      ret info2 db.disconnectedPeers b
        (some (.readyToBan (bannedIpsOf b info2)))
  -- UNBANNED
  | oldState, .unbanned =>
      match oldState with
      | .banned since =>
          ret (info1.setConnectionStatus (.disconnected since))
            (db.disconnectedPeers + 1)
            (db.bannedPeersCount.removeBannedPeer info1.seenIps) none
      | _ => ret info1 db.disconnectedPeers db.bannedPeersCount none

/- ## Score transitions and reporting (peerdb.rs lines 416-629, 1152-1195). -/

/-- The result of applying a score transition to a peer. -/
inductive ScoreTransitionResult
  | disconnected
  | banned
  | unbanned
  | noAction
  deriving DecidableEq, Repr

/-- handle_score_transition (peerdb.rs lines 1154-1195): compares the previous
score state with the peer's current one. -/
def handleScoreTransition (previousState : ScoreState) (info : PeerInfo) :
    ScoreTransitionResult :=
  match info.scoreState, previousState with
  | .banned, .healthy => .banned
  | .banned, .forcedDisconnect => .banned
  | .forcedDisconnect, .banned =>
      if info.isConnectedOrDialing then .disconnected else .unbanned
  | .forcedDisconnect, .healthy =>
      if info.isConnectedOrDialing then .disconnected else .noAction
  | .healthy, .forcedDisconnect => .noAction
  | .healthy, .banned => .unbanned
  | .healthy, .healthy => .noAction
  | .forcedDisconnect, .forcedDisconnect => .noAction
  | .banned, .banned => .noAction

/-- The type of results of the report_peer function. -/
inductive ScoreUpdateResult
  | ban (op : BanOperation)
  | disconnect
  | unbanned (ips : List Ip)
  | noAction
  deriving DecidableEq, Repr

/-- From Option BanOperation (peerdb.rs lines 1254-1261). -/
def scoreUpdateOfBanOp : Option BanOperation → ScoreUpdateResult
  | none => .noAction
  | some bo => .ban bo

/-- The seen ips of the peer that are not banned (the seen_ip_addresses
filter of the Unbanned result paths). -/
def PeerDB.unbannedIpsOf (db : PeerDB) (pid : PeerId) : List Ip :=
  match db.peerInfo pid with
  | some i => i.seenIps.filter (fun ip => !db.isIpBanned ip)
  | none => []

/-- report_peer (peerdb.rs lines 563-629): apply the action to the peer's
score and handle the resulting transition. A peer absent from the DB is only
logged; no record is created and no action results. -/
def PeerDB.reportPeer (now : Nat) (pid : PeerId) (action : PeerAction)
    (db : PeerDB) : PeerDB × ScoreUpdateResult :=
  match lookupP db.peers pid with
  | some info =>
      let previousState := info.scoreState
      let info' := info.applyPeerActionToScore action
      let db1 := { db with peers := setP db.peers pid info' }
      match handleScoreTransition previousState info' with
      | .banned =>
          let (db2, op) := db1.updateConnectionState now pid .banned
          (db2, scoreUpdateOfBanOp op)
      | .disconnected =>
          let (db2, _) :=
            db1.updateConnectionState now pid (.disconnecting false)
          (db2, .disconnect)
      | .noAction => (db1, .noAction)
      | .unbanned =>
          -- error: Report peer action lead to an unbanning
          (db1, .noAction)
  | none => (db, .noAction)

/-- Relative factor of peers allowed a negative gossipsub score without
penalty (ALLOWED_NEGATIVE_GOSSIPSUB_FACTOR = 0.1, applied through f32
arithmetic; the f32 model is defined later with the peer-count limits, so the
allowance is a parameter here and instantiated there). -/
def gossipScored (db : PeerDB) (gossipScores : List (PeerId × ℤ)) :
    List (PeerId × PeerInfo × ℤ) :=
  db.peers.filterMap (fun e =>
    if e.2.isConnected then
      match lookupP gossipScores e.1 with
      | some s => some (e.1, e.2, s)
      | none => none
    else none)

/-- Stable insertion sort, descending by the supplied key (one deterministic
instance of sort_unstable_by with the descending comparator). -/
def insertDescBy {α : Type} (key : α → ℤ) (x : α) :
    List α → List α
  | [] => [x]
  | y :: rest =>
      if key y < key x then x :: y :: rest
      else y :: insertDescBy key x rest

/-- Sort descending by the supplied key. -/
def sortDescBy {α : Type} (key : α → ℤ) : List α → List α
  | [] => []
  | x :: rest => insertDescBy key x (sortDescBy key rest)

/-- The per-peer ignore decisions of one update_gossipsub_scores round: walk
the peers in descending gossip-score order, flagging each negative-scoring
peer while the allowance lasts (peerdb.rs lines 490-505). -/
def assignIgnores (allowance : Nat) :
    List (PeerId × PeerInfo × ℤ) → List (PeerId × PeerInfo × ℤ × Bool)
  | [] => []
  | (pid, info, s) :: rest =>
      if s < 0 ∧ 0 < allowance then
        (pid, info, s, true) :: assignIgnores (allowance - 1) rest
      else
        (pid, info, s, false) :: assignIgnores allowance rest

/-- The flagged, sorted peer list of one update_gossipsub_scores round. -/
def gossipFlagged (db : PeerDB) (allowance : Nat)
    (gossipScores : List (PeerId × ℤ)) :
    List (PeerId × PeerInfo × ℤ × Bool) :=
  assignIgnores allowance (sortDescBy (fun t => t.2.2) (gossipScored db gossipScores))

/-- Apply the collected score-transition actions of a gossipsub round
(peerdb.rs lines 513-551). -/
def applyGossipActions (now : Nat) :
    List (PeerId × ScoreTransitionResult) → PeerDB →
    PeerDB × List (PeerId × ScoreUpdateResult)
  | [], db => (db, [])
  | (pid, action) :: rest, db =>
      let r1 : PeerDB × ScoreUpdateResult :=
        match action with
        | .banned =>
            let u := db.updateConnectionState now pid .banned
            (u.1, scoreUpdateOfBanOp u.2)
        | .disconnected =>
            ((db.updateConnectionState now pid (.disconnecting false)).1,
              ScoreUpdateResult.disconnect)
        | .noAction => (db, ScoreUpdateResult.noAction)
        | .unbanned =>
            let u := db.updateConnectionState now pid .unbanned
            (u.1, ScoreUpdateResult.unbanned (u.1.unbannedIpsOf pid))
      let r2 := applyGossipActions now rest r1.1
      (r2.1,
        if r1.2 = ScoreUpdateResult.noAction then r2.2
        else (pid, r1.2) :: r2.2)

/-- update_gossipsub_scores (peerdb.rs lines 468-553): store the gossip score
and ignore flag of every connected peer with a gossipsub score, collect the
score transitions, then apply the resulting connection-state updates. The
gossipsub score oracle and the allowance are parameters. -/
def gossipStep (acc : PeerDB × List (PeerId × ScoreTransitionResult))
    (t : PeerId × PeerInfo × ℤ × Bool) :
    PeerDB × List (PeerId × ScoreTransitionResult) :=
  let (pid, info, s, ignore) := t
  let previousState := info.scoreState
  let info' := info.updateGossipsubScore s ignore
  ({ acc.1 with peers := setP acc.1.peers pid info' },
    acc.2 ++ [(pid, handleScoreTransition previousState info')])

def PeerDB.updateGossipsubScores (now : Nat) (allowance : Nat)
    (gossipScores : List (PeerId × ℤ)) (db : PeerDB) :
    PeerDB × List (PeerId × ScoreUpdateResult) :=
  let flagged := gossipFlagged db allowance gossipScores
  let (db1, actions) := flagged.foldl gossipStep (db, [])
  applyGossipActions now actions db1

/- ## Bounded eviction (shrink_to_fit, peerdb.rs lines 1086-1150). -/

/-- One step of the oldest-banned search. -/
def oldestBannedStep (best : Option (PeerId × PeerInfo × Nat))
    (e : PeerId × PeerInfo) : Option (PeerId × PeerInfo × Nat) :=
  match e.2.connectionStatus with
  | .banned since =>
      match best with
      | none => some (e.1, e.2, since)
      | some (bpid, binfo, bestSince) =>
          if since < bestSince then some (e.1, e.2, since)
          else some (bpid, binfo, bestSince)
  | _ => best

/-- The first banned entry with the minimal ban instant (min_by_key returns
the first of equally minimal elements). -/
def findOldestBanned (peers : List (PeerId × PeerInfo)) :
    Option (PeerId × PeerInfo × Nat) :=
  peers.foldl oldestBannedStep none

/-- One step of the oldest-disconnected search. -/
def oldestDisconnectedStep (best : Option (PeerId × Nat))
    (e : PeerId × PeerInfo) : Option (PeerId × Nat) :=
  if e.2.isDisconnected && !e.2.isTrusted then
    match e.2.connectionStatus with
    | .disconnected since =>
        match best with
        | none => some (e.1, since)
        | some (bpid, bestSince) =>
            if since < bestSince then some (e.1, since)
            else some (bpid, bestSince)
    | _ => best
  else best

/-- The first disconnected, non-trusted entry with the minimal disconnect
instant. -/
def findOldestDisconnected (peers : List (PeerId × PeerInfo)) :
    Option (PeerId × Nat) :=
  peers.foldl oldestDisconnectedStep none

/-- One iteration of the excess-banned-peers loop: drop the oldest banned
peer and emit its newly unbanned ips; reset the counters when no banned peer
exists (the crit-logged safety branch). -/
def shrinkBannedStep (db : PeerDB) : PeerDB × Option (PeerId × List Ip) :=
  match findOldestBanned db.peers with
  | some (pid, info, _) =>
      let b := db.bannedPeersCount.removeBannedPeer info.seenIps
      let db1 := { db with bannedPeersCount := b }
      let unbannedIps := info.seenIps.filter (fun ip => !db1.isIpBanned ip)
      ({ db1 with peers := removeP db1.peers pid }, some (pid, unbannedIps))
  | none =>
      ({ db with bannedPeersCount := BannedPeersCount.defaultCount }, none)

/-- The excess-banned-peers loop of shrink_to_fit. -/
def shrinkBannedLoop (db : PeerDB) (acc : List (PeerId × List Ip)) :
    PeerDB × List (PeerId × List Ip) :=
  if hgt : MAX_BANNED_PEERS < db.bannedPeersCount.bannedPeers then
    shrinkBannedLoop (shrinkBannedStep db).1
      (match (shrinkBannedStep db).2 with
        | some entry => acc ++ [entry]
        | none => acc)
  else (db, acc)
termination_by db.bannedPeersCount.bannedPeers
decreasing_by
  simp only [shrinkBannedStep]
  cases findOldestBanned db.peers with
  | none =>
      simp only [BannedPeersCount.defaultCount]
      omega
  | some x =>
      obtain ⟨pid, info, since⟩ := x
      simp only [BannedPeersCount.removeBannedPeer]
      omega

/-- One iteration of the excess-disconnected-peers loop: drop the oldest
disconnected non-trusted peer when one exists; in any case decrement the
disconnected counter (the safety decrement of the source). -/
def shrinkDisconnectedStep (db : PeerDB) : PeerDB :=
  let peers1 :=
    match findOldestDisconnected db.peers with
    | some (pid, _) => removeP db.peers pid
    | none => db.peers
  { db with peers := peers1, disconnectedPeers := db.disconnectedPeers - 1 }

/-- The excess-disconnected-peers loop of shrink_to_fit. -/
def shrinkDisconnectedLoop (db : PeerDB) : PeerDB :=
  if hgt : MAX_DC_PEERS < db.disconnectedPeers then
    shrinkDisconnectedLoop (shrinkDisconnectedStep db)
  else db
termination_by db.disconnectedPeers
decreasing_by
  simp only [shrinkDisconnectedStep]
  omega

/-- shrink_to_fit (peerdb.rs lines 1086-1150). -/
def PeerDB.shrinkToFit (db : PeerDB) : PeerDB × List (PeerId × List Ip) :=
  let (db1, unbanned) := shrinkBannedLoop db []
  (shrinkDisconnectedLoop db1, unbanned)

/-- inject_disconnect (peerdb.rs lines 1065-1073): a Disconnected transition
followed by a shrink pass. -/
def PeerDB.injectDisconnect (now : Nat) (pid : PeerId) (db : PeerDB) :
    PeerDB × Option BanOperation × List (PeerId × List Ip) :=
  let (db1, maybeBanOp) := db.updateConnectionState now pid .disconnected
  let (db2, purged) := db1.shrinkToFit
  (db2, maybeBanOp, purged)

/- ## Operation sequences on the PeerDB (for the reachable-state claims). -/

/-- The operations of the reachability claims: raw connection-state
transitions, score reports, gossip-score update rounds and shrink passes. -/
inductive PeerDBOp
  | connState (pid : PeerId) (newState : NewConnectionState)
  | report (pid : PeerId) (action : PeerAction)
  | gossipUpdate (allowance : Nat) (gossipScores : List (PeerId × ℤ))
  | shrink
  deriving Repr

/-- Apply one operation at the given tick, dropping the outputs. -/
def PeerDB.applyOp (now : Nat) (op : PeerDBOp) (db : PeerDB) : PeerDB :=
  match op with
  | .connState pid newState => (db.updateConnectionState now pid newState).1
  | .report pid action => (db.reportPeer now pid action).1
  | .gossipUpdate allowance scores =>
      (db.updateGossipsubScores now allowance scores).1
  | .shrink => db.shrinkToFit.1

/-- A raw Disconnecting transition aimed at a peer currently in the Banned
connection state: the error-logged invalid edge of the transition function
(peerdb.rs line 947) that desynchronizes the banned counters. -/
def PeerDBOp.isDisconnectingOnBanned (db : PeerDB) : PeerDBOp → Prop
  | .connState pid (.disconnecting _) =>
      ∃ i, db.peerInfo pid = some i ∧ i.isBanned = true
  | _ => False

/-- Reachability from a fresh PeerDB with no trusted peers and scoring
enabled, along operations that never apply a Disconnecting transition to a
peer whose current connection state is Banned. -/
inductive ReachableGood : PeerDB → Prop
  | init : ReachableGood (PeerDB.new [] false)
  | step (db : PeerDB) (now : Nat) (op : PeerDBOp) :
      ReachableGood db → ¬ op.isDisconnectingOnBanned db →
      ReachableGood (db.applyOp now op)

/- ## IEEE-754 binary32 arithmetic model (for the f32 peer-count limits). -/

/-- An exact rational as an integer numerator over a positive natural
denominator, without normalization (every operation here keeps denominators
moderate, so reduction is unnecessary; Lean's Rat operations are irreducible
to the kernel, which would block the decidable evaluations below). -/
structure Exq where
  num : ℤ
  den : ℕ
  deriving DecidableEq, Repr

def Exq.ofNat (n : ℕ) : Exq := ⟨n, 1⟩

def Exq.mul (a b : Exq) : Exq := ⟨a.num * b.num, a.den * b.den⟩

def Exq.add (a b : Exq) : Exq :=
  ⟨a.num * (b.den : ℤ) + b.num * (a.den : ℤ), a.den * b.den⟩

/-- Division; every divisor used here is a positive value. -/
def Exq.div (a b : Exq) : Exq := ⟨a.num * (b.den : ℤ), a.den * b.num.toNat⟩

def Exq.le (a b : Exq) : Bool := a.num * (b.den : ℤ) ≤ b.num * (a.den : ℤ)

def Exq.floor (a : Exq) : ℤ := Int.fdiv a.num (a.den : ℤ)

def Exq.ceil (a : Exq) : ℤ := -Int.fdiv (-a.num) ((a.den : ℤ))

/-- Round to the nearest integer, ties to even. -/
def Exq.rne (a : Exq) : ℤ :=
  let f := a.floor
  let r2 := 2 * (a.num - f * (a.den : ℤ))
  if r2 < (a.den : ℤ) then f
  else if (a.den : ℤ) < r2 then f + 1
  else if f % 2 = 0 then f else f + 1

/-- The least k with d ≤ n * 2 ^ k (fuel-bounded; 64 suffices for every
denominator arising here, and every use is at a concrete input). -/
def scaleUpK (n d : ℕ) : Nat → Nat
  | 0 => 0
  | fuel + 1 => if d ≤ n then 0 else 1 + scaleUpK (2 * n) d fuel

/-- The greatest e with d * 2 ^ e ≤ n (fuel-bounded, as scaleUpK). -/
def scaleDownK (n d : ℕ) : Nat → Nat
  | 0 => 0
  | fuel + 1 => if 2 * d ≤ n then 1 + scaleDownK n (2 * d) fuel else 0

/-- Floor of the base-2 logarithm of a positive exact rational. -/
def Exq.log2floor (a : Exq) : ℤ :=
  let n := a.num.toNat
  if a.den ≤ n then (scaleDownK n a.den 64 : ℤ) else -(scaleUpK n a.den 64 : ℤ)

/-- Round a nonnegative exact rational to the nearest IEEE-754 binary32 value
(round to nearest, ties to even; 24-bit significand). Exponent overflow and
subnormal rounding lie outside the magnitudes used here. -/
def roundF32 (a : Exq) : Exq :=
  if a.num ≤ 0 then ⟨0, 1⟩
  else
    let e := a.log2floor
    if e ≤ 23 then
      let k := (23 - e).toNat
      -- significand of a * 2 ^ (23 - e), rounded; value m / 2 ^ (23 - e)
      ⟨Exq.rne ⟨a.num * ((Nat.pow 2 k : ℕ) : ℤ), a.den⟩, Nat.pow 2 k⟩
    else
      let k := (e - 23).toNat
      ⟨Exq.rne ⟨a.num, a.den * Nat.pow 2 k⟩ * ((Nat.pow 2 k : ℕ) : ℤ), 1⟩

/-- f32 addition: the rounded exact sum. -/
def addF32 (a b : Exq) : Exq := roundF32 (a.add b)

/-- f32 multiplication: the rounded exact product. -/
def mulF32 (a b : Exq) : Exq := roundF32 (a.mul b)

/-- f32 division: the rounded exact quotient. -/
def divF32 (a b : Exq) : Exq := roundF32 (a.div b)

/-- f32 ceil, exact: the ceiling of a binary32 value is representable. -/
def ceilF32 (a : Exq) : Exq := ⟨a.ceil, 1⟩

/-- A usize converted to f32 (rounded to nearest, ties to even). -/
def usizeAsF32 (t : Nat) : Exq := roundF32 (Exq.ofNat t)

/-- An f32 cast to usize: truncation toward zero, saturating at the bounds
(Rust float-to-int cast semantics); every use here is of a nonnegative
integral value. -/
def f32AsUsize (a : Exq) : Nat :=
  if a.num ≤ 0 then 0
  else if Nat.pow 2 64 - 1 ≤ a.floor.toNat then Nat.pow 2 64 - 1
  else a.floor.toNat

/-- The f32 literal 1.0. -/
def oneF32 : Exq := ⟨1, 1⟩

/-- PEER_EXCESS_FACTOR = 0.1 as the binary32 literal (mod.rs line 56). -/
def PEER_EXCESS_FACTOR : Exq := roundF32 ⟨1, 10⟩

/-- TARGET_OUTBOUND_ONLY_FACTOR = 0.3 as the binary32 literal (mod.rs 58). -/
def TARGET_OUTBOUND_ONLY_FACTOR : Exq := roundF32 ⟨3, 10⟩

/-- MIN_OUTBOUND_ONLY_FACTOR = 0.2 as the binary32 literal (mod.rs 61). -/
def MIN_OUTBOUND_ONLY_FACTOR : Exq := roundF32 ⟨2, 10⟩

/-- PRIORITY_PEER_EXCESS = 0.2 as the binary32 literal (mod.rs 66). -/
def PRIORITY_PEER_EXCESS : Exq := roundF32 ⟨2, 10⟩

/-- ALLOWED_NEGATIVE_GOSSIPSUB_FACTOR = 0.1 as the binary32 literal
(peerdb.rs line 33). -/
def ALLOWED_NEGATIVE_GOSSIPSUB_FACTOR : Exq := roundF32 ⟨1, 10⟩

/-- max_peers (mod.rs lines 397-399):
ceil of target_peers as f32 times (1.0 + PEER_EXCESS_FACTOR). -/
def maxPeers (targetPeers : Nat) : Nat :=
  f32AsUsize (ceilF32 (mulF32 (usizeAsF32 targetPeers)
    (addF32 oneF32 PEER_EXCESS_FACTOR)))

/-- max_priority_peers (mod.rs lines 404-407):
ceil of target_peers as f32 times (1.0 + PEER_EXCESS_FACTOR +
PRIORITY_PEER_EXCESS). -/
def maxPriorityPeers (targetPeers : Nat) : Nat :=
  f32AsUsize (ceilF32 (mulF32 (usizeAsF32 targetPeers)
    (addF32 (addF32 oneF32 PEER_EXCESS_FACTOR) PRIORITY_PEER_EXCESS)))

/-- min_outbound_only_peers (mod.rs lines 410-412). -/
def minOutboundOnlyPeers (targetPeers : Nat) : Nat :=
  f32AsUsize (ceilF32 (mulF32 (usizeAsF32 targetPeers)
    MIN_OUTBOUND_ONLY_FACTOR))

/-- target_outbound_peers (mod.rs lines 415-417). -/
def targetOutboundPeers (targetPeers : Nat) : Nat :=
  f32AsUsize (ceilF32 (mulF32 (usizeAsF32 targetPeers)
    TARGET_OUTBOUND_ONLY_FACTOR))

/-- max_outbound_dialing_peers (mod.rs lines 421-424):
ceil of target_peers as f32 times (1.0 + PEER_EXCESS_FACTOR +
PRIORITY_PEER_EXCESS / 2.0). -/
def maxOutboundDialingPeers (targetPeers : Nat) : Nat :=
  f32AsUsize (ceilF32 (mulF32 (usizeAsF32 targetPeers)
    (addF32 (addF32 oneF32 PEER_EXCESS_FACTOR)
      (divF32 PRIORITY_PEER_EXCESS (Exq.ofNat 2)))))

/-- The allowance of negative gossipsub peers in one round, as computed by
the source in f32 (peerdb.rs lines 490-491). -/
def allowedNegativeGossipsubPeers (targetPeers : Nat) : Nat :=
  f32AsUsize (ceilF32 (mulF32 (usizeAsF32 targetPeers)
    ALLOWED_NEGATIVE_GOSSIPSUB_FACTOR))

/-- The exact mathematical ceiling of (m * t) / d over the naturals, used to
state the rational-ceiling limits of the spec (section 4.2.1). -/
def ceilMulDiv (m t d : ℕ) : ℕ := (m * t + d - 1) / d

/-- Spec: max_peers = ceil(target times 1.1), as a rational ceiling. -/
def specMaxPeers (t : Nat) : Nat := ceilMulDiv 11 t 10

/-- Spec: max_priority_peers = ceil(target times 1.3). -/
def specMaxPriorityPeers (t : Nat) : Nat := ceilMulDiv 13 t 10

/-- Spec: min_outbound = ceil(target times 0.2). -/
def specMinOutboundOnlyPeers (t : Nat) : Nat := ceilMulDiv 2 t 10

/-- Spec: target_outbound = ceil(target times 0.3). -/
def specTargetOutboundPeers (t : Nat) : Nat := ceilMulDiv 3 t 10

/-- Spec: max_outbound_dialing = ceil(target times 1.2). -/
def specMaxOutboundDialingPeers (t : Nat) : Nat := ceilMulDiv 12 t 10

/-- update_gossipsub_scores with the allowance computed from target_peers as
in the source (peerdb.rs lines 490-491). -/
def PeerDB.updateGossipsubScoresTarget (now targetPeers : Nat)
    (gossipScores : List (PeerId × ℤ)) (db : PeerDB) :
    PeerDB × List (PeerId × ScoreUpdateResult) :=
  db.updateGossipsubScores now (allowedNegativeGossipsubPeers targetPeers)
    gossipScores

/- ## Pruning excess peers (mod.rs lines 984-1190). -/

/-- When pruning, do not drop below this count on a sync-committee subnet
(MIN_SYNC_COMMITTEE_PEERS, mod.rs line 52). -/
def MIN_SYNC_COMMITTEE_PEERS : Nat := 2

/-- One prune_peers macro pass (mod.rs lines 999-1034): walk the peers
worst-score-first, keeping only peers without a future duty, not trusted and
passing the pass filter; stop at the quota; skip already chosen peers; drop
an outbound-only peer only while the outbound count stays above the target.
The state is the chosen list (insertion-ordered model of the HashSet) and the
number of outbound peers pruned. -/
def prunePass (filter : PeerInfo → Bool)
    (targetOutbound connectedOutbound quota : Nat) :
    List (PeerId × PeerInfo) → List PeerId × Nat → List PeerId × Nat
  | [], st => st
  | (pid, info) :: rest, (pruned, obPruned) =>
      if !info.hasFutureDuty && !info.isTrusted && filter info then
        if quota ≤ pruned.length then (pruned, obPruned)
        else if pruned.contains pid then
          prunePass filter targetOutbound connectedOutbound quota rest
            (pruned, obPruned)
        else if info.isOutboundOnly then
          if targetOutbound + obPruned < connectedOutbound then
            prunePass filter targetOutbound connectedOutbound quota rest
              (pruned ++ [pid], obPruned + 1)
          else
            prunePass filter targetOutbound connectedOutbound quota rest
              (pruned, obPruned)
        else
          prunePass filter targetOutbound connectedOutbound quota rest
            (pruned ++ [pid], obPruned)
      else
        prunePass filter targetOutbound connectedOutbound quota rest
          (pruned, obPruned)

/-- Append a value at the end of the list held under a key, creating the
entry if missing (entry().or_default().push). -/
def pushToListMap {α : Type} (m : List (Nat × List α)) (k : Nat) (x : α) :
    List (Nat × List α) :=
  match lookupP m k with
  | some l => setP m k (l ++ [x])
  | none => m ++ [(k, [x])]

/-- Insert a value into the set-list held under a key
(entry().or_default().insert). -/
def addToSetMap (m : List (PeerId × List Nat)) (pid : PeerId) (v : Nat) :
    List (PeerId × List Nat) :=
  match lookupP m pid with
  | some l => if l.contains v then m else setP m pid (l ++ [v])
  | none => m ++ [(pid, [v])]

/-- The three maps of pruning stage 3 (mod.rs lines 1049-1054). -/
structure PruneCtx where
  subnetToPeer : List (Nat × List (PeerId × PeerInfo))
  syncCommitteeCount : List (Nat × Nat)
  peerToSyncCommittee : List (PeerId × List Nat)
  deriving Repr

/-- One subnet record of the stage-3 map building (mod.rs lines 1060-1084):
a long-lived attestation subnet goes into subnet_to_peer; a sync-committee
subnet bumps its count and records the membership; data-column subnets are
not pruned yet. -/
def pruneMapStepSub (pid : PeerId) (info : PeerInfo) (ctx : PruneCtx)
    (sub : SubnetK) : PruneCtx :=
  match sub with
  | .attestation n =>
      { ctx with subnetToPeer := pushToListMap ctx.subnetToPeer n (pid, info) }
  | .syncCommittee n =>
      { ctx with
          syncCommitteeCount := bumpIp ctx.syncCommitteeCount n
          peerToSyncCommittee := addToSetMap ctx.peerToSyncCommittee pid n }
  | .dataColumn _ => ctx

/-- One peer of the stage-3 map building: trusted and already chosen peers
are skipped (mod.rs lines 1057-1059). -/
def pruneMapStep (pruned : List PeerId) (ctx : PruneCtx)
    (e : PeerId × PeerInfo) : PruneCtx :=
  if e.2.isTrusted || pruned.contains e.1 then ctx
  else e.2.subnets.foldl (pruneMapStepSub e.1 e.2) ctx

/-- Build the stage-3 maps (mod.rs lines 1056-1087): walk the connected
peers, skipping trusted and already chosen ones, and record every long-lived
attestation subnet membership, sync-committee membership and count. -/
def buildPruneMaps (connPeers : List (PeerId × PeerInfo))
    (pruned : List PeerId) : PruneCtx :=
  connPeers.foldl (pruneMapStep pruned) ⟨[], [], []⟩

/-- One step of max_by_key: keep the later entry when list lengths tie
(Rust max_by_key returns the last of equal maxima). -/
def pickBetter (best : Option (Nat × List (PeerId × PeerInfo)))
    (e : Nat × List (PeerId × PeerInfo)) :
    Option (Nat × List (PeerId × PeerInfo)) :=
  match best with
  | none => some e
  | some b => if b.2.length ≤ e.2.length then some e else some b

/-- max_by_key over the subnet map: the last entry with the maximal list
length (the map iteration order itself is the arbitrary order of this
association list). -/
def pickLastMaxSubnet (m : List (Nat × List (PeerId × PeerInfo))) :
    Option (Nat × List (PeerId × PeerInfo)) :=
  m.foldl pickBetter none

/-- Stable insertion into a list sorted ascending by the key. -/
def insertAscByKey {α : Type} (key : α → Nat) (x : α) : List α → List α
  | [] => [x]
  | y :: rest =>
      if key x ≤ key y then x :: y :: rest else y :: insertAscByKey key x rest

/-- Stable sort, ascending by the key (sort_by_key is a stable sort). -/
def sortAscByKey {α : Type} (key : α → Nat) : List α → List α
  | [] => []
  | x :: rest => insertAscByKey key x (sortAscByKey key rest)

/-- The minimum of the sync-committee counts of the given subnets, over the
entries present in the count map (mod.rs lines 1128-1132). -/
def minSyncCount (scount : List (Nat × Nat)) (subnets : List Nat) :
    Option Nat :=
  (subnets.filterMap (lookupP scount)).foldl
    (fun best c =>
      match best with
      | none => some c
      | some b => if c < b then some c else best) none

/-- Whether the sync-committee guard forbids pruning this peer: it belongs to
a sync committee whose population is at or below the minimum (mod.rs lines
1124-1141). -/
def syncGuardBlocks (p2s : List (PeerId × List Nat))
    (scount : List (Nat × Nat)) (pid : PeerId) : Bool :=
  match lookupP p2s pid with
  | some subnets =>
      match minSyncCount scount subnets with
      | some m => m ≤ MIN_SYNC_COMMITTEE_PEERS
      | none => false
  | none => false

/-- Find the first candidate in the ordered subnet list that passes the
outbound and sync-committee guards (mod.rs lines 1107-1149); returns the
candidate and the list with the candidate removed. -/
def findCandidate (targetOutbound connectedOutbound obPruned : Nat)
    (p2s : List (PeerId × List Nat)) (scount : List (Nat × Nat)) :
    List (PeerId × PeerInfo) →
    Option ((PeerId × PeerInfo) × List (PeerId × PeerInfo))
  | [] => none
  | (pid, info) :: rest =>
      if info.isOutboundOnly &&
          (connectedOutbound - obPruned ≤ targetOutbound) then
        (findCandidate targetOutbound connectedOutbound obPruned p2s scount
          rest).map (fun r => (r.1, (pid, info) :: r.2))
      else if syncGuardBlocks p2s scount pid then
        (findCandidate targetOutbound connectedOutbound obPruned p2s scount
          rest).map (fun r => (r.1, (pid, info) :: r.2))
      else
        some ((pid, info), rest)

/-- Stage 3 of pruning (mod.rs lines 1090-1183): repeatedly pick the fullest
attestation subnet, shuffle it, stable-sort it by long-lived subnet count,
and prune the first peer passing the guards, updating the maps; when no peer
of the subnet passes, clear the subnet and try again. The shuffle is the
source's rand::thread_rng shuffle, abstracted to a parameter; the loop is
fuel-bounded (the source loop terminates because every iteration removes at
least one map element; every theorem below holds for every fuel). -/
def prunePass3Loop (shuffle : List (PeerId × PeerInfo) → List (PeerId × PeerInfo))
    (targetOutbound connectedOutbound quota : Nat) :
    Nat → PruneCtx → List PeerId × Nat → List PeerId × Nat
  | 0, _, st => st
  | fuel + 1, ctx, (pruned, obPruned) =>
      if quota ≤ pruned.length then (pruned, obPruned)
      else
        match pickLastMaxSubnet ctx.subnetToPeer with
        | none => (pruned, obPruned)
        | some (subnetId, peersOnSubnet) =>
            if peersOnSubnet.isEmpty then (pruned, obPruned)
            else
              let ordered := sortAscByKey (fun e => e.2.longLivedSubnetCount)
                (shuffle peersOnSubnet)
              match findCandidate targetOutbound connectedOutbound obPruned
                  ctx.peerToSyncCommittee ctx.syncCommitteeCount ordered with
              | some ((cand, candInfo), others) =>
                  let obPruned' :=
                    if candInfo.isOutboundOnly then obPruned + 1 else obPruned
                  let subnetToPeer' :=
                    (setP ctx.subnetToPeer subnetId others).map
                      (fun e => (e.1, e.2.filter (fun p => p.1 ≠ cand)))
                  let syncCount' :=
                    match lookupP ctx.peerToSyncCommittee cand with
                    | some subs => decIps ctx.syncCommitteeCount subs
                    | none => ctx.syncCommitteeCount
                  let pruned' :=
                    if pruned.contains cand then pruned else pruned ++ [cand]
                  prunePass3Loop shuffle targetOutbound connectedOutbound quota
                    fuel
                    { ctx with
                        subnetToPeer := subnetToPeer'
                        syncCommitteeCount := syncCount' }
                    (pruned', obPruned')
              | none =>
                  prunePass3Loop shuffle targetOutbound connectedOutbound quota
                    fuel
                    { ctx with subnetToPeer := setP ctx.subnetToPeer subnetId [] }
                    (pruned, obPruned)

/-- prune_excess_peers (mod.rs lines 984-1190). The peer snapshots are
parameters: worstPeers models worst_connected_peers() (the connected peers
sorted worst-score-first, ties in arbitrary order) and connPeers models the
connected_peers() iteration (arbitrary HashMap order); the connected counts
model the network-globals counters read at entry. Returns the set of peers
chosen for disconnection, in insertion order. -/
def pruneExcessPeers (targetPeers connectedPeerCount connectedOutboundPeerCount : Nat)
    (worstPeers connPeers : List (PeerId × PeerInfo))
    (shuffle : List (PeerId × PeerInfo) → List (PeerId × PeerInfo))
    (fuel : Nat) : List PeerId :=
  if connectedPeerCount ≤ targetPeers then []
  else
    let quota := connectedPeerCount - targetPeers
    let tOut := targetOutboundPeers targetPeers
    let st1 := prunePass (fun info => info.scoreValue < 0) tOut
      connectedOutboundPeerCount quota worstPeers ([], 0)
    let st2 :=
      if st1.1.length < quota then
        prunePass (fun info => !info.hasLongLivedSubnet) tOut
          connectedOutboundPeerCount quota worstPeers st1
      else st1
    let st3 :=
      if st2.1.length < quota then
        prunePass3Loop shuffle tOut connectedOutboundPeerCount quota fuel
          (buildPruneMaps connPeers st2.1) st2
      else st2
    st3.1

/- ## Inbound connection handling (network_behaviour.rs lines 181-219). -/

/-- handle_established_inbound_connection: deny when the peer is banned
(by score or banned ip), or when the connected-or-dialing count has reached
max_peers and the peer is absent from the PDB or has no future duty. Returns
true when the handshake is accepted. -/
def handleEstablishedInboundConnection (db : PeerDB) (targetPeers : Nat)
    (pid : PeerId) : Bool :=
  if (db.banStatus pid).isSome then false
  else if maxPeers targetPeers ≤ db.connectedOrDialingCount &&
      (match db.peerInfo pid with
        | none => true
        | some peer => !peer.hasFutureDuty) then false
  else true

/- ## ENR reconciliation at startup (discovery/enr.rs lines 98-150, 285-307). -/

/-- The local ENR, restricted to the fields read by use_or_load_enr and
compare_enr: the node id, the sequence number, the optional address and port
fields, and the raw values of the eth2, attnets, syncnets and csc keys
(get_decodable results, compared as opaque bytes). -/
structure EnrM where
  nodeId : Nat
  seq : Nat
  ip4 : Option Nat
  ip6 : Option Nat
  tcp4 : Option Nat
  tcp6 : Option Nat
  quic4 : Option Nat
  quic6 : Option Nat
  udp4 : Option Nat
  udp6 : Option Nat
  eth2 : Option (List Nat)
  attnets : Option (List Nat)
  syncnets : Option (List Nat)
  csc : Option (List Nat)
  deriving DecidableEq, Repr

/-- compare_enr (enr.rs lines 285-307): prefer the disk address when the
local ENR leaves it unspecified; tcp and quic ports must match exactly; the
fork id, attnets, syncnets and csc fields must match; udp ports must match
only when the local ENR specifies them. -/
def compareEnr (localEnr diskEnr : EnrM) : Bool :=
  (localEnr.ip4.isNone || localEnr.ip4 == diskEnr.ip4) &&
  (localEnr.ip6.isNone || localEnr.ip6 == diskEnr.ip6) &&
  localEnr.tcp4 == diskEnr.tcp4 &&
  localEnr.tcp6 == diskEnr.tcp6 &&
  localEnr.quic4 == diskEnr.quic4 &&
  localEnr.quic6 == diskEnr.quic6 &&
  localEnr.eth2 == diskEnr.eth2 &&
  (localEnr.udp4.isNone || localEnr.udp4 == diskEnr.udp4) &&
  (localEnr.udp6.isNone || localEnr.udp6 == diskEnr.udp6) &&
  localEnr.attnets == diskEnr.attnets &&
  localEnr.syncnets == diskEnr.syncnets &&
  localEnr.csc == diskEnr.csc

/-- The u64 sequence-number bound of checked_add. -/
def U64_MAX : Nat := Nat.pow 2 64 - 1

/-- use_or_load_enr (enr.rs lines 98-150). The on-disk state is an optional
decoded ENR (none models a missing or undecodable file, which leaves the
local ENR unchanged): with the same node id, a matching comparison adopts
the disk ENR; otherwise the local ENR takes sequence number disk.seq + 1, and
an overflowing increment is a startup error. -/
def useOrLoadEnr (localEnr : EnrM) (diskEnr : Option EnrM) :
    Except String EnrM :=
  match diskEnr with
  | some d =>
      if localEnr.nodeId = d.nodeId then
        if compareEnr localEnr d then .ok d
        else if d.seq = U64_MAX then
          .error "ENR sequence number on file is too large"
        else .ok { localEnr with seq := d.seq + 1 }
      else .ok localEnr
  | none => .ok localEnr

/-- The adoption condition exactly as the claim words it (for comparison
with compare_enr): every comparison field matches, namely the fork digest,
all port fields that the freshly built ENR specifies, attnets, syncnets and
csc. -/
def claimFieldsMatch (localEnr diskEnr : EnrM) : Bool :=
  localEnr.eth2 == diskEnr.eth2 &&
  (localEnr.tcp4.isNone || localEnr.tcp4 == diskEnr.tcp4) &&
  (localEnr.tcp6.isNone || localEnr.tcp6 == diskEnr.tcp6) &&
  (localEnr.quic4.isNone || localEnr.quic4 == diskEnr.quic4) &&
  (localEnr.quic6.isNone || localEnr.quic6 == diskEnr.quic6) &&
  (localEnr.udp4.isNone || localEnr.udp4 == diskEnr.udp4) &&
  (localEnr.udp6.isNone || localEnr.udp6 == diskEnr.udp6) &&
  localEnr.attnets == diskEnr.attnets &&
  localEnr.syncnets == diskEnr.syncnets &&
  localEnr.csc == diskEnr.csc

/- ## Concrete states used by the counterexamples and witnesses. -/

/-- The bounded-range agreement check between the f32 limits and the
rational ceilings (used by the amended peer-limit claim). -/
def limitsAgree (t : Nat) : Bool :=
  (maxPeers t == specMaxPeers t) &&
  (minOutboundOnlyPeers t == specMinOutboundOnlyPeers t) &&
  (specTargetOutboundPeers t ≤ targetOutboundPeers t) &&
  (decide (targetOutboundPeers t ≤ specTargetOutboundPeers t + 1)) &&
  (decide (specMaxPriorityPeers t ≤ maxPriorityPeers t)) &&
  (decide (maxPriorityPeers t ≤ specMaxPriorityPeers t + 1)) &&
  (decide (specMaxOutboundDialingPeers t ≤ maxOutboundDialingPeers t)) &&
  (decide (maxOutboundDialingPeers t ≤ specMaxOutboundDialingPeers t + 1))

/-- A fresh PeerDB in which peer 7 was banned at tick 0 (an Unknown to
Banned transition) and then received a Disconnecting transition at tick 1:
the error-logged edge that leaves the banned counter at 1 with no peer in
the Banned state. -/
def exC1a : PeerDB := (PeerDB.new [] false).applyOp 0 (.connState 7 .banned)

def exC1b : PeerDB := exC1a.applyOp 1 (.connState 7 (.disconnecting false))

/-- A fresh PeerDB in which peer 9 is in the Banned connection state. -/
def exBannedDb : PeerDB :=
  (PeerDB.new [] false).applyOp 0 (.connState 9 .banned)

/-- The Banned peer 9 receives an incoming Connected transition. -/
def exC2 : PeerDB × Option BanOperation :=
  exBannedDb.updateConnectionState 1 9 (.connected .incoming (some 4))

/-- A report against peer 5, which is absent from the fresh PeerDB. -/
def exC3 : PeerDB × ScoreUpdateResult :=
  (PeerDB.new [] false).reportPeer 0 5 .lowToleranceError

/-- A connected peer record with a neutral score. -/
def connInfo : PeerInfo :=
  ⟨.connected 1 0, Score.defaultScore, false, false, [], []⟩

/-- Two connected peers with gossipsub scores -1 and -2, target one peer:
the round may ignore one negative peer. -/
def exC4Db : PeerDB :=
  ⟨[(1, connInfo), (2, connInfo)], 0, BannedPeersCount.defaultCount, false⟩

def exC4Scores : List (PeerId × ℤ) := [(1, -1), (2, -2)]

def exC4Flagged : List (PeerId × PeerInfo × ℤ × Bool) :=
  gossipFlagged exC4Db (allowedNegativeGossipsubPeers 1) exC4Scores

/-- A connected, non-trusted peer with a future duty on attestation
subnet 0. -/
def exC5InfoA : PeerInfo :=
  ⟨.connected 1 0, Score.defaultScore, false, true, [], [.attestation 0]⟩

/-- A connected trusted peer on attestation subnet 0. -/
def exC5InfoB : PeerInfo :=
  ⟨.connected 1 0, Score.maxScoreRecord, true, false, [], [.attestation 0]⟩

def exC5Peers : List (PeerId × PeerInfo) := [(1, exC5InfoA), (2, exC5InfoB)]

/-- Pruning two connected peers down to a target of one: the only prunable
candidate of stage 3 is peer 1, which has a future duty. -/
def exC5Pruned : List PeerId :=
  pruneExcessPeers 1 2 0 exC5Peers exC5Peers id 10

/-- A PDB holding two connected peers and the priority peer 3 (present with
a future duty), at a target of one peer. -/
def exC7Db : PeerDB :=
  ⟨[(1, connInfo), (2, connInfo),
    (3, ⟨.disconnected 0, Score.defaultScore, false, true, [], []⟩)],
    1, BannedPeersCount.defaultCount, false⟩

/-- A fresh PeerDB in which peer 6 connected from ip 3 at tick 0 and
disconnected at tick 1. -/
def exC8Db : PeerDB :=
  ((PeerDB.new [] false).applyOp 0
      (.connState 6 (.connected .incoming (some 3)))).applyOp 1
    (.connState 6 .disconnected)

/-- A freshly built local ENR that does not specify a tcp4 port. -/
def exC9Local : EnrM :=
  ⟨1, 5, none, none, none, none, none, none, none, none,
    some [1], some [0], some [0], none⟩

/-- The on-disk ENR: the same node id and fields, except that it carries a
tcp4 port the local ENR leaves unspecified. -/
def exC9Disk : EnrM :=
  ⟨1, 5, none, none, some 9000, none, none, none, none, none,
    some [1], some [0], some [0], none⟩

/-- A fresh PeerDB whose only peer, 4, is trusted. -/
def exC10Db : PeerDB := PeerDB.new [4] false

/-- The trusted peer 4 receives a Banned transition at tick 0. -/
def exC10After : PeerDB := (exC10Db.updateConnectionState 0 4 .banned).1

/-- The counting invariant of section 8, together with the structural facts
that carry it through every operation: distinct peer keys, scoring enabled,
and every record non-trusted with duplicate-free seen ips. -/
def PeerDB.goodShape (db : PeerDB) : Prop :=
  keysNodup db.peers ∧
  db.disablePeerScoring = false ∧
  (∀ e ∈ db.peers, e.2.isTrusted = false ∧ e.2.seenIps.Nodup) ∧
  db.countDisconnectedStatus = db.disconnectedPeers ∧
  db.countBannedStatus = db.bannedPeersCount.bannedPeers ∧
  (∀ ip, db.countBannedWithIp ip =
    lookup0 db.bannedPeersCount.bannedPeersPerIp ip)


/- ## Association-list lemmas. -/

theorem lookupP_setP_self {β : Type} (l : List (PeerId × β)) (k : PeerId)
    (v : β) : lookupP (setP l k v) k = some v := by
  induction l with
  | nil => simp [setP, lookupP]
  | cons e rest ih =>
      obtain ⟨ek, ev⟩ := e
      by_cases h : ek = k
      · simp [setP, h, lookupP]
      · simp [setP, h, lookupP, ih]

theorem lookupP_setP_ne {β : Type} (l : List (PeerId × β)) (k k' : PeerId)
    (v : β) (h : k' ≠ k) : lookupP (setP l k v) k' = lookupP l k' := by
  induction l with
  | nil => simp [setP, lookupP, Ne.symm h]
  | cons e rest ih =>
      obtain ⟨ek, ev⟩ := e
      by_cases hek : ek = k
      · subst hek
        simp [setP, lookupP, Ne.symm h]
      · simp only [setP, if_neg hek, lookupP]
        by_cases hek' : ek = k'
        · simp [hek']
        · simp [hek', ih]

theorem lookupP_mem {β : Type} {l : List (PeerId × β)} {k : PeerId} {v : β}
    (h : lookupP l k = some v) : (k, v) ∈ l := by
  induction l with
  | nil => simp [lookupP] at h
  | cons e rest ih =>
      obtain ⟨ek, ev⟩ := e
      by_cases hek : ek = k
      · subst hek
        simp [lookupP] at h
        simp [h]
      · simp only [lookupP, if_neg hek] at h
        exact List.mem_cons_of_mem _ (ih h)

theorem mem_lookupP {β : Type} {l : List (PeerId × β)} {k : PeerId} {v : β}
    (hnd : keysNodup l) (h : (k, v) ∈ l) : lookupP l k = some v := by
  induction l with
  | nil => simp at h
  | cons e rest ih =>
      obtain ⟨ek, ev⟩ := e
      simp only [keysNodup, List.map_cons, List.nodup_cons] at hnd
      rcases List.mem_cons.mp h with h1 | h1
      · cases h1
        simp [lookupP]
      · have hk : ¬ ek = k := by
          intro he
          exact hnd.1 (he ▸ (List.mem_map.mpr ⟨(k, v), h1, rfl⟩))
        simp only [lookupP, if_neg hk]
        exact ih hnd.2 h1

theorem lookupP_eq_none {β : Type} {l : List (PeerId × β)} {k : PeerId}
    (h : ∀ v, (k, v) ∉ l) : lookupP l k = none := by
  induction l with
  | nil => rfl
  | cons e rest ih =>
      obtain ⟨ek, ev⟩ := e
      by_cases hek : ek = k
      · subst hek
        exact absurd (List.mem_cons_self _ _) (h ev)
      · simp only [lookupP, if_neg hek]
        exact ih (fun v hv => h v (List.mem_cons_of_mem _ hv))

theorem lookupP_none_not_mem {β : Type} {l : List (PeerId × β)} {k : PeerId}
    (h : lookupP l k = none) : k ∉ l.map Prod.fst := by
  induction l with
  | nil => simp
  | cons e rest ih =>
      obtain ⟨ek, ev⟩ := e
      by_cases hek : ek = k
      · simp [lookupP, hek] at h
      · simp only [lookupP, if_neg hek] at h
        simp only [List.map_cons, List.mem_cons]
        rintro (h1 | h1)
        · exact hek h1.symm
        · exact ih h h1

theorem setP_keys_of_lookup_some {β : Type} {l : List (PeerId × β)}
    {k : PeerId} {w : β} (v : β) (h : lookupP l k = some w) :
    (setP l k v).map Prod.fst = l.map Prod.fst := by
  induction l with
  | nil => simp [lookupP] at h
  | cons e rest ih =>
      obtain ⟨ek, ev⟩ := e
      by_cases hek : ek = k
      · subst hek
        simp [setP]
      · simp only [lookupP, if_neg hek] at h
        simp [setP, if_neg hek, ih h]

theorem setP_eq_append_of_lookup_none {β : Type} {l : List (PeerId × β)}
    {k : PeerId} (v : β) (h : lookupP l k = none) :
    setP l k v = l ++ [(k, v)] := by
  induction l with
  | nil => simp [setP]
  | cons e rest ih =>
      obtain ⟨ek, ev⟩ := e
      by_cases hek : ek = k
      · simp [lookupP, hek] at h
      · simp only [lookupP, if_neg hek] at h
        simp [setP, if_neg hek, ih h]

theorem keysNodup_setP {β : Type} (l : List (PeerId × β)) (k : PeerId)
    (v : β) (hnd : keysNodup l) : keysNodup (setP l k v) := by
  cases h : lookupP l k with
  | some w =>
      unfold keysNodup
      rw [setP_keys_of_lookup_some v h]
      exact hnd
  | none =>
      unfold keysNodup
      rw [setP_eq_append_of_lookup_none v h, List.map_append]
      have h2 : ([(k, v)] : List (PeerId × β)).map Prod.fst = [k] := rfl
      rw [h2]
      refine List.Nodup.append hnd (List.nodup_singleton k) ?_
      intro a ha hb
      rw [List.mem_singleton] at hb
      subst hb
      exact lookupP_none_not_mem h ha

theorem removeP_keys_sublist {β : Type} (l : List (PeerId × β))
    (k : PeerId) : ((removeP l k).map Prod.fst).Sublist (l.map Prod.fst) := by
  induction l with
  | nil => simp [removeP]
  | cons e rest ih =>
      obtain ⟨ek, ev⟩ := e
      by_cases hek : ek = k
      · simp only [removeP, if_pos hek, List.map_cons]
        exact List.sublist_cons_self _ _
      · simp only [removeP, if_neg hek, List.map_cons]
        exact ih.cons₂ ek

theorem keysNodup_removeP {β : Type} (l : List (PeerId × β)) (k : PeerId)
    (hnd : keysNodup l) : keysNodup (removeP l k) := by
  exact List.Nodup.sublist (removeP_keys_sublist l k) hnd

theorem countP_setP {β : Type} (p : β → Bool) (l : List (PeerId × β))
    (k : PeerId) (v : β) :
    (setP l k v).countP (fun e => p e.2) +
        (match lookupP l k with
          | some old => if p old = true then 1 else 0
          | none => 0) =
      l.countP (fun e => p e.2) + (if p v = true then 1 else 0) := by
  induction l with
  | nil => simp [setP, lookupP, List.countP_cons]
  | cons e rest ih =>
      obtain ⟨ek, ev⟩ := e
      by_cases hek : ek = k
      · subst hek
        simp [setP, lookupP, List.countP_cons]
        cases hpe : p ev <;> cases hpv : p v <;> simp [hpe, hpv] <;> omega
      · simp only [setP, if_neg hek, lookupP, if_neg hek]
        simp only [List.countP_cons]
        cases hl : lookupP rest k with
        | none =>
            rw [hl] at ih
            simp only at ih
            cases hpe : p ev <;> simp [hpe] <;> omega
        | some old =>
            rw [hl] at ih
            simp only at ih
            cases hpe : p ev <;> cases hpo : p old <;>
              simp [hpe, hpo] at ih ⊢ <;> omega

theorem countP_removeP {β : Type} (p : β → Bool) (l : List (PeerId × β))
    (k : PeerId) :
    (removeP l k).countP (fun e => p e.2) +
        (match lookupP l k with
          | some old => if p old = true then 1 else 0
          | none => 0) =
      l.countP (fun e => p e.2) := by
  induction l with
  | nil => simp [removeP, lookupP]
  | cons e rest ih =>
      obtain ⟨ek, ev⟩ := e
      by_cases hek : ek = k
      · subst hek
        simp [removeP, lookupP, List.countP_cons]
      · simp only [removeP, if_neg hek, lookupP, if_neg hek]
        simp only [List.countP_cons]
        cases hl : lookupP rest k with
        | none =>
            rw [hl] at ih
            simp only at ih
            cases hpe : p ev <;> simp [hpe] <;> omega
        | some old =>
            rw [hl] at ih
            simp only at ih
            cases hpe : p ev <;> cases hpo : p old <;>
              simp [hpe, hpo] at ih ⊢ <;> omega

theorem countP_pos_of_lookupP {β : Type} {p : β → Bool}
    {l : List (PeerId × β)} {k : PeerId} {v : β}
    (h : lookupP l k = some v) (hp : p v = true) :
    1 ≤ l.countP (fun e => p e.2) := by
  induction l with
  | nil => simp [lookupP] at h
  | cons e rest ih =>
      obtain ⟨ek, ev⟩ := e
      by_cases hek : ek = k
      · subst hek
        have hv : ev = v := by simpa [lookupP] using h
        subst hv
        simp only [List.countP_cons]
        simp [hp]
      · simp only [lookupP, if_neg hek] at h
        have := ih h
        simp [List.countP_cons]
        omega

/- ## Per-ip counting lemmas. -/

theorem lookup0_bumpIp (m : List (Ip × Nat)) (i j : Ip) :
    lookup0 (bumpIp m i) j = lookup0 m j + (if i = j then 1 else 0) := by
  induction m with
  | nil => by_cases h : i = j <;> simp [bumpIp, lookup0, h]
  | cons e rest ih =>
      obtain ⟨ek, ev⟩ := e
      by_cases hek : ek = i
      · subst hek
        by_cases h : ek = j <;> simp [bumpIp, lookup0, h] <;> omega
      · simp only [bumpIp, if_neg hek, lookup0]
        by_cases h : ek = j
        · subst h
          have : ¬ i = ek := fun hh => hek hh.symm
          simp [this]
        · simp [h, ih]

theorem lookup0_decIp (m : List (Ip × Nat)) (i j : Ip) :
    lookup0 (decIp m i) j = lookup0 m j - (if i = j then 1 else 0) := by
  induction m with
  | nil => simp [decIp, lookup0]
  | cons e rest ih =>
      obtain ⟨ek, ev⟩ := e
      by_cases hek : ek = i
      · subst hek
        by_cases h : ek = j <;> simp [decIp, lookup0, h]
      · simp only [decIp, if_neg hek, lookup0]
        by_cases h : ek = j
        · subst h
          have : ¬ i = ek := fun hh => hek hh.symm
          simp [this]
        · simp [h, ih]

theorem lookup0_bumpIps (m : List (Ip × Nat)) (ips : List Ip) (j : Ip) :
    lookup0 (bumpIps m ips) j = lookup0 m j + ips.count j := by
  induction ips generalizing m with
  | nil => simp [bumpIps, List.count_nil]
  | cons i tl ih =>
      show lookup0 (bumpIps (bumpIp m i) tl) j = _
      rw [ih, lookup0_bumpIp]
      have : (i :: tl).count j = tl.count j + (if i = j then 1 else 0) := by
        simp [List.count_cons]
      rw [this]
      omega

theorem lookup0_decIps (m : List (Ip × Nat)) (ips : List Ip) (j : Ip) :
    lookup0 (decIps m ips) j = lookup0 m j - ips.count j := by
  induction ips generalizing m with
  | nil => simp [decIps, List.count_nil]
  | cons i tl ih =>
      show lookup0 (decIps (decIp m i) tl) j = _
      rw [ih, lookup0_decIp]
      have : (i :: tl).count j = (if i = j then 1 else 0) + tl.count j := by
        simp [List.count_cons]
        by_cases h : i = j <;> simp [h] <;> omega
      rw [this]
      omega

/- ## Claim C3: reporting an unknown peer. -/

/-- C3, counterexample: reporting peer 5, absent from a fresh PeerDB, does
not create any record for it (contradicting the claim that a default record
is created and the report applied): the database still has no entry for
peer 5 and the result is NoAction. -/
theorem c3_counterexample :
    exC3.1.peerInfo 5 = none ∧ exC3.2 = ScoreUpdateResult.noAction ∧
      exC3.1 = PeerDB.new [] false := by
  decide

/-- C3 (amended): when report_peer is called with a peer-id absent from the
PeerDB, no record is created; the database is returned unchanged and the
result is NoAction (default or trusted records are created by
update_connection_state for unknown peers, not by report_peer). -/
theorem c3_amended (db : PeerDB) (now : Nat) (pid : PeerId)
    (action : PeerAction) (h : lookupP db.peers pid = none) :
    db.reportPeer now pid action = (db, ScoreUpdateResult.noAction) := by
  simp [PeerDB.reportPeer, h]

/-- Witness for c3_amended at a concrete input. -/
theorem c3_amended_witness :
    (PeerDB.new [] false).reportPeer 0 5 PeerAction.fatal =
      (PeerDB.new [] false, ScoreUpdateResult.noAction) :=
  c3_amended (PeerDB.new [] false) 0 5 PeerAction.fatal (by decide)

/- ## Claim C6: the derived peer-count limits. -/

/-- C6, counterexample: at a target of 10 peers, the source computes
max_priority_peers as 14 (the f32 value of 1.0 + 0.1 + 0.2 is 1.3000001,
and ceil(10 * 1.3000001) = 14), while the exact rational ceiling of
10 * 1.3 is 13. -/
theorem c6_counterexample :
    maxPriorityPeers 10 = 14 ∧ specMaxPriorityPeers 10 = 13 := by
  decide

set_option maxRecDepth 40000 in
/-- C6 (amended): for every target t up to 256, max_peers and
min_outbound_only_peers equal the exact rational ceilings, and each of the
other three limits is within one above its rational ceiling; the exact
equalities fail for max_priority_peers (first at t = 10), for
max_outbound_dialing_peers (first at t = 25) and for target_outbound_peers
(first at t = 50), because the f32 factors exceed the decimal ones. -/
theorem c6_amended (t : Nat) (ht : t ≤ 256) :
    maxPeers t = specMaxPeers t ∧
    minOutboundOnlyPeers t = specMinOutboundOnlyPeers t ∧
    (specTargetOutboundPeers t ≤ targetOutboundPeers t ∧
      targetOutboundPeers t ≤ specTargetOutboundPeers t + 1) ∧
    (specMaxPriorityPeers t ≤ maxPriorityPeers t ∧
      maxPriorityPeers t ≤ specMaxPriorityPeers t + 1) ∧
    (specMaxOutboundDialingPeers t ≤ maxOutboundDialingPeers t ∧
      maxOutboundDialingPeers t ≤ specMaxOutboundDialingPeers t + 1) := by
  have hall : (List.range 257).all limitsAgree = true := by decide
  have hmem : t ∈ List.range 257 := List.mem_range.mpr (by omega)
  have h := List.all_eq_true.mp hall t hmem
  simp only [limitsAgree, Bool.and_eq_true, beq_iff_eq,
    decide_eq_true_eq] at h
  obtain ⟨⟨⟨⟨⟨⟨⟨h1, h2⟩, h3⟩, h4⟩, h5⟩, h6⟩, h7⟩, h8⟩ := h
  exact ⟨h1, h2, ⟨h3, h4⟩, ⟨h5, h6⟩, ⟨h7, h8⟩⟩

/-- Witness for c6_amended at a concrete input. -/
theorem c6_amended_witness :
    7 ≤ 256 ∧
      (maxPeers 7 = specMaxPeers 7 ∧
      minOutboundOnlyPeers 7 = specMinOutboundOnlyPeers 7 ∧
      (specTargetOutboundPeers 7 ≤ targetOutboundPeers 7 ∧
        targetOutboundPeers 7 ≤ specTargetOutboundPeers 7 + 1) ∧
      (specMaxPriorityPeers 7 ≤ maxPriorityPeers 7 ∧
        maxPriorityPeers 7 ≤ specMaxPriorityPeers 7 + 1) ∧
      (specMaxOutboundDialingPeers 7 ≤ maxOutboundDialingPeers 7 ∧
        maxOutboundDialingPeers 7 ≤ specMaxOutboundDialingPeers 7 + 1)) :=
  ⟨by omega, c6_amended 7 (by omega)⟩

/- ## Claim C9: ENR reconciliation at startup. -/

/-- C9, counterexample: the freshly built ENR specifies no tcp4 port, the
on-disk ENR carries one, and every field the claim compares matches; the
claim says the on-disk ENR is adopted unchanged, but use_or_load_enr
compares tcp ports unconditionally, does not adopt it, and instead bumps
the sequence number. -/
theorem c9_counterexample :
    exC9Local.nodeId = exC9Disk.nodeId ∧
    claimFieldsMatch exC9Local exC9Disk = true ∧
    useOrLoadEnr exC9Local (some exC9Disk) ≠ Except.ok exC9Disk ∧
    useOrLoadEnr exC9Local (some exC9Disk) =
      Except.ok { exC9Local with seq := exC9Disk.seq + 1 } := by
  refine ⟨rfl, rfl, ?_, rfl⟩
  intro h
  simpa [useOrLoadEnr, compareEnr, exC9Local, exC9Disk, U64_MAX] using h

/-- C9 (amended): with an on-disk ENR of the same node id, the on-disk ENR
is adopted unchanged exactly when compare_enr holds, which requires the tcp
and quic ports to match even when the freshly built ENR leaves them
unspecified (only ip addresses and udp ports are compared conditionally);
otherwise the local ENR takes sequence number disk.seq + 1, and when that
increment overflows a u64, use_or_load_enr returns an error so startup is
refused. -/
theorem c9_amended (localEnr d : EnrM) :
    (localEnr.nodeId = d.nodeId → compareEnr localEnr d = true →
      useOrLoadEnr localEnr (some d) = Except.ok d) ∧
    (localEnr.nodeId = d.nodeId → compareEnr localEnr d = false →
      d.seq ≠ U64_MAX →
      useOrLoadEnr localEnr (some d) =
        Except.ok { localEnr with seq := d.seq + 1 }) ∧
    (localEnr.nodeId = d.nodeId → compareEnr localEnr d = false →
      d.seq = U64_MAX →
      useOrLoadEnr localEnr (some d) =
        Except.error "ENR sequence number on file is too large") ∧
    (localEnr.nodeId ≠ d.nodeId →
      useOrLoadEnr localEnr (some d) = Except.ok localEnr) := by
  refine ⟨?_, ?_, ?_, ?_⟩
  · intro h1 h2
    simp [useOrLoadEnr, h1, h2]
  · intro h1 h2 h3
    simp [useOrLoadEnr, h1, h2, h3]
  · intro h1 h2 h3
    simp [useOrLoadEnr, h1, h2, h3]
  · intro h1
    simp [useOrLoadEnr, h1]

/-- Witness for c9_amended at a concrete input. -/
theorem c9_amended_witness :
    exC9Local.nodeId = exC9Disk.nodeId ∧ compareEnr exC9Local exC9Disk = false ∧
      exC9Disk.seq ≠ U64_MAX ∧
      useOrLoadEnr exC9Local (some exC9Disk) =
        Except.ok { exC9Local with seq := exC9Disk.seq + 1 } :=
  ⟨by decide, by decide, by decide,
    (c9_amended exC9Local exC9Disk).2.1 (by decide) (by decide) (by decide)⟩

/- ## Claim C7: inbound handshakes at the peer limit. -/

/-- C7, counterexample: at a target of one peer, max_peers and
max_priority_peers are both 2 and two peers are connected, so the
connected-or-dialing count has reached max_priority_peers; yet the inbound
handshake of the priority peer 3 is still accepted, because
handle_established_inbound_connection has no max_priority_peers bound
(max_priority_peers only bounds dialing). -/
theorem c7_counterexample :
    handleEstablishedInboundConnection exC7Db 1 3 = true ∧
    maxPriorityPeers 1 ≤ exC7Db.connectedOrDialingCount ∧
    maxPeers 1 ≤ exC7Db.connectedOrDialingCount := by
  decide

/-- C7 (amended): a non-banned peer present in the PDB with a future
min_ttl is accepted by handle_established_inbound_connection regardless of
the connected count, and once connected_or_dialing has reached max_peers
every handshake from a peer that is absent or has no future min_ttl is
rejected; no max_priority_peers bound applies to inbound handshakes. -/
theorem c7_amended (db : PeerDB) (target : Nat) (pid : PeerId) :
    (db.banStatus pid = none →
      (db.peerInfo pid).map PeerInfo.hasFutureDuty = some true →
      handleEstablishedInboundConnection db target pid = true) ∧
    (maxPeers target ≤ db.connectedOrDialingCount →
      (db.peerInfo pid).map PeerInfo.hasFutureDuty ≠ some true →
      handleEstablishedInboundConnection db target pid = false) := by
  constructor
  · intro hban hduty
    cases hinfo : db.peerInfo pid with
    | none => simp [hinfo] at hduty
    | some info =>
        rw [hinfo] at hduty
        simp only [Option.map_some', Option.some.injEq] at hduty
        simp [handleEstablishedInboundConnection, hban, hinfo, hduty]
  · intro hcount hduty
    have hd : (match db.peerInfo pid with
        | none => true
        | some peer => !peer.hasFutureDuty) = true := by
      cases hinfo : db.peerInfo pid with
      | none => rfl
      | some info =>
          rw [hinfo] at hduty
          cases h : info.hasFutureDuty
          · simp [h]
          · exact absurd (by simp [h]) hduty
    unfold handleEstablishedInboundConnection
    by_cases hban : (db.banStatus pid).isSome
    · simp [hban]
    · simp [hban, hcount, hd]

/-- Witness for c7_amended at concrete inputs. -/
theorem c7_amended_witness :
    handleEstablishedInboundConnection exC7Db 1 3 = true ∧
      handleEstablishedInboundConnection exC7Db 1 1 = false :=
  ⟨(c7_amended exC7Db 1 3).1 (by decide) (by decide),
    (c7_amended exC7Db 1 1).2 (by decide) (by decide)⟩

/- ## Claim C2: a Connected transition on a Banned peer. -/

/-- C2, counterexample: peer 9 is Banned; a Connected transition does not
refuse the connection: the stored status becomes Connected (one inbound
connection) and the peer is removed from the banned counters, contradicting
the claim that the record keeps its Banned status. -/
theorem c2_counterexample :
    exBannedDb.connectionStatusOf 9 = some (PeerConnectionStatus.banned 0) ∧
    exC2.1.connectionStatusOf 9 =
      some (PeerConnectionStatus.connected 1 0) ∧
    exC2.1.bannedPeersCount.bannedPeers = 0 := by
  decide

/-- C2 (amended): when the transition function receives a Connected
transition for a peer whose current connection_status is Banned, it logs an
error but accepts the connection: the peer is removed from the banned
counters and its record becomes Connected in the direction of the new
connection (the spec itself notes this accepted-after-ban edge as a latent
bug in section 9). -/
theorem c2_amended (db : PeerDB) (now : Nat) (pid : PeerId)
    (info : PeerInfo) (dir : ConnectionDirection) (ip : Option Ip)
    (since : Nat) (hinfo : lookupP db.peers pid = some info)
    (hst : info.connectionStatus = PeerConnectionStatus.banned since) :
    (db.updateConnectionState now pid
        (.connected dir ip)).1.connectionStatusOf pid =
      some (match dir with
        | .incoming => PeerConnectionStatus.connected 1 0
        | .outgoing => PeerConnectionStatus.connected 0 1) ∧
    (db.updateConnectionState now pid (.connected dir ip)).1.bannedPeersCount =
      db.bannedPeersCount.removeBannedPeer info.seenIps ∧
    (db.updateConnectionState now pid (.connected dir ip)).2 = none := by
  unfold PeerDB.updateConnectionState
  rw [hinfo]
  simp only [hst]
  simp only [PeerDB.connectionStatusOf, PeerDB.peerInfo]
  cases dir <;>
    simp [lookupP_setP_self, PeerInfo.connectWith, hst]

/-- Witness for c2_amended at a concrete input. -/
theorem c2_amended_witness :
    (exBannedDb.updateConnectionState 1 9
        (.connected ConnectionDirection.incoming (some 4))).1.connectionStatusOf 9 =
      some (PeerConnectionStatus.connected 1 0) ∧
    (exBannedDb.updateConnectionState 1 9
        (.connected ConnectionDirection.incoming (some 4))).1.bannedPeersCount =
      exBannedDb.bannedPeersCount.removeBannedPeer
        (⟨PeerConnectionStatus.banned 0, ⟨-100, 0, false⟩, false, false, [],
          []⟩ : PeerInfo).seenIps ∧
    (exBannedDb.updateConnectionState 1 9
        (.connected ConnectionDirection.incoming (some 4))).2 = none :=
  c2_amended exBannedDb 1 9
    ⟨PeerConnectionStatus.banned 0, ⟨-100, 0, false⟩, false, false, [], []⟩
    ConnectionDirection.incoming (some 4) 0 (by decide) (by decide)

/- ## Claim C10: the Banned transition and the persistent score. -/

/-- C10, counterexample: peer 4 is trusted (score pinned at maximum); the
Banned transition calls apply_peer_action_to_score with Fatal, but that is
a no-op on a trusted peer, so after the transition the stored connection
state is Banned while the score state is Healthy, not Banned. -/
theorem c10_counterexample :
    (exC10After.peerInfo 4).map PeerInfo.scoreState =
      some ScoreState.healthy ∧
    ((exC10After.peerInfo 4).map PeerInfo.connectionStatus =
      some (PeerConnectionStatus.banned 0)) ∧
    (exC10After.peerInfo 4).map PeerInfo.scoreValue = some maxScoreValue := by
  decide

/-- C10 (amended): whenever the Banned transition is applied to a peer
whose score state is not already Banned, the transition function applies a
Fatal penalty through PeerInfo::apply_peer_action_to_score; for a
non-trusted peer this forces the stored score state to Banned, while a
trusted peer is immune to score sanctions and keeps its maximum score. -/
theorem c10_amended (db : PeerDB) (now : Nat) (pid : PeerId)
    (info : PeerInfo) (hinfo : lookupP db.peers pid = some info)
    (htr : info.isTrusted = false) :
    ((db.updateConnectionState now pid .banned).1.peerInfo pid).map
      PeerInfo.scoreState = some ScoreState.banned := by
  unfold PeerDB.updateConnectionState
  rw [hinfo]
  have hstate : ∀ i : PeerInfo, i.isTrusted = false →
      (i.applyPeerActionToScore PeerAction.fatal).scoreState =
        ScoreState.banned := by
    intro i hi
    simp [PeerInfo.applyPeerActionToScore, hi, PeerInfo.scoreState,
      PeerInfo.scoreValue, Score.applyAction, Score.value, scoreStateOfValue,
      minScoreValue, banThreshold]
  have hkeep : ∀ i : PeerInfo, ∀ st,
      (i.setConnectionStatus st).scoreState = i.scoreState := by
    intro i st
    simp [PeerInfo.setConnectionStatus, PeerInfo.scoreState,
      PeerInfo.scoreValue]
  cases hsc : info.scoreState with
  | banned =>
      simp only [hsc]
      cases hcs : info.connectionStatus <;>
        simp [hcs, PeerDB.peerInfo, lookupP_setP_self, hkeep, hsc]
  | healthy =>
      simp only [hsc]
      have h1 := hstate info htr
      have h2 : (info.applyPeerActionToScore PeerAction.fatal).connectionStatus =
          info.connectionStatus := by
        simp [PeerInfo.applyPeerActionToScore, htr]
      cases hcs : info.connectionStatus <;>
        simp [hcs, h2, PeerDB.peerInfo, lookupP_setP_self, hkeep, h1]
  | forcedDisconnect =>
      simp only [hsc]
      have h1 := hstate info htr
      have h2 : (info.applyPeerActionToScore PeerAction.fatal).connectionStatus =
          info.connectionStatus := by
        simp [PeerInfo.applyPeerActionToScore, htr]
      cases hcs : info.connectionStatus <;>
        simp [hcs, h2, PeerDB.peerInfo, lookupP_setP_self, hkeep, h1]

/-- Witness for c10_amended at a concrete input. -/
theorem c10_amended_witness :
    ((((PeerDB.new [] false).applyOp 0
            (.connState 7 .banned)).updateConnectionState 1 7
          .banned).1.peerInfo 7).map PeerInfo.scoreState =
      some ScoreState.banned :=
  c10_amended ((PeerDB.new [] false).applyOp 0 (.connState 7 .banned)) 1 7
    ⟨PeerConnectionStatus.banned 0, ⟨-100, 0, false⟩, false, false, [], []⟩
    (by decide) (by decide)

/- ## Field-preservation lemmas for the PeerInfo operations. -/

theorem applyAction_connectionStatus (a : PeerAction) (i : PeerInfo) :
    (i.applyPeerActionToScore a).connectionStatus = i.connectionStatus := by
  unfold PeerInfo.applyPeerActionToScore
  split <;> rfl

theorem applyAction_seenIps (a : PeerAction) (i : PeerInfo) :
    (i.applyPeerActionToScore a).seenIps = i.seenIps := by
  unfold PeerInfo.applyPeerActionToScore
  split <;> rfl

theorem applyAction_isTrusted (a : PeerAction) (i : PeerInfo) :
    (i.applyPeerActionToScore a).isTrusted = i.isTrusted := by
  unfold PeerInfo.applyPeerActionToScore
  split <;> rfl

theorem applyAction_subnets (a : PeerAction) (i : PeerInfo) :
    (i.applyPeerActionToScore a).subnets = i.subnets := by
  unfold PeerInfo.applyPeerActionToScore
  split <;> rfl

theorem setStatus_connectionStatus (st : PeerConnectionStatus)
    (i : PeerInfo) : (i.setConnectionStatus st).connectionStatus = st := rfl

theorem setStatus_seenIps (st : PeerConnectionStatus) (i : PeerInfo) :
    (i.setConnectionStatus st).seenIps = i.seenIps := rfl

theorem setStatus_isTrusted (st : PeerConnectionStatus) (i : PeerInfo) :
    (i.setConnectionStatus st).isTrusted = i.isTrusted := rfl

theorem setStatus_score (st : PeerConnectionStatus) (i : PeerInfo) :
    (i.setConnectionStatus st).score = i.score := rfl

theorem clearSubnets_connectionStatus (i : PeerInfo) :
    i.clearSubnets.connectionStatus = i.connectionStatus := rfl

theorem clearSubnets_seenIps (i : PeerInfo) :
    i.clearSubnets.seenIps = i.seenIps := rfl

theorem clearSubnets_isTrusted (i : PeerInfo) :
    i.clearSubnets.isTrusted = i.isTrusted := rfl

theorem connectWith_seenIps (dir : ConnectionDirection) (ip : Option Ip)
    (i : PeerInfo) :
    (i.connectWith dir ip).seenIps =
      (match ip with
        | some ip => insertIp i.seenIps ip
        | none => i.seenIps) := by
  cases ip <;> rfl

theorem connectWith_isTrusted (dir : ConnectionDirection) (ip : Option Ip)
    (i : PeerInfo) : (i.connectWith dir ip).isTrusted = i.isTrusted := rfl

/- ## Claim C8: Banned then Unbanned on a Disconnected peer. -/

/-- C8 (confirmed): a peer currently Disconnected that receives a Banned
transition and then an Unbanned transition, with no other event in between,
is back in the Disconnected connection state, and the disconnected counter
and the banned counters (the total and every per-ip count) are back at
their prior values. (The Disconnected `since` stamp is refreshed to the ban
instant; the connection state is restored at the level of the variant, as
the claim words it.) -/
theorem c8_banned_unbanned_roundtrip (db : PeerDB) (now now2 : Nat)
    (pid : PeerId) (info : PeerInfo) (d : Nat)
    (hinfo : lookupP db.peers pid = some info)
    (hst : info.connectionStatus = PeerConnectionStatus.disconnected d)
    (hD : 1 ≤ db.disconnectedPeers) :
    (((db.updateConnectionState now pid .banned).1.updateConnectionState
        now2 pid .unbanned).1.connectionStatusOf pid =
      some (PeerConnectionStatus.disconnected now)) ∧
    ((db.updateConnectionState now pid .banned).1.updateConnectionState
        now2 pid .unbanned).1.disconnectedPeers = db.disconnectedPeers ∧
    ((db.updateConnectionState now pid .banned).1.updateConnectionState
        now2 pid .unbanned).1.bannedPeersCount.bannedPeers =
      db.bannedPeersCount.bannedPeers ∧
    ∀ ip, lookup0 ((db.updateConnectionState now pid
        .banned).1.updateConnectionState
          now2 pid .unbanned).1.bannedPeersCount.bannedPeersPerIp ip =
      lookup0 db.bannedPeersCount.bannedPeersPerIp ip := by
  have hdb1 : ∃ iMid : PeerInfo,
      iMid.connectionStatus = PeerConnectionStatus.banned now ∧
      iMid.seenIps = info.seenIps ∧
      (db.updateConnectionState now pid .banned).1 =
        { db with
            peers := setP db.peers pid iMid
            disconnectedPeers := db.disconnectedPeers - 1
            bannedPeersCount :=
              db.bannedPeersCount.addBannedPeer info.seenIps } := by
    unfold PeerDB.updateConnectionState
    rw [hinfo]
    cases hsc : info.scoreState with
    | banned =>
        refine ⟨info.setConnectionStatus (PeerConnectionStatus.banned now),
          rfl, rfl, ?_⟩
        simp [hsc, hst, setStatus_seenIps]
    | healthy =>
        refine ⟨(info.applyPeerActionToScore PeerAction.fatal).setConnectionStatus
          (PeerConnectionStatus.banned now), rfl, ?_, ?_⟩
        · rw [setStatus_seenIps, applyAction_seenIps]
        · simp [hsc, applyAction_connectionStatus, hst, setStatus_seenIps,
            applyAction_seenIps]
    | forcedDisconnect =>
        refine ⟨(info.applyPeerActionToScore PeerAction.fatal).setConnectionStatus
          (PeerConnectionStatus.banned now), rfl, ?_, ?_⟩
        · rw [setStatus_seenIps, applyAction_seenIps]
        · simp [hsc, applyAction_connectionStatus, hst, setStatus_seenIps,
            applyAction_seenIps]
  obtain ⟨iMid, hMidSt, hMidIps, hdb1eq⟩ := hdb1
  rw [hdb1eq]
  have hlook1 : lookupP (setP db.peers pid iMid) pid = some iMid :=
    lookupP_setP_self _ _ _
  have hdb2 : ((({ db with
      peers := setP db.peers pid iMid
      disconnectedPeers := db.disconnectedPeers - 1
      bannedPeersCount :=
        db.bannedPeersCount.addBannedPeer info.seenIps } : PeerDB)).updateConnectionState
        now2 pid .unbanned).1 =
      { db with
          peers := setP (setP db.peers pid iMid) pid
            (iMid.setConnectionStatus (PeerConnectionStatus.disconnected now))
          disconnectedPeers := db.disconnectedPeers - 1 + 1
          bannedPeersCount :=
            (db.bannedPeersCount.addBannedPeer info.seenIps).removeBannedPeer
              iMid.seenIps } := by
    unfold PeerDB.updateConnectionState
    rw [hlook1]
    simp [hMidSt]
  rw [hdb2]
  refine ⟨?_, ?_, ?_, ?_⟩
  · simp [PeerDB.connectionStatusOf, PeerDB.peerInfo, lookupP_setP_self,
      setStatus_connectionStatus]
  · show db.disconnectedPeers - 1 + 1 = db.disconnectedPeers
    omega
  · simp [BannedPeersCount.addBannedPeer, BannedPeersCount.removeBannedPeer]
  · intro ip
    simp only [BannedPeersCount.addBannedPeer,
      BannedPeersCount.removeBannedPeer, hMidIps]
    rw [lookup0_decIps, lookup0_bumpIps]
    omega

/-- Witness for c8_banned_unbanned_roundtrip at a concrete input: peer 6
disconnected at tick 1 with seen ip 3, banned at tick 2, unbanned at
tick 3. -/
theorem c8_roundtrip_witness :
    (((exC8Db.updateConnectionState 2 6 .banned).1.updateConnectionState
        3 6 .unbanned).1.connectionStatusOf 6 =
      some (PeerConnectionStatus.disconnected 2)) ∧
    ((exC8Db.updateConnectionState 2 6 .banned).1.updateConnectionState
        3 6 .unbanned).1.disconnectedPeers = exC8Db.disconnectedPeers ∧
    ((exC8Db.updateConnectionState 2 6 .banned).1.updateConnectionState
        3 6 .unbanned).1.bannedPeersCount.bannedPeers =
      exC8Db.bannedPeersCount.bannedPeers ∧
    ∀ ip, lookup0 ((exC8Db.updateConnectionState 2 6
        .banned).1.updateConnectionState
          3 6 .unbanned).1.bannedPeersCount.bannedPeersPerIp ip =
      lookup0 exC8Db.bannedPeersCount.bannedPeersPerIp ip :=
  c8_banned_unbanned_roundtrip exC8Db 2 3 6
    ⟨PeerConnectionStatus.disconnected 1, ⟨0, 0, false⟩, false, false, [3],
      []⟩ 1 (by decide) (by decide) (by decide)

/- ## Sorting and flag-assignment lemmas for the gossipsub round. -/

theorem mem_insertDescBy {α : Type} (key : α → ℤ) (x z : α) (l : List α) :
    z ∈ insertDescBy key x l ↔ z = x ∨ z ∈ l := by
  induction l with
  | nil => simp [insertDescBy]
  | cons y rest ih =>
      by_cases h : key y < key x
      · simp only [insertDescBy, if_pos h, List.mem_cons]
      · simp only [insertDescBy, if_neg h, List.mem_cons, ih]
        tauto

theorem insertDescBy_perm {α : Type} (key : α → ℤ) (x : α) (l : List α) :
    (insertDescBy key x l).Perm (x :: l) := by
  induction l with
  | nil => simp [insertDescBy]
  | cons y rest ih =>
      by_cases h : key y < key x
      · simp [insertDescBy, h]
      · simp only [insertDescBy, if_neg h]
        exact (ih.cons y).trans (List.Perm.swap x y rest)

theorem sortDescBy_perm {α : Type} (key : α → ℤ) (l : List α) :
    (sortDescBy key l).Perm l := by
  induction l with
  | nil => simp [sortDescBy]
  | cons x rest ih =>
      exact (insertDescBy_perm key x (sortDescBy key rest)).trans (ih.cons x)

theorem pairwise_insertDescBy {α : Type} (key : α → ℤ) (x : α)
    (l : List α) (h : l.Pairwise (fun a b => key b ≤ key a)) :
    (insertDescBy key x l).Pairwise (fun a b => key b ≤ key a) := by
  induction l with
  | nil => simp [insertDescBy]
  | cons y rest ih =>
      rw [List.pairwise_cons] at h
      by_cases hk : key y < key x
      · simp only [insertDescBy, if_pos hk]
        refine List.Pairwise.cons ?_ (List.Pairwise.cons h.1 h.2)
        intro z hz
        rcases List.mem_cons.mp hz with hz1 | hz1
        · subst hz1
          omega
        · have := h.1 z hz1
          omega
      · simp only [insertDescBy, if_neg hk]
        refine List.Pairwise.cons ?_ (ih h.2)
        intro z hz
        rcases (mem_insertDescBy key x z rest).mp hz with hz1 | hz1
        · subst hz1
          omega
        · exact h.1 z hz1

theorem sortDescBy_pairwise {α : Type} (key : α → ℤ) (l : List α) :
    (sortDescBy key l).Pairwise (fun a b => key b ≤ key a) := by
  induction l with
  | nil => simp [sortDescBy]
  | cons x rest ih => exact pairwise_insertDescBy key x _ ih

theorem mem_assignIgnores {allowance : Nat}
    {l : List (PeerId × PeerInfo × ℤ)} {t : PeerId × PeerInfo × ℤ × Bool}
    (h : t ∈ assignIgnores allowance l) : (t.1, t.2.1, t.2.2.1) ∈ l := by
  induction l generalizing allowance with
  | nil => simp [assignIgnores] at h
  | cons x rest ih =>
      obtain ⟨pid, info, sc⟩ := x
      simp only [assignIgnores] at h
      split at h
      · rcases List.mem_cons.mp h with h1 | h1
        · subst h1
          simp
        · exact List.mem_cons_of_mem _ (ih h1)
      · rcases List.mem_cons.mp h with h1 | h1
        · subst h1
          simp
        · exact List.mem_cons_of_mem _ (ih h1)

theorem assignIgnores_flag_neg {allowance : Nat}
    {l : List (PeerId × PeerInfo × ℤ)} {t : PeerId × PeerInfo × ℤ × Bool}
    (h : t ∈ assignIgnores allowance l) (hf : t.2.2.2 = true) :
    t.2.2.1 < 0 := by
  induction l generalizing allowance with
  | nil => simp [assignIgnores] at h
  | cons x rest ih =>
      obtain ⟨pid, info, sc⟩ := x
      simp only [assignIgnores] at h
      split at h
      · rcases List.mem_cons.mp h with h1 | h1
        · subst h1
          simpa using (by assumption : sc < 0 ∧ 0 < allowance).1
        · exact ih h1
      · rcases List.mem_cons.mp h with h1 | h1
        · subst h1
          simp at hf
        · exact ih h1

theorem assignIgnores_zero_flags {l : List (PeerId × PeerInfo × ℤ)}
    {t : PeerId × PeerInfo × ℤ × Bool} (h : t ∈ assignIgnores 0 l) :
    t.2.2.2 = false := by
  induction l with
  | nil => simp [assignIgnores] at h
  | cons x rest ih =>
      obtain ⟨pid, info, sc⟩ := x
      simp only [assignIgnores] at h
      split at h
      · exact absurd (by assumption : sc < 0 ∧ 0 < 0) (by omega)
      · rcases List.mem_cons.mp h with h1 | h1
        · subst h1
          rfl
        · exact ih h1

theorem assignIgnores_count (allowance : Nat)
    (l : List (PeerId × PeerInfo × ℤ)) :
    (assignIgnores allowance l).countP (fun t => t.2.2.2) =
      if l.countP (fun x => decide (x.2.2 < 0)) ≤ allowance then
        l.countP (fun x => decide (x.2.2 < 0))
      else allowance := by
  induction l generalizing allowance with
  | nil => simp [assignIgnores]
  | cons x rest ih =>
      obtain ⟨pid, info, sc⟩ := x
      simp only [assignIgnores]
      by_cases hneg : sc < 0
      · by_cases hall : 0 < allowance
        · rw [if_pos ⟨hneg, hall⟩]
          simp only [List.countP_cons]
          rw [ih (allowance - 1)]
          simp [hneg]
          by_cases hc : rest.countP (fun x => decide (x.2.2 < 0)) ≤ allowance - 1
          · rw [if_pos hc, if_pos (by omega)]
          · rw [if_neg hc, if_neg (by omega)]
            omega
        · have hz : allowance = 0 := by omega
          subst hz
          rw [if_neg (by simp)]
          simp only [List.countP_cons]
          rw [ih 0]
          simp [hneg]
      · rw [if_neg (by simp [hneg])]
        simp only [List.countP_cons]
        rw [ih allowance]
        simp [hneg]

theorem assignIgnores_order {allowance : Nat}
    {l : List (PeerId × PeerInfo × ℤ)}
    (hpw : l.Pairwise (fun a b => b.2.2 ≤ a.2.2)) :
    ∀ t ∈ assignIgnores allowance l, ∀ u ∈ assignIgnores allowance l,
      t.2.2.2 = true → u.2.2.2 = false → u.2.2.1 < 0 →
      u.2.2.1 ≤ t.2.2.1 := by
  induction l generalizing allowance with
  | nil =>
      intro t ht
      simp [assignIgnores] at ht
  | cons x rest ih =>
      obtain ⟨pid, info, sc⟩ := x
      rw [List.pairwise_cons] at hpw
      intro t ht u hu htf huf hun
      simp only [assignIgnores] at ht hu
      by_cases hcond : sc < 0 ∧ 0 < allowance
      · rw [if_pos hcond] at ht hu
        rcases List.mem_cons.mp ht with ht1 | ht1 <;>
          rcases List.mem_cons.mp hu with hu1 | hu1
        · subst hu1
          simp at huf
        · subst ht1
          have hmem := mem_assignIgnores hu1
          have := hpw.1 _ hmem
          simpa using this
        · subst hu1
          simp at huf
        · exact ih hpw.2 t ht1 u hu1 htf huf hun
      · rw [if_neg hcond] at ht hu
        rcases List.mem_cons.mp ht with ht1 | ht1
        · subst ht1
          simp at htf
        · rcases List.mem_cons.mp hu with hu1 | hu1
          · subst hu1
            simp only at hun
            have hall0 : allowance = 0 := by
              rcases Nat.eq_zero_or_pos allowance with h0 | h0
              · exact h0
              · exact absurd ⟨hun, h0⟩ hcond
            subst hall0
            exact absurd htf (by simp [assignIgnores_zero_flags ht1])
          · exact ih hpw.2 t ht1 u hu1 htf huf hun

theorem assignIgnores_countNeg (allowance : Nat)
    (l : List (PeerId × PeerInfo × ℤ)) :
    (assignIgnores allowance l).countP (fun t => decide (t.2.2.1 < 0)) =
      l.countP (fun x => decide (x.2.2 < 0)) := by
  induction l generalizing allowance with
  | nil => simp [assignIgnores]
  | cons x rest ih =>
      obtain ⟨pid, info, sc⟩ := x
      simp only [assignIgnores]
      split <;> simp [List.countP_cons, ih]

/- ## Claim C4: which negative gossipsub peers are ignored. -/

/-- C4, counterexample: at a target of one peer the allowance is one; with
connected peers of gossipsub scores -1 and -2, the round ignores the
LEAST-negative peer (score -1) and applies the most-negative one (score
-2), contradicting the claim that the most-negative peers are ignored. -/
theorem c4_counterexample :
    allowedNegativeGossipsubPeers 1 = 1 ∧
    exC4Flagged.map (fun t => (t.1, t.2.2.1, t.2.2.2)) =
      [(1, -1, true), (2, -2, false)] := by
  decide

/-- C4 (amended): in each round of update_gossipsub_scores, among the
connected peers with an externally supplied gossipsub score, only
negative-scoring peers are ignored; the number ignored is the minimum of
the round's allowance and the number of negative peers; and the ignored
peers are the LEAST-negative ones: every negative peer whose contribution
is applied scores no higher than every ignored peer. -/
theorem c4_amended (db : PeerDB) (allowance : Nat)
    (gossipScores : List (PeerId × ℤ)) :
    (∀ t ∈ gossipFlagged db allowance gossipScores,
      t.2.2.2 = true → t.2.2.1 < 0) ∧
    ((gossipFlagged db allowance gossipScores).countP (fun t => t.2.2.2) =
      if (gossipFlagged db allowance gossipScores).countP
          (fun t => decide (t.2.2.1 < 0)) ≤ allowance then
        (gossipFlagged db allowance gossipScores).countP
          (fun t => decide (t.2.2.1 < 0))
      else allowance) ∧
    (∀ t ∈ gossipFlagged db allowance gossipScores,
      ∀ u ∈ gossipFlagged db allowance gossipScores,
      t.2.2.2 = true → u.2.2.2 = false → u.2.2.1 < 0 →
      u.2.2.1 ≤ t.2.2.1) := by
  refine ⟨?_, ?_, ?_⟩
  · intro t ht htf
    exact assignIgnores_flag_neg ht htf
  · unfold gossipFlagged
    rw [assignIgnores_count, assignIgnores_countNeg]
  · intro t ht u hu
    exact assignIgnores_order
      (sortDescBy_pairwise (fun t => t.2.2) (gossipScored db gossipScores))
      t ht u hu

/-- Witness for c4_amended at a concrete input. -/
theorem c4_amended_witness :
    (∀ t ∈ exC4Flagged, t.2.2.2 = true → t.2.2.1 < 0) ∧
    (exC4Flagged.countP (fun t => t.2.2.2) =
      if exC4Flagged.countP (fun t => decide (t.2.2.1 < 0)) ≤
          allowedNegativeGossipsubPeers 1 then
        exC4Flagged.countP (fun t => decide (t.2.2.1 < 0))
      else allowedNegativeGossipsubPeers 1) ∧
    (∀ t ∈ exC4Flagged, ∀ u ∈ exC4Flagged,
      t.2.2.2 = true → u.2.2.2 = false → u.2.2.1 < 0 →
      u.2.2.1 ≤ t.2.2.1) :=
  c4_amended exC4Db (allowedNegativeGossipsubPeers 1) exC4Scores

/- ## Membership lemmas for the pruning passes. -/

theorem mem_setP {β : Type} {m : List (PeerId × β)} {k : PeerId} {v : β}
    {e : PeerId × β} (h : e ∈ setP m k v) : e = (k, v) ∨ e ∈ m := by
  induction m with
  | nil => simpa [setP] using h
  | cons x rest ih =>
      obtain ⟨xk, xv⟩ := x
      by_cases hk : xk = k
      · subst hk
        simp only [setP, if_pos rfl] at h
        rcases List.mem_cons.mp h with h | h
        · exact Or.inl h
        · exact Or.inr (List.mem_cons_of_mem _ h)
      · simp only [setP, if_neg hk] at h
        rcases List.mem_cons.mp h with h | h
        · exact Or.inr (by simp [h])
        · rcases ih h with h2 | h2
          · exact Or.inl h2
          · exact Or.inr (List.mem_cons_of_mem _ h2)

theorem mem_pushToListMap {α : Type} {m : List (Nat × List α)} {k : Nat}
    {x : α} {entry : Nat × List α} {e : α}
    (hentry : entry ∈ pushToListMap m k x) (he : e ∈ entry.2) :
    e = x ∨ ∃ entry2 ∈ m, e ∈ entry2.2 := by
  unfold pushToListMap at hentry
  cases hl : lookupP m k with
  | some l =>
      rw [hl] at hentry
      rcases mem_setP hentry with h | h
      · subst h
        simp only [List.mem_append, List.mem_singleton] at he
        rcases he with he | he
        · exact Or.inr ⟨(k, l), lookupP_mem hl, he⟩
        · exact Or.inl he
      · exact Or.inr ⟨entry, h, he⟩
  | none =>
      rw [hl] at hentry
      rcases List.mem_append.mp hentry with h | h
      · exact Or.inr ⟨entry, h, he⟩
      · simp only [List.mem_singleton] at h
        subst h
        simp only [List.mem_singleton] at he
        exact Or.inl he

theorem pruneMapStepSub_mem {pid : PeerId} {info : PeerInfo} {ctx : PruneCtx}
    {sub : SubnetK} {entry : Nat × List (PeerId × PeerInfo)}
    {e : PeerId × PeerInfo}
    (hentry : entry ∈ (pruneMapStepSub pid info ctx sub).subnetToPeer)
    (he : e ∈ entry.2) :
    e = (pid, info) ∨ ∃ entry2 ∈ ctx.subnetToPeer, e ∈ entry2.2 := by
  cases sub with
  | attestation n =>
      simp only [pruneMapStepSub] at hentry
      exact mem_pushToListMap hentry he
  | syncCommittee n => exact Or.inr ⟨entry, hentry, he⟩
  | dataColumn n => exact Or.inr ⟨entry, hentry, he⟩

theorem subnetsFold_mem (pid : PeerId) (info : PeerInfo)
    (subs : List SubnetK) :
    ∀ (ctx : PruneCtx) (entry : Nat × List (PeerId × PeerInfo))
      (e : PeerId × PeerInfo),
      entry ∈ (subs.foldl (pruneMapStepSub pid info) ctx).subnetToPeer →
      e ∈ entry.2 →
      e = (pid, info) ∨ ∃ entry2 ∈ ctx.subnetToPeer, e ∈ entry2.2 := by
  induction subs with
  | nil =>
      intro ctx entry e hentry he
      exact Or.inr ⟨entry, hentry, he⟩
  | cons sub rest ih =>
      intro ctx entry e hentry he
      simp only [List.foldl_cons] at hentry
      rcases ih _ _ _ hentry he with h | ⟨entry2, h2, he2⟩
      · exact Or.inl h
      · exact pruneMapStepSub_mem h2 he2

theorem pruneMapFold_mem (pruned : List PeerId)
    (l : List (PeerId × PeerInfo)) :
    ∀ (ctx : PruneCtx) (entry : Nat × List (PeerId × PeerInfo))
      (e : PeerId × PeerInfo),
      entry ∈ (l.foldl (pruneMapStep pruned) ctx).subnetToPeer →
      e ∈ entry.2 →
      (e ∈ l ∧ e.2.isTrusted = false) ∨
        ∃ entry2 ∈ ctx.subnetToPeer, e ∈ entry2.2 := by
  induction l with
  | nil =>
      intro ctx entry e hentry he
      exact Or.inr ⟨entry, hentry, he⟩
  | cons x rest ih =>
      intro ctx entry e hentry he
      simp only [List.foldl_cons] at hentry
      rcases ih _ _ _ hentry he with ⟨h1, h2⟩ | ⟨entry2, h2, he2⟩
      · exact Or.inl ⟨List.mem_cons_of_mem _ h1, h2⟩
      · unfold pruneMapStep at h2
        by_cases hskip : (x.2.isTrusted || pruned.contains x.1) = true
        · rw [if_pos hskip] at h2
          exact Or.inr ⟨entry2, h2, he2⟩
        · rw [if_neg hskip] at h2
          rcases subnetsFold_mem x.1 x.2 x.2.subnets _ _ _ h2 he2 with
            h3 | ⟨entry3, h3, he3⟩
          · simp only [Bool.or_eq_true, not_or, Bool.not_eq_true] at hskip
            subst h3
            exact Or.inl ⟨List.mem_cons_self _ _, hskip.1⟩
          · exact Or.inr ⟨entry3, h3, he3⟩

theorem buildPruneMaps_mem (connPeers : List (PeerId × PeerInfo))
    (pruned : List PeerId) :
    ∀ entry ∈ (buildPruneMaps connPeers pruned).subnetToPeer,
      ∀ e ∈ entry.2, e ∈ connPeers ∧ e.2.isTrusted = false := by
  intro entry hentry e he
  unfold buildPruneMaps at hentry
  rcases pruneMapFold_mem pruned connPeers _ _ _ hentry he with h | ⟨e2, h2, _⟩
  · exact h
  · simp at h2

theorem pickBetter_fold_mem (m : List (Nat × List (PeerId × PeerInfo))) :
    ∀ (b : Option (Nat × List (PeerId × PeerInfo)))
      (e : Nat × List (PeerId × PeerInfo)),
      m.foldl pickBetter b = some e → b = some e ∨ e ∈ m := by
  induction m with
  | nil => intro b e h; exact Or.inl h
  | cons x rest ih =>
      intro b e h
      simp only [List.foldl_cons] at h
      rcases ih _ _ h with h2 | h2
      · cases b with
        | none =>
            simp only [pickBetter] at h2
            injection h2 with h3
            exact Or.inr (by simp [h3])
        | some bb =>
            simp only [pickBetter] at h2
            by_cases hle : bb.2.length ≤ x.2.length
            · rw [if_pos hle] at h2
              injection h2 with h3
              exact Or.inr (by simp [h3])
            · rw [if_neg hle] at h2
              exact Or.inl h2
      · exact Or.inr (List.mem_cons_of_mem _ h2)

theorem pickLastMaxSubnet_mem {m : List (Nat × List (PeerId × PeerInfo))}
    {e : Nat × List (PeerId × PeerInfo)}
    (h : pickLastMaxSubnet m = some e) : e ∈ m := by
  rcases pickBetter_fold_mem m none e h with h2 | h2
  · exact absurd h2 (by simp)
  · exact h2

theorem mem_insertAscByKey {α : Type} (key : α → Nat) (x z : α)
    (l : List α) (h : z ∈ insertAscByKey key x l) : z = x ∨ z ∈ l := by
  induction l with
  | nil => simpa [insertAscByKey] using h
  | cons y rest ih =>
      by_cases hk : key x ≤ key y
      · simp only [insertAscByKey, if_pos hk, List.mem_cons] at h
        rcases h with h | h | h
        · exact Or.inl h
        · exact Or.inr (by simp [h])
        · exact Or.inr (List.mem_cons_of_mem _ h)
      · simp only [insertAscByKey, if_neg hk, List.mem_cons] at h
        rcases h with h | h
        · exact Or.inr (by simp [h])
        · rcases ih h with h2 | h2
          · exact Or.inl h2
          · exact Or.inr (List.mem_cons_of_mem _ h2)

theorem mem_sortAscByKey {α : Type} (key : α → Nat) (l : List α) (z : α)
    (h : z ∈ sortAscByKey key l) : z ∈ l := by
  induction l with
  | nil => simpa [sortAscByKey] using h
  | cons x rest ih =>
      simp only [sortAscByKey] at h
      rcases mem_insertAscByKey key x z _ h with h2 | h2
      · simp [h2]
      · exact List.mem_cons_of_mem _ (ih h2)

theorem findCandidate_mem (tOut cOut obPruned : Nat)
    (p2s : List (PeerId × List Nat)) (scount : List (Nat × Nat)) :
    ∀ (l : List (PeerId × PeerInfo)) (c : PeerId × PeerInfo)
      (others : List (PeerId × PeerInfo)),
      findCandidate tOut cOut obPruned p2s scount l = some (c, others) →
      c ∈ l ∧ ∀ e ∈ others, e ∈ l := by
  intro l
  induction l with
  | nil => intro c others h; simp [findCandidate] at h
  | cons x rest ih =>
      intro c others h
      obtain ⟨pid, info⟩ := x
      simp only [findCandidate] at h
      split at h
      · rcases Option.map_eq_some'.mp h with ⟨r, hr, hre⟩
        obtain ⟨rc, rothers⟩ := r
        simp only [Prod.mk.injEq] at hre
        obtain ⟨hre1, hre2⟩ := hre
        subst hre1
        subst hre2
        obtain ⟨hc, hothers⟩ := ih _ _ hr
        refine ⟨List.mem_cons_of_mem _ hc, ?_⟩
        intro e hee
        rcases List.mem_cons.mp hee with h3 | h3
        · exact h3 ▸ List.mem_cons_self _ _
        · exact List.mem_cons_of_mem _ (hothers e h3)
      · split at h
        · rcases Option.map_eq_some'.mp h with ⟨r, hr, hre⟩
          obtain ⟨rc, rothers⟩ := r
          simp only [Prod.mk.injEq] at hre
          obtain ⟨hre1, hre2⟩ := hre
          subst hre1
          subst hre2
          obtain ⟨hc, hothers⟩ := ih _ _ hr
          refine ⟨List.mem_cons_of_mem _ hc, ?_⟩
          intro e hee
          rcases List.mem_cons.mp hee with h3 | h3
          · exact h3 ▸ List.mem_cons_self _ _
          · exact List.mem_cons_of_mem _ (hothers e h3)
        · injection h with h2
          simp only [Prod.mk.injEq] at h2
          obtain ⟨h3, h4⟩ := h2
          subst h3
          subst h4
          exact ⟨List.mem_cons_self _ _, fun e hee => List.mem_cons_of_mem _ hee⟩

theorem prunePass_mem (filt : PeerInfo → Bool) (tOut cOut quota : Nat) :
    ∀ (l : List (PeerId × PeerInfo)) (st : List PeerId × Nat) (pid : PeerId),
      pid ∈ (prunePass filt tOut cOut quota l st).1 →
      pid ∈ st.1 ∨ ∃ info, (pid, info) ∈ l ∧ info.hasFutureDuty = false ∧
        info.isTrusted = false := by
  intro l
  induction l with
  | nil => intro st pid h; exact Or.inl h
  | cons x rest ih =>
      intro st pid h
      obtain ⟨xpid, xinfo⟩ := x
      obtain ⟨pruned, obPruned⟩ := st
      have step : ∀ st2 : List PeerId × Nat,
          (st2.1 = pruned ∨ st2.1 = pruned ++ [xpid]) →
          xinfo.hasFutureDuty = false → xinfo.isTrusted = false →
          pid ∈ (prunePass filt tOut cOut quota rest st2).1 →
          pid ∈ pruned ∨ ∃ info, (pid, info) ∈ (xpid, xinfo) :: rest ∧
            info.hasFutureDuty = false ∧ info.isTrusted = false := by
        intro st2 hst2 hfd htr h2
        rcases ih st2 pid h2 with h3 | ⟨info, h4, h5, h6⟩
        · rcases hst2 with he | he
          · exact Or.inl (he ▸ h3)
          · rw [he] at h3
            rcases List.mem_append.mp h3 with h4 | h4
            · exact Or.inl h4
            · have : pid = xpid := by simpa using h4
              subst this
              exact Or.inr ⟨xinfo, List.mem_cons_self _ _, hfd, htr⟩
        · exact Or.inr ⟨info, List.mem_cons_of_mem _ h4, h5, h6⟩
      simp only [prunePass] at h
      split at h
      · rename_i hcond
        simp only [Bool.and_eq_true, Bool.not_eq_true'] at hcond
        split at h
        · exact Or.inl h
        · split at h
          · exact step _ (Or.inl rfl) hcond.1.1 hcond.1.2 h
          · split at h
            · split at h
              · exact step _ (Or.inr rfl) hcond.1.1 hcond.1.2 h
              · exact step _ (Or.inl rfl) hcond.1.1 hcond.1.2 h
            · exact step _ (Or.inr rfl) hcond.1.1 hcond.1.2 h
      · rcases ih _ pid h with h3 | ⟨info, h4, h5, h6⟩
        · exact Or.inl h3
        · exact Or.inr ⟨info, List.mem_cons_of_mem _ h4, h5, h6⟩

theorem prunePass3Loop_mem
    (shuffle : List (PeerId × PeerInfo) → List (PeerId × PeerInfo))
    (hsh : ∀ (l : List (PeerId × PeerInfo)) (x : PeerId × PeerInfo),
      x ∈ shuffle l → x ∈ l)
    (tOut cOut quota : Nat) (src : List (PeerId × PeerInfo))
    (P : PeerId → Prop)
    (hQ : ∀ pid info, (pid, info) ∈ src → info.isTrusted = false → P pid) :
    ∀ (fuel : Nat) (ctx : PruneCtx) (st : List PeerId × Nat),
      (∀ entry ∈ ctx.subnetToPeer, ∀ e ∈ entry.2,
        e ∈ src ∧ e.2.isTrusted = false) →
      (∀ q ∈ st.1, P q) →
      ∀ q ∈ (prunePass3Loop shuffle tOut cOut quota fuel ctx st).1, P q := by
  intro fuel
  induction fuel with
  | zero => intro ctx st hctx hst q hq; exact hst q hq
  | succ fuel ih =>
      intro ctx st hctx hst q hq
      obtain ⟨pruned, obPruned⟩ := st
      simp only [prunePass3Loop] at hq
      split at hq
      · exact hst q hq
      · cases hpick : pickLastMaxSubnet ctx.subnetToPeer with
        | none =>
            rw [hpick] at hq
            exact hst q hq
        | some sp =>
            obtain ⟨subnetId, peersOnSubnet⟩ := sp
            rw [hpick] at hq
            simp only at hq
            split at hq
            · exact hst q hq
            · have hsub_mem : (subnetId, peersOnSubnet) ∈ ctx.subnetToPeer :=
                pickLastMaxSubnet_mem hpick
              cases hfind : findCandidate tOut cOut obPruned
                  ctx.peerToSyncCommittee ctx.syncCommitteeCount
                  (sortAscByKey (fun e => e.2.longLivedSubnetCount)
                    (shuffle peersOnSubnet)) with
              | none =>
                  rw [hfind] at hq
                  refine ih _ _ ?_ hst q hq
                  intro entry hentry e he
                  rcases mem_setP hentry with h | h
                  · subst h
                    simp at he
                  · exact hctx entry h e he
              | some cpair =>
                  obtain ⟨⟨cand, candInfo⟩, others⟩ := cpair
                  rw [hfind] at hq
                  simp only at hq
                  obtain ⟨hcand, hothers⟩ :=
                    findCandidate_mem _ _ _ _ _ _ _ _ hfind
                  have hcand_sub : (cand, candInfo) ∈ peersOnSubnet :=
                    hsh _ _ (mem_sortAscByKey _ _ _ hcand)
                  have hcand_src := hctx _ hsub_mem _ hcand_sub
                  refine ih _ _ ?_ ?_ q hq
                  · intro entry hentry e he
                    rcases List.mem_map.mp hentry with ⟨entry0, hentry0, hmap⟩
                    subst hmap
                    have he0 : e ∈ entry0.2 := List.mem_of_mem_filter he
                    rcases mem_setP hentry0 with h | h
                    · subst h
                      have h2 : e ∈ peersOnSubnet :=
                        hsh _ _ (mem_sortAscByKey _ _ _ (hothers e he0))
                      exact hctx _ hsub_mem _ h2
                    · exact hctx entry0 h e he0
                  · intro r hr
                    by_cases hc : pruned.contains cand = true
                    · rw [if_pos hc] at hr
                      exact hst r hr
                    · rw [if_neg hc] at hr
                      rcases List.mem_append.mp hr with h | h
                      · exact hst r h
                      · have : r = cand := by simpa using h
                        subst this
                        exact hQ r candInfo hcand_src.1 hcand_src.2

/- ## Claim C5: which peers prune_excess_peers may select. -/

/-- C5, counterexample: pruning two connected peers down to a target of one,
where peer 1 has a future min_ttl duty (and the only other peer is trusted),
the subnet-rebalancing pass selects peer 1 for disconnection: stage 3 skips
only trusted and already chosen peers when building its maps, so a peer with
a future min_ttl can be pruned there. -/
theorem c5_counterexample :
    exC5InfoA.hasFutureDuty = true ∧ exC5Pruned = [1] := by
  decide

/-- C5 (amended): every peer selected for disconnection by
prune_excess_peers has is_trusted unset; a peer selected by the worst-score
or no-long-lived-subnet pass additionally has no future min_ttl, but the
subnet-rebalancing pass only guarantees non-trusted (it can select a peer
whose min_ttl lies in the future). The shuffle is any element-preserving
permutation and the statement holds for every fuel bound on the stage-3
loop. -/
theorem c5_amended (targetPeers connectedPeerCount
    connectedOutboundPeerCount : Nat)
    (worstPeers connPeers : List (PeerId × PeerInfo))
    (shuffle : List (PeerId × PeerInfo) → List (PeerId × PeerInfo))
    (hsh : ∀ (l : List (PeerId × PeerInfo)) (x : PeerId × PeerInfo),
      x ∈ shuffle l → x ∈ l)
    (fuel : Nat) :
    ∀ pid ∈ pruneExcessPeers targetPeers connectedPeerCount
        connectedOutboundPeerCount worstPeers connPeers shuffle fuel,
      (∃ info, (pid, info) ∈ worstPeers ∧ info.hasFutureDuty = false ∧
        info.isTrusted = false) ∨
      (∃ info, (pid, info) ∈ connPeers ∧ info.isTrusted = false) := by
  intro pid hpid
  by_cases hle : connectedPeerCount ≤ targetPeers
  · simp only [pruneExcessPeers, if_pos hle] at hpid
    simp at hpid
  · simp only [pruneExcessPeers, if_neg hle] at hpid
    have hst1 : ∀ (st : List PeerId × Nat) (f : PeerInfo → Bool) (q : PeerId),
        (∀ r ∈ st.1, (∃ info, (r, info) ∈ worstPeers ∧
          info.hasFutureDuty = false ∧ info.isTrusted = false)) →
        q ∈ (prunePass f (targetOutboundPeers targetPeers)
          connectedOutboundPeerCount (connectedPeerCount - targetPeers)
          worstPeers st).1 →
        ∃ info, (q, info) ∈ worstPeers ∧ info.hasFutureDuty = false ∧
          info.isTrusted = false := by
      intro st f q hprev hq
      rcases prunePass_mem f _ _ _ worstPeers st q hq with h | h
      · exact hprev q h
      · exact h
    split at hpid
    · split at hpid
      · refine prunePass3Loop_mem shuffle hsh _ _ _ connPeers
          (fun r => (∃ info, (r, info) ∈ worstPeers ∧
              info.hasFutureDuty = false ∧ info.isTrusted = false) ∨
            (∃ info, (r, info) ∈ connPeers ∧ info.isTrusted = false))
          (fun r info h1 h2 => Or.inr ⟨info, h1, h2⟩) fuel _ _
          (buildPruneMaps_mem connPeers _) ?_ pid hpid
        intro r hr
        exact Or.inl (hst1 _ _ r (fun r2 hr2 => hst1 _ _ r2 (by simp) hr2) hr)
      · exact Or.inl (hst1 _ _ pid (fun r2 hr2 => hst1 _ _ r2 (by simp) hr2) hpid)
    · exact Or.inl (hst1 _ _ pid (by simp) hpid)

/-- Witness for c5_amended at the concrete counterexample state: peer 1 is
selected and is indeed a non-trusted entry of the connected list. -/
theorem c5_amended_witness :
    (∃ info, (1, info) ∈ exC5Peers ∧ info.hasFutureDuty = false ∧
      info.isTrusted = false) ∨
    (∃ info, (1, info) ∈ exC5Peers ∧ info.isTrusted = false) :=
  c5_amended 1 2 0 exC5Peers exC5Peers id (fun l x h => h) 10 1 (by decide)

/- ## The counting invariant of section 8 (claim C1). -/

theorem count_nodup (ips : List Ip) (h : ips.Nodup) (j : Ip) :
    ips.count j = if j ∈ ips then 1 else 0 := by
  by_cases hm : j ∈ ips
  · rw [if_pos hm]
    exact List.count_eq_one_of_mem h hm
  · rw [if_neg hm]
    exact List.count_eq_zero_of_not_mem hm

theorem insertIp_nodup (ips : List Ip) (ip : Ip) (h : ips.Nodup) :
    (insertIp ips ip).Nodup := by
  by_cases hm : ip ∈ ips
  · simpa [insertIp, hm] using h
  · have h2 : (ips ++ [ip]).Nodup := by
      rw [List.nodup_append]
      refine ⟨h, List.nodup_singleton ip, ?_⟩
      intro a ha hb
      simp only [List.mem_singleton] at hb
      subst hb
      exact hm ha
    simpa [insertIp, hm] using h2

theorem connectWith_isDisconnected (dir : ConnectionDirection)
    (ip : Option Ip) (i : PeerInfo) :
    (i.connectWith dir ip).isDisconnected = false := by
  unfold PeerInfo.connectWith PeerInfo.isDisconnected
  cases hcs : i.connectionStatus <;> cases dir <;> simp

theorem connectWith_isBanned (dir : ConnectionDirection)
    (ip : Option Ip) (i : PeerInfo) :
    (i.connectWith dir ip).isBanned = false := by
  unfold PeerInfo.connectWith PeerInfo.isBanned
  cases hcs : i.connectionStatus <;> cases dir <;> simp

theorem setDialing_isDisconnected (now : Nat) (i : PeerInfo) :
    (i.setDialingPeer now).isDisconnected = false := by
  unfold PeerInfo.setDialingPeer
  cases hcs : i.connectionStatus <;> simp [PeerInfo.isDisconnected, hcs]

theorem setDialing_isBanned (now : Nat) (i : PeerInfo) :
    (i.setDialingPeer now).isBanned = false := by
  unfold PeerInfo.setDialingPeer
  cases hcs : i.connectionStatus <;> simp [PeerInfo.isBanned, hcs]

theorem setDialing_seenIps (now : Nat) (i : PeerInfo) :
    (i.setDialingPeer now).seenIps = i.seenIps := by
  unfold PeerInfo.setDialingPeer
  cases hcs : i.connectionStatus <;> simp

theorem setDialing_isTrusted (now : Nat) (i : PeerInfo) :
    (i.setDialingPeer now).isTrusted = i.isTrusted := by
  unfold PeerInfo.setDialingPeer
  cases hcs : i.connectionStatus <;> simp

theorem goodShape_set_some (db : PeerDB) (pid : PeerId)
    (old info : PeerInfo) (d : Nat) (b : BannedPeersCount) (dps : Bool)
    (hlk : lookupP db.peers pid = some old) (hinv : db.goodShape)
    (hdps : dps = false)
    (htr : info.isTrusted = false) (hips : info.seenIps.Nodup)
    (hd : d + (if old.isDisconnected = true then 1 else 0) =
      db.disconnectedPeers + (if info.isDisconnected = true then 1 else 0))
    (hb : b.bannedPeers + (if old.isBanned = true then 1 else 0) =
      db.bannedPeersCount.bannedPeers +
        (if info.isBanned = true then 1 else 0))
    (hip : ∀ ip, lookup0 b.bannedPeersPerIp ip +
        (if (old.isBanned && decide (ip ∈ old.seenIps)) = true then 1
          else 0) =
      lookup0 db.bannedPeersCount.bannedPeersPerIp ip +
        (if (info.isBanned && decide (ip ∈ info.seenIps)) = true then 1
          else 0)) :
    PeerDB.goodShape ⟨setP db.peers pid info, d, b, dps⟩ := by
  obtain ⟨hnd, hds, hall, hD, hB, hIp⟩ := hinv
  refine ⟨keysNodup_setP _ _ _ hnd, hdps, ?_, ?_, ?_, ?_⟩
  · intro e he
    rcases mem_setP he with h | h
    · rw [h]
      exact ⟨htr, hips⟩
    · exact hall e h
  · have h1 := countP_setP (fun i => i.isDisconnected) db.peers pid info
    rw [hlk] at h1
    simp only [PeerDB.countDisconnectedStatus] at hD ⊢
    simp only at h1
    omega
  · have h1 := countP_setP (fun i => i.isBanned) db.peers pid info
    rw [hlk] at h1
    simp only [PeerDB.countBannedStatus] at hB ⊢
    simp only at h1
    omega
  · intro ip
    have h1 := countP_setP (fun i => i.isBanned && decide (ip ∈ i.seenIps))
      db.peers pid info
    rw [hlk] at h1
    have h2 := hIp ip
    have h3 := hip ip
    simp only [PeerDB.countBannedWithIp] at h2 ⊢
    simp only at h1
    omega

theorem goodShape_set_none (db : PeerDB) (pid : PeerId)
    (info : PeerInfo) (d : Nat) (b : BannedPeersCount) (dps : Bool)
    (hlk : lookupP db.peers pid = none) (hinv : db.goodShape)
    (hdps : dps = false)
    (htr : info.isTrusted = false) (hips : info.seenIps.Nodup)
    (hd : d = db.disconnectedPeers +
      (if info.isDisconnected = true then 1 else 0))
    (hb : b.bannedPeers = db.bannedPeersCount.bannedPeers +
      (if info.isBanned = true then 1 else 0))
    (hip : ∀ ip, lookup0 b.bannedPeersPerIp ip =
      lookup0 db.bannedPeersCount.bannedPeersPerIp ip +
        (if (info.isBanned && decide (ip ∈ info.seenIps)) = true then 1
          else 0)) :
    PeerDB.goodShape ⟨setP db.peers pid info, d, b, dps⟩ := by
  obtain ⟨hnd, hds, hall, hD, hB, hIp⟩ := hinv
  refine ⟨keysNodup_setP _ _ _ hnd, hdps, ?_, ?_, ?_, ?_⟩
  · intro e he
    rcases mem_setP he with h | h
    · rw [h]
      exact ⟨htr, hips⟩
    · exact hall e h
  · have h1 := countP_setP (fun i => i.isDisconnected) db.peers pid info
    rw [hlk] at h1
    simp only [PeerDB.countDisconnectedStatus] at hD ⊢
    simp only at h1
    omega
  · have h1 := countP_setP (fun i => i.isBanned) db.peers pid info
    rw [hlk] at h1
    simp only [PeerDB.countBannedStatus] at hB ⊢
    simp only at h1
    omega
  · intro ip
    have h1 := countP_setP (fun i => i.isBanned && decide (ip ∈ i.seenIps))
      db.peers pid info
    rw [hlk] at h1
    have h2 := hIp ip
    have h3 := hip ip
    simp only [PeerDB.countBannedWithIp] at h2 ⊢
    simp only at h1
    omega

theorem ucs_connected_goodShape (db : PeerDB) (now : Nat) (pid : PeerId)
    (dir : ConnectionDirection) (ip : Option Ip) (hinv : db.goodShape) :
    ((db.updateConnectionState now pid (.connected dir ip)).1).goodShape := by
  have hds := hinv.2.1
  have hD := hinv.2.2.2.1
  have hB := hinv.2.2.2.2.1
  have hIp := hinv.2.2.2.2.2
  simp only [PeerDB.countDisconnectedStatus] at hD
  simp only [PeerDB.countBannedStatus] at hB
  cases hlk : lookupP db.peers pid with
  | none =>
      have hnewT : (PeerInfo.defaultInfo.connectWith dir ip).isTrusted =
          false := by
        simp [connectWith_isTrusted, PeerInfo.defaultInfo]
      have hnewD := connectWith_isDisconnected dir ip PeerInfo.defaultInfo
      have hnewB := connectWith_isBanned dir ip PeerInfo.defaultInfo
      have hnewN : ((PeerInfo.defaultInfo.connectWith dir ip).seenIps).Nodup := by
        cases ip <;> simp [connectWith_seenIps, PeerInfo.defaultInfo, insertIp]
      unfold PeerDB.updateConnectionState
      rw [hlk]
      simp [hds, PeerInfo.defaultInfo]
      refine goodShape_set_none db pid _ _ _ _ hlk hinv rfl ?_ ?_ ?_ ?_ ?_
      · simpa [PeerInfo.defaultInfo] using hnewT
      · simpa [PeerInfo.defaultInfo] using hnewN
      · simp [PeerInfo.defaultInfo] at hnewD
        simp [hnewD]
      · simp [PeerInfo.defaultInfo] at hnewB
        simp [hnewB]
      · intro j
        simp [PeerInfo.defaultInfo] at hnewB
        simp [hnewB]
  | some old =>
      have hmem := hinv.2.2.1 (pid, old) (lookupP_mem hlk)
      have hot : old.isTrusted = false := hmem.1
      have hon : old.seenIps.Nodup := hmem.2
      have hnewT : (old.connectWith dir ip).isTrusted = false := by
        rw [connectWith_isTrusted]
        exact hot
      have hnewD := connectWith_isDisconnected dir ip old
      have hnewB := connectWith_isBanned dir ip old
      have hipsnew : ((old.connectWith dir ip).seenIps).Nodup := by
        cases ip <;> simp [connectWith_seenIps, hon, insertIp_nodup]
      cases hcs : old.connectionStatus with
      | unknown =>
          unfold PeerDB.updateConnectionState
          rw [hlk]
          simp [hcs]
          refine goodShape_set_some db pid old _ _ _ _ hlk hinv hds hnewT
            hipsnew ?_ ?_ ?_
          · have holdD : old.isDisconnected = false := by
              simp [PeerInfo.isDisconnected, hcs]
            simp [holdD, hnewD]
          · have holdB : old.isBanned = false := by
              simp [PeerInfo.isBanned, hcs]
            simp [holdB, hnewB]
          · intro j
            have holdB : old.isBanned = false := by
              simp [PeerInfo.isBanned, hcs]
            simp [holdB, hnewB]
      | connected nIn nOut =>
          unfold PeerDB.updateConnectionState
          rw [hlk]
          simp [hcs]
          refine goodShape_set_some db pid old _ _ _ _ hlk hinv hds hnewT
            hipsnew ?_ ?_ ?_
          · have holdD : old.isDisconnected = false := by
              simp [PeerInfo.isDisconnected, hcs]
            simp [holdD, hnewD]
          · have holdB : old.isBanned = false := by
              simp [PeerInfo.isBanned, hcs]
            simp [holdB, hnewB]
          · intro j
            have holdB : old.isBanned = false := by
              simp [PeerInfo.isBanned, hcs]
            simp [holdB, hnewB]
      | dialing since =>
          unfold PeerDB.updateConnectionState
          rw [hlk]
          simp [hcs]
          refine goodShape_set_some db pid old _ _ _ _ hlk hinv hds hnewT
            hipsnew ?_ ?_ ?_
          · have holdD : old.isDisconnected = false := by
              simp [PeerInfo.isDisconnected, hcs]
            simp [holdD, hnewD]
          · have holdB : old.isBanned = false := by
              simp [PeerInfo.isBanned, hcs]
            simp [holdB, hnewB]
          · intro j
            have holdB : old.isBanned = false := by
              simp [PeerInfo.isBanned, hcs]
            simp [holdB, hnewB]
      | disconnecting toBan =>
          unfold PeerDB.updateConnectionState
          rw [hlk]
          simp [hcs]
          refine goodShape_set_some db pid old _ _ _ _ hlk hinv hds hnewT
            hipsnew ?_ ?_ ?_
          · have holdD : old.isDisconnected = false := by
              simp [PeerInfo.isDisconnected, hcs]
            simp [holdD, hnewD]
          · have holdB : old.isBanned = false := by
              simp [PeerInfo.isBanned, hcs]
            simp [holdB, hnewB]
          · intro j
            have holdB : old.isBanned = false := by
              simp [PeerInfo.isBanned, hcs]
            simp [holdB, hnewB]
      | disconnected since =>
          have holdD : old.isDisconnected = true := by
            simp [PeerInfo.isDisconnected, hcs]
          have h1 : 1 ≤ db.peers.countP (fun e => e.2.isDisconnected) := by
            have := countP_pos_of_lookupP hlk holdD
            simpa using this
          unfold PeerDB.updateConnectionState
          rw [hlk]
          simp [hcs]
          refine goodShape_set_some db pid old _ _ _ _ hlk hinv hds hnewT
            hipsnew ?_ ?_ ?_
          · simp [holdD, hnewD]
            omega
          · have holdB : old.isBanned = false := by
              simp [PeerInfo.isBanned, hcs]
            simp [holdB, hnewB]
          · intro j
            have holdB : old.isBanned = false := by
              simp [PeerInfo.isBanned, hcs]
            simp [holdB, hnewB]
      | banned since =>
          have holdB : old.isBanned = true := by simp [PeerInfo.isBanned, hcs]
          have holdD : old.isDisconnected = false := by
            simp [PeerInfo.isDisconnected, hcs]
          have h1 : 1 ≤ db.peers.countP (fun e => e.2.isBanned) := by
            have := countP_pos_of_lookupP hlk holdB
            simpa using this
          unfold PeerDB.updateConnectionState
          rw [hlk]
          simp [hcs]
          refine goodShape_set_some db pid old _ _ _ _ hlk hinv hds hnewT
            hipsnew ?_ ?_ ?_
          · simp [holdD, hnewD]
          · simp [holdB, hnewB, BannedPeersCount.removeBannedPeer]
            omega
          · intro j
            have hc := count_nodup old.seenIps hon j
            by_cases hj : j ∈ old.seenIps
            · have h2 : 1 ≤ db.peers.countP
                  (fun e => e.2.isBanned && decide (j ∈ e.2.seenIps)) := by
                have := @countP_pos_of_lookupP PeerInfo
                  (fun i => i.isBanned && decide (j ∈ i.seenIps))
                  db.peers pid old hlk (by simp [holdB, hj])
                simpa using this
              have h3 := hIp j
              simp only [PeerDB.countBannedWithIp] at h3
              simp [holdB, hnewB, hj, BannedPeersCount.removeBannedPeer,
                lookup0_decIps, hc]
              omega
            · simp [holdB, hnewB, hj, BannedPeersCount.removeBannedPeer,
                lookup0_decIps, hc]

theorem ucs_dialing_goodShape (db : PeerDB) (now : Nat) (pid : PeerId)
    (hinv : db.goodShape) :
    ((db.updateConnectionState now pid .dialing).1).goodShape := by
  have hds := hinv.2.1
  have hD := hinv.2.2.2.1
  have hB := hinv.2.2.2.2.1
  have hIp := hinv.2.2.2.2.2
  simp only [PeerDB.countDisconnectedStatus] at hD
  simp only [PeerDB.countBannedStatus] at hB
  cases hlk : lookupP db.peers pid with
  | none =>
      have hnewT : (PeerInfo.defaultInfo.setDialingPeer now).isTrusted =
          false := by
        simp [setDialing_isTrusted, PeerInfo.defaultInfo]
      have hnewD := setDialing_isDisconnected now PeerInfo.defaultInfo
      have hnewB := setDialing_isBanned now PeerInfo.defaultInfo
      have hnewN : ((PeerInfo.defaultInfo.setDialingPeer now).seenIps).Nodup := by
        simp [setDialing_seenIps, PeerInfo.defaultInfo]
      unfold PeerDB.updateConnectionState
      rw [hlk]
      simp [hds, PeerInfo.defaultInfo]
      refine goodShape_set_none db pid _ _ _ _ hlk hinv rfl ?_ ?_ ?_ ?_ ?_
      · simpa [PeerInfo.defaultInfo] using hnewT
      · simpa [PeerInfo.defaultInfo] using hnewN
      · simp [PeerInfo.defaultInfo] at hnewD
        simp [hnewD]
      · simp [PeerInfo.defaultInfo] at hnewB
        simp [hnewB]
      · intro j
        simp [PeerInfo.defaultInfo] at hnewB
        simp [hnewB]
  | some old =>
      have hmem := hinv.2.2.1 (pid, old) (lookupP_mem hlk)
      have hot : old.isTrusted = false := hmem.1
      have hon : old.seenIps.Nodup := hmem.2
      have hnewT : (old.setDialingPeer now).isTrusted = false := by
        rw [setDialing_isTrusted]
        exact hot
      have hnewD := setDialing_isDisconnected now old
      have hnewB := setDialing_isBanned now old
      have hipsnew : ((old.setDialingPeer now).seenIps).Nodup := by
        rw [setDialing_seenIps]
        exact hon
      cases hcs : old.connectionStatus with
      | unknown =>
          unfold PeerDB.updateConnectionState
          rw [hlk]
          simp [hcs]
          refine goodShape_set_some db pid old _ _ _ _ hlk hinv hds hnewT
            hipsnew ?_ ?_ ?_
          · have holdD : old.isDisconnected = false := by
              simp [PeerInfo.isDisconnected, hcs]
            simp [holdD, hnewD]
          · have holdB : old.isBanned = false := by
              simp [PeerInfo.isBanned, hcs]
            simp [holdB, hnewB]
          · intro j
            have holdB : old.isBanned = false := by
              simp [PeerInfo.isBanned, hcs]
            simp [holdB, hnewB]
      | connected nIn nOut =>
          unfold PeerDB.updateConnectionState
          rw [hlk]
          simp [hcs]
          refine goodShape_set_some db pid old _ _ _ _ hlk hinv hds hnewT
            hipsnew ?_ ?_ ?_
          · have holdD : old.isDisconnected = false := by
              simp [PeerInfo.isDisconnected, hcs]
            simp [holdD, hnewD]
          · have holdB : old.isBanned = false := by
              simp [PeerInfo.isBanned, hcs]
            simp [holdB, hnewB]
          · intro j
            have holdB : old.isBanned = false := by
              simp [PeerInfo.isBanned, hcs]
            simp [holdB, hnewB]
      | dialing since =>
          unfold PeerDB.updateConnectionState
          rw [hlk]
          simp [hcs]
          refine goodShape_set_some db pid old _ _ _ _ hlk hinv hds hnewT
            hipsnew ?_ ?_ ?_
          · have holdD : old.isDisconnected = false := by
              simp [PeerInfo.isDisconnected, hcs]
            simp [holdD, hnewD]
          · have holdB : old.isBanned = false := by
              simp [PeerInfo.isBanned, hcs]
            simp [holdB, hnewB]
          · intro j
            have holdB : old.isBanned = false := by
              simp [PeerInfo.isBanned, hcs]
            simp [holdB, hnewB]
      | disconnecting toBan =>
          unfold PeerDB.updateConnectionState
          rw [hlk]
          simp [hcs]
          refine goodShape_set_some db pid old _ _ _ _ hlk hinv hds hnewT
            hipsnew ?_ ?_ ?_
          · have holdD : old.isDisconnected = false := by
              simp [PeerInfo.isDisconnected, hcs]
            simp [holdD, hnewD]
          · have holdB : old.isBanned = false := by
              simp [PeerInfo.isBanned, hcs]
            simp [holdB, hnewB]
          · intro j
            have holdB : old.isBanned = false := by
              simp [PeerInfo.isBanned, hcs]
            simp [holdB, hnewB]
      | disconnected since =>
          have holdD : old.isDisconnected = true := by
            simp [PeerInfo.isDisconnected, hcs]
          have h1 : 1 ≤ db.peers.countP (fun e => e.2.isDisconnected) := by
            have := countP_pos_of_lookupP hlk holdD
            simpa using this
          unfold PeerDB.updateConnectionState
          rw [hlk]
          simp [hcs]
          refine goodShape_set_some db pid old _ _ _ _ hlk hinv hds hnewT
            hipsnew ?_ ?_ ?_
          · simp [holdD, hnewD]
            omega
          · have holdB : old.isBanned = false := by
              simp [PeerInfo.isBanned, hcs]
            simp [holdB, hnewB]
          · intro j
            have holdB : old.isBanned = false := by
              simp [PeerInfo.isBanned, hcs]
            simp [holdB, hnewB]
      | banned since =>
          have holdB : old.isBanned = true := by simp [PeerInfo.isBanned, hcs]
          have holdD : old.isDisconnected = false := by
            simp [PeerInfo.isDisconnected, hcs]
          have h1 : 1 ≤ db.peers.countP (fun e => e.2.isBanned) := by
            have := countP_pos_of_lookupP hlk holdB
            simpa using this
          unfold PeerDB.updateConnectionState
          rw [hlk]
          simp [hcs]
          refine goodShape_set_some db pid old _ _ _ _ hlk hinv hds hnewT
            hipsnew ?_ ?_ ?_
          · simp [holdD, hnewD]
          · simp [holdB, hnewB, BannedPeersCount.removeBannedPeer]
            omega
          · intro j
            have hc := count_nodup old.seenIps hon j
            by_cases hj : j ∈ old.seenIps
            · have h2 : 1 ≤ db.peers.countP
                  (fun e => e.2.isBanned && decide (j ∈ e.2.seenIps)) := by
                have := @countP_pos_of_lookupP PeerInfo
                  (fun i => i.isBanned && decide (j ∈ i.seenIps))
                  db.peers pid old hlk (by simp [holdB, hj])
                simpa using this
              have h3 := hIp j
              simp only [PeerDB.countBannedWithIp] at h3
              simp [holdB, hnewB, hj, BannedPeersCount.removeBannedPeer,
                lookup0_decIps, hc]
              omega
            · simp [holdB, hnewB, hj, BannedPeersCount.removeBannedPeer,
                lookup0_decIps, hc]

theorem ucs_disconnected_goodShape (db : PeerDB) (now : Nat) (pid : PeerId)
    (hinv : db.goodShape) :
    ((db.updateConnectionState now pid .disconnected).1).goodShape := by
  have hds := hinv.2.1
  have hD := hinv.2.2.2.1
  have hB := hinv.2.2.2.2.1
  have hIp := hinv.2.2.2.2.2
  simp only [PeerDB.countDisconnectedStatus] at hD
  simp only [PeerDB.countBannedStatus] at hB
  cases hlk : lookupP db.peers pid with
  | none =>
      unfold PeerDB.updateConnectionState
      rw [hlk]
      simp [hds, PeerInfo.defaultInfo]
      refine goodShape_set_none db pid _ _ _ _ hlk hinv rfl ?_ ?_ ?_ ?_ ?_
      · simp [PeerInfo.setConnectionStatus, PeerInfo.clearSubnets]
      · simp [PeerInfo.setConnectionStatus, PeerInfo.clearSubnets]
      · simp [PeerInfo.setConnectionStatus, PeerInfo.clearSubnets,
          PeerInfo.isDisconnected]
      · simp [PeerInfo.setConnectionStatus, PeerInfo.clearSubnets,
          PeerInfo.isBanned]
      · intro j
        simp [PeerInfo.setConnectionStatus, PeerInfo.clearSubnets,
          PeerInfo.isBanned]
  | some old =>
      have hmem := hinv.2.2.1 (pid, old) (lookupP_mem hlk)
      have hot : old.isTrusted = false := hmem.1
      have hon : old.seenIps.Nodup := hmem.2
      cases hcs : old.connectionStatus with
      | banned since =>
          have holdB : old.isBanned = true := by simp [PeerInfo.isBanned, hcs]
          have holdD : old.isDisconnected = false := by
            simp [PeerInfo.isDisconnected, hcs]
          have hnewB : (old.clearSubnets).isBanned = true := by
            simp [PeerInfo.clearSubnets, PeerInfo.isBanned, hcs]
          have hnewD : (old.clearSubnets).isDisconnected = false := by
            simp [PeerInfo.clearSubnets, PeerInfo.isDisconnected, hcs]
          unfold PeerDB.updateConnectionState
          rw [hlk]
          simp [hcs]
          refine goodShape_set_some db pid old _ _ _ _ hlk hinv hds ?_ ?_
            ?_ ?_ ?_
          · simp [PeerInfo.clearSubnets, hot]
          · simp [PeerInfo.clearSubnets, hon]
          · simp [holdD, hnewD]
          · simp [holdB, hnewB]
          · intro j
            simp [holdB, hnewB, PeerInfo.clearSubnets, PeerInfo.isBanned, hcs]
      | disconnected since =>
          have holdD : old.isDisconnected = true := by
            simp [PeerInfo.isDisconnected, hcs]
          have holdB : old.isBanned = false := by simp [PeerInfo.isBanned, hcs]
          have hnewD : (old.clearSubnets).isDisconnected = true := by
            simp [PeerInfo.clearSubnets, PeerInfo.isDisconnected, hcs]
          have hnewB : (old.clearSubnets).isBanned = false := by
            simp [PeerInfo.clearSubnets, PeerInfo.isBanned, hcs]
          unfold PeerDB.updateConnectionState
          rw [hlk]
          simp [hcs]
          refine goodShape_set_some db pid old _ _ _ _ hlk hinv hds ?_ ?_
            ?_ ?_ ?_
          · simp [PeerInfo.clearSubnets, hot]
          · simp [PeerInfo.clearSubnets, hon]
          · simp [holdD, hnewD]
          · simp [holdB, hnewB]
          · intro j
            simp [holdB, hnewB, PeerInfo.clearSubnets, PeerInfo.isBanned, hcs]
      | disconnecting toBan =>
          have holdD : old.isDisconnected = false := by
            simp [PeerInfo.isDisconnected, hcs]
          have holdB : old.isBanned = false := by simp [PeerInfo.isBanned, hcs]
          cases toBan with
          | true =>
              unfold PeerDB.updateConnectionState
              rw [hlk]
              simp [hcs]
              refine goodShape_set_some db pid old _ _ _ _ hlk hinv hds ?_ ?_
                ?_ ?_ ?_
              · simp [PeerInfo.setConnectionStatus, PeerInfo.clearSubnets, hot]
              · simp [PeerInfo.setConnectionStatus, PeerInfo.clearSubnets, hon]
              · simp [holdD, PeerInfo.setConnectionStatus,
                  PeerInfo.clearSubnets, PeerInfo.isDisconnected, hcs]
              · simp [holdB, PeerInfo.setConnectionStatus,
                  PeerInfo.clearSubnets, PeerInfo.isBanned,
                  BannedPeersCount.addBannedPeer, hcs]
              · intro j
                have hc := count_nodup old.seenIps hon j
                by_cases hj : j ∈ old.seenIps <;>
                  simp [holdB, hj, PeerInfo.setConnectionStatus,
                    PeerInfo.clearSubnets, PeerInfo.isBanned,
                    BannedPeersCount.addBannedPeer, lookup0_bumpIps, hc, hcs]
          | false =>
              unfold PeerDB.updateConnectionState
              rw [hlk]
              simp [hcs]
              refine goodShape_set_some db pid old _ _ _ _ hlk hinv hds ?_ ?_
                ?_ ?_ ?_
              · simp [PeerInfo.setConnectionStatus, PeerInfo.clearSubnets, hot]
              · simp [PeerInfo.setConnectionStatus, PeerInfo.clearSubnets, hon]
              · simp [holdD, PeerInfo.setConnectionStatus,
                  PeerInfo.clearSubnets, PeerInfo.isDisconnected, hcs]
              · simp [holdB, PeerInfo.setConnectionStatus,
                  PeerInfo.clearSubnets, PeerInfo.isBanned, hcs]
              · intro j
                simp [holdB, PeerInfo.setConnectionStatus,
                  PeerInfo.clearSubnets, PeerInfo.isBanned, hcs]
      | unknown =>
          have holdD : old.isDisconnected = false := by
            simp [PeerInfo.isDisconnected, hcs]
          have holdB : old.isBanned = false := by simp [PeerInfo.isBanned, hcs]
          unfold PeerDB.updateConnectionState
          rw [hlk]
          simp [hcs]
          refine goodShape_set_some db pid old _ _ _ _ hlk hinv hds ?_ ?_
            ?_ ?_ ?_
          · simp [PeerInfo.setConnectionStatus, PeerInfo.clearSubnets, hot]
          · simp [PeerInfo.setConnectionStatus, PeerInfo.clearSubnets, hon]
          · simp [holdD, PeerInfo.setConnectionStatus, PeerInfo.clearSubnets,
              PeerInfo.isDisconnected, hcs]
          · simp [holdB, PeerInfo.setConnectionStatus, PeerInfo.clearSubnets,
              PeerInfo.isBanned, hcs]
          · intro j
            simp [holdB, PeerInfo.setConnectionStatus, PeerInfo.clearSubnets,
              PeerInfo.isBanned, hcs]
      | connected nIn nOut =>
          have holdD : old.isDisconnected = false := by
            simp [PeerInfo.isDisconnected, hcs]
          have holdB : old.isBanned = false := by simp [PeerInfo.isBanned, hcs]
          unfold PeerDB.updateConnectionState
          rw [hlk]
          simp [hcs]
          refine goodShape_set_some db pid old _ _ _ _ hlk hinv hds ?_ ?_
            ?_ ?_ ?_
          · simp [PeerInfo.setConnectionStatus, PeerInfo.clearSubnets, hot]
          · simp [PeerInfo.setConnectionStatus, PeerInfo.clearSubnets, hon]
          · simp [holdD, PeerInfo.setConnectionStatus, PeerInfo.clearSubnets,
              PeerInfo.isDisconnected, hcs]
          · simp [holdB, PeerInfo.setConnectionStatus, PeerInfo.clearSubnets,
              PeerInfo.isBanned, hcs]
          · intro j
            simp [holdB, PeerInfo.setConnectionStatus, PeerInfo.clearSubnets,
              PeerInfo.isBanned, hcs]
      | dialing since =>
          have holdD : old.isDisconnected = false := by
            simp [PeerInfo.isDisconnected, hcs]
          have holdB : old.isBanned = false := by simp [PeerInfo.isBanned, hcs]
          unfold PeerDB.updateConnectionState
          rw [hlk]
          simp [hcs]
          refine goodShape_set_some db pid old _ _ _ _ hlk hinv hds ?_ ?_
            ?_ ?_ ?_
          · simp [PeerInfo.setConnectionStatus, PeerInfo.clearSubnets, hot]
          · simp [PeerInfo.setConnectionStatus, PeerInfo.clearSubnets, hon]
          · simp [holdD, PeerInfo.setConnectionStatus, PeerInfo.clearSubnets,
              PeerInfo.isDisconnected, hcs]
          · simp [holdB, PeerInfo.setConnectionStatus, PeerInfo.clearSubnets,
              PeerInfo.isBanned, hcs]
          · intro j
            simp [holdB, PeerInfo.setConnectionStatus, PeerInfo.clearSubnets,
              PeerInfo.isBanned, hcs]

theorem ucs_disconnecting_goodShape (db : PeerDB) (now : Nat) (pid : PeerId)
    (toBan : Bool) (hinv : db.goodShape)
    (hok : ¬ (PeerDBOp.connState pid
      (.disconnecting toBan)).isDisconnectingOnBanned db) :
    ((db.updateConnectionState now pid (.disconnecting toBan)).1).goodShape := by
  have hds := hinv.2.1
  have hD := hinv.2.2.2.1
  have hB := hinv.2.2.2.2.1
  have hIp := hinv.2.2.2.2.2
  simp only [PeerDB.countDisconnectedStatus] at hD
  simp only [PeerDB.countBannedStatus] at hB
  cases hlk : lookupP db.peers pid with
  | none =>
      unfold PeerDB.updateConnectionState
      rw [hlk]
      simp [hds, PeerInfo.defaultInfo]
      refine goodShape_set_none db pid _ _ _ _ hlk hinv rfl ?_ ?_ ?_ ?_ ?_
      · simp [PeerInfo.setConnectionStatus]
      · simp [PeerInfo.setConnectionStatus]
      · simp [PeerInfo.setConnectionStatus, PeerInfo.isDisconnected]
      · simp [PeerInfo.setConnectionStatus, PeerInfo.isBanned]
      · intro j
        simp [PeerInfo.setConnectionStatus, PeerInfo.isBanned]
  | some old =>
      have hmem := hinv.2.2.1 (pid, old) (lookupP_mem hlk)
      have hot : old.isTrusted = false := hmem.1
      have hon : old.seenIps.Nodup := hmem.2
      cases hcs : old.connectionStatus with
      | banned since =>
          have holdB : old.isBanned = true := by simp [PeerInfo.isBanned, hcs]
          exact absurd ⟨old, by simp [PeerDB.peerInfo, hlk], holdB⟩ hok
      | disconnected since =>
          have holdD : old.isDisconnected = true := by
            simp [PeerInfo.isDisconnected, hcs]
          have holdB : old.isBanned = false := by simp [PeerInfo.isBanned, hcs]
          have h1 : 1 ≤ db.peers.countP (fun e => e.2.isDisconnected) := by
            have := countP_pos_of_lookupP hlk holdD
            simpa using this
          unfold PeerDB.updateConnectionState
          rw [hlk]
          simp [hcs]
          refine goodShape_set_some db pid old _ _ _ _ hlk hinv hds ?_ ?_
            ?_ ?_ ?_
          · simp [PeerInfo.setConnectionStatus, hot]
          · simp [PeerInfo.setConnectionStatus, hon]
          · simp [holdD, PeerInfo.setConnectionStatus, PeerInfo.isDisconnected, hcs]
            omega
          · simp [holdB, PeerInfo.setConnectionStatus, PeerInfo.isBanned, hcs]
          · intro j
            simp [holdB, PeerInfo.setConnectionStatus, PeerInfo.isBanned, hcs]
      | unknown =>
          have holdD : old.isDisconnected = false := by
            simp [PeerInfo.isDisconnected, hcs]
          have holdB : old.isBanned = false := by simp [PeerInfo.isBanned, hcs]
          unfold PeerDB.updateConnectionState
          rw [hlk]
          simp [hcs]
          refine goodShape_set_some db pid old _ _ _ _ hlk hinv hds ?_ ?_
            ?_ ?_ ?_
          · simp [PeerInfo.setConnectionStatus, hot]
          · simp [PeerInfo.setConnectionStatus, hon]
          · simp [holdD, PeerInfo.setConnectionStatus, PeerInfo.isDisconnected, hcs]
          · simp [holdB, PeerInfo.setConnectionStatus, PeerInfo.isBanned, hcs]
          · intro j
            simp [holdB, PeerInfo.setConnectionStatus, PeerInfo.isBanned, hcs]
      | connected nIn nOut =>
          have holdD : old.isDisconnected = false := by
            simp [PeerInfo.isDisconnected, hcs]
          have holdB : old.isBanned = false := by simp [PeerInfo.isBanned, hcs]
          unfold PeerDB.updateConnectionState
          rw [hlk]
          simp [hcs]
          refine goodShape_set_some db pid old _ _ _ _ hlk hinv hds ?_ ?_
            ?_ ?_ ?_
          · simp [PeerInfo.setConnectionStatus, hot]
          · simp [PeerInfo.setConnectionStatus, hon]
          · simp [holdD, PeerInfo.setConnectionStatus, PeerInfo.isDisconnected, hcs]
          · simp [holdB, PeerInfo.setConnectionStatus, PeerInfo.isBanned, hcs]
          · intro j
            simp [holdB, PeerInfo.setConnectionStatus, PeerInfo.isBanned, hcs]
      | dialing since =>
          have holdD : old.isDisconnected = false := by
            simp [PeerInfo.isDisconnected, hcs]
          have holdB : old.isBanned = false := by simp [PeerInfo.isBanned, hcs]
          unfold PeerDB.updateConnectionState
          rw [hlk]
          simp [hcs]
          refine goodShape_set_some db pid old _ _ _ _ hlk hinv hds ?_ ?_
            ?_ ?_ ?_
          · simp [PeerInfo.setConnectionStatus, hot]
          · simp [PeerInfo.setConnectionStatus, hon]
          · simp [holdD, PeerInfo.setConnectionStatus, PeerInfo.isDisconnected, hcs]
          · simp [holdB, PeerInfo.setConnectionStatus, PeerInfo.isBanned, hcs]
          · intro j
            simp [holdB, PeerInfo.setConnectionStatus, PeerInfo.isBanned, hcs]
      | disconnecting toBan2 =>
          have holdD : old.isDisconnected = false := by
            simp [PeerInfo.isDisconnected, hcs]
          have holdB : old.isBanned = false := by simp [PeerInfo.isBanned, hcs]
          unfold PeerDB.updateConnectionState
          rw [hlk]
          simp [hcs]
          refine goodShape_set_some db pid old _ _ _ _ hlk hinv hds ?_ ?_
            ?_ ?_ ?_
          · simp [PeerInfo.setConnectionStatus, hot]
          · simp [PeerInfo.setConnectionStatus, hon]
          · simp [holdD, PeerInfo.setConnectionStatus, PeerInfo.isDisconnected, hcs]
          · simp [holdB, PeerInfo.setConnectionStatus, PeerInfo.isBanned, hcs]
          · intro j
            simp [holdB, PeerInfo.setConnectionStatus, PeerInfo.isBanned, hcs]

theorem ucs_banned_goodShape (db : PeerDB) (now : Nat) (pid : PeerId)
    (hinv : db.goodShape) :
    ((db.updateConnectionState now pid .banned).1).goodShape := by
  have hds := hinv.2.1
  have hD := hinv.2.2.2.1
  have hB := hinv.2.2.2.2.1
  have hIp := hinv.2.2.2.2.2
  simp only [PeerDB.countDisconnectedStatus] at hD
  simp only [PeerDB.countBannedStatus] at hB
  cases hlk : lookupP db.peers pid with
  | none =>
      unfold PeerDB.updateConnectionState
      rw [hlk]
      cases hss : PeerInfo.defaultInfo.scoreState with
      | banned =>
          simp [hds, hss]
          refine goodShape_set_none db pid _ _ _ _ hlk hinv rfl ?_ ?_ ?_ ?_ ?_
          · simp [PeerInfo.setConnectionStatus, PeerInfo.defaultInfo]
          · simp [PeerInfo.setConnectionStatus, PeerInfo.defaultInfo]
          · simp [PeerInfo.setConnectionStatus, PeerInfo.defaultInfo,
              PeerInfo.isDisconnected]
          · simp [PeerInfo.setConnectionStatus, PeerInfo.defaultInfo,
              PeerInfo.isBanned, BannedPeersCount.addBannedPeer, bumpIps]
          · intro j
            simp [PeerInfo.setConnectionStatus, PeerInfo.defaultInfo,
              PeerInfo.isBanned, BannedPeersCount.addBannedPeer, bumpIps]
      | healthy =>
          simp [hds, hss]
          refine goodShape_set_none db pid _ _ _ _ hlk hinv rfl ?_ ?_ ?_ ?_ ?_
          · simp [PeerInfo.setConnectionStatus, applyAction_isTrusted,
              PeerInfo.defaultInfo]
          · simp [PeerInfo.setConnectionStatus, applyAction_seenIps,
              PeerInfo.defaultInfo]
          · simp [PeerInfo.setConnectionStatus, applyAction_connectionStatus,
              PeerInfo.defaultInfo, PeerInfo.isDisconnected]
          · simp [PeerInfo.setConnectionStatus, applyAction_connectionStatus,
              applyAction_seenIps, PeerInfo.defaultInfo, PeerInfo.isBanned,
              BannedPeersCount.addBannedPeer, bumpIps]
          · intro j
            simp [PeerInfo.setConnectionStatus, applyAction_connectionStatus,
              applyAction_seenIps, PeerInfo.defaultInfo, PeerInfo.isBanned,
              BannedPeersCount.addBannedPeer, bumpIps]
      | forcedDisconnect =>
          simp [hds, hss]
          refine goodShape_set_none db pid _ _ _ _ hlk hinv rfl ?_ ?_ ?_ ?_ ?_
          · simp [PeerInfo.setConnectionStatus, applyAction_isTrusted,
              PeerInfo.defaultInfo]
          · simp [PeerInfo.setConnectionStatus, applyAction_seenIps,
              PeerInfo.defaultInfo]
          · simp [PeerInfo.setConnectionStatus, applyAction_connectionStatus,
              PeerInfo.defaultInfo, PeerInfo.isDisconnected]
          · simp [PeerInfo.setConnectionStatus, applyAction_connectionStatus,
              applyAction_seenIps, PeerInfo.defaultInfo, PeerInfo.isBanned,
              BannedPeersCount.addBannedPeer, bumpIps]
          · intro j
            simp [PeerInfo.setConnectionStatus, applyAction_connectionStatus,
              applyAction_seenIps, PeerInfo.defaultInfo, PeerInfo.isBanned,
              BannedPeersCount.addBannedPeer, bumpIps]
  | some old =>
      have hmem := hinv.2.2.1 (pid, old) (lookupP_mem hlk)
      have hot : old.isTrusted = false := hmem.1
      have hon : old.seenIps.Nodup := hmem.2
      have hb1 : ∀ since2, old.connectionStatus =
          PeerConnectionStatus.banned since2 →
          1 ≤ db.peers.countP (fun e => e.2.isBanned) := by
        intro since2 hcs2
        have holdB : old.isBanned = true := by simp [PeerInfo.isBanned, hcs2]
        have := countP_pos_of_lookupP hlk holdB
        simpa using this
      cases hss : old.scoreState with
      | banned =>
          cases hcs : old.connectionStatus with
          | disconnected since =>
              have holdD : old.isDisconnected = true := by
                simp [PeerInfo.isDisconnected, hcs]
              have h1 : 1 ≤ db.peers.countP (fun e => e.2.isDisconnected) := by
                have := countP_pos_of_lookupP hlk holdD
                simpa using this
              unfold PeerDB.updateConnectionState
              rw [hlk]
              simp [hss, hcs, applyAction_connectionStatus]
              refine goodShape_set_some db pid old _ _ _ _ hlk hinv hds ?_ ?_
                ?_ ?_ ?_
              · simp [PeerInfo.setConnectionStatus, applyAction_isTrusted, hot]
              · simpa [PeerInfo.setConnectionStatus, applyAction_seenIps] using hon
              · simp [PeerInfo.setConnectionStatus, applyAction_connectionStatus,
                  PeerInfo.isDisconnected, hcs]
                omega
              · simp [PeerInfo.setConnectionStatus, applyAction_connectionStatus,
                  applyAction_seenIps, PeerInfo.isBanned, hcs,
                  BannedPeersCount.addBannedPeer]
              · intro j
                have hc := count_nodup old.seenIps hon j
                by_cases hj : j ∈ old.seenIps <;>
                  simp [PeerInfo.setConnectionStatus, applyAction_connectionStatus,
                    applyAction_seenIps, PeerInfo.isBanned, hcs, hj,
                    BannedPeersCount.addBannedPeer, lookup0_bumpIps, hc]
          | disconnecting toBan =>
              unfold PeerDB.updateConnectionState
              rw [hlk]
              simp [hss, hcs, applyAction_connectionStatus]
              refine goodShape_set_some db pid old _ _ _ _ hlk hinv hds ?_ ?_
                ?_ ?_ ?_
              · simp [PeerInfo.setConnectionStatus, applyAction_isTrusted, hot]
              · simpa [PeerInfo.setConnectionStatus, applyAction_seenIps] using hon
              · simp [PeerInfo.setConnectionStatus, applyAction_connectionStatus,
                  PeerInfo.isDisconnected, hcs]
              · simp [PeerInfo.setConnectionStatus, applyAction_connectionStatus,
                  PeerInfo.isBanned, hcs]
              · intro j
                simp [PeerInfo.setConnectionStatus, applyAction_connectionStatus,
                  PeerInfo.isBanned, hcs]
          | banned since =>
              unfold PeerDB.updateConnectionState
              rw [hlk]
              simp [hss, hcs, applyAction_connectionStatus]
              refine goodShape_set_some db pid old _ _ _ _ hlk hinv hds ?_ ?_
                ?_ ?_ ?_
              · simp [applyAction_isTrusted, hot]
              · simpa [applyAction_seenIps] using hon
              · simp [applyAction_connectionStatus, PeerInfo.isDisconnected, hcs]
              · simp [applyAction_connectionStatus, PeerInfo.isBanned, hcs]
              · intro j
                simp [applyAction_connectionStatus, applyAction_seenIps,
                  PeerInfo.isBanned, hcs]
          | connected nIn nOut =>
              unfold PeerDB.updateConnectionState
              rw [hlk]
              simp [hss, hcs, applyAction_connectionStatus]
              refine goodShape_set_some db pid old _ _ _ _ hlk hinv hds ?_ ?_
                ?_ ?_ ?_
              · simp [PeerInfo.setConnectionStatus, applyAction_isTrusted, hot]
              · simpa [PeerInfo.setConnectionStatus, applyAction_seenIps] using hon
              · simp [PeerInfo.setConnectionStatus, applyAction_connectionStatus,
                  PeerInfo.isDisconnected, hcs]
              · simp [PeerInfo.setConnectionStatus, applyAction_connectionStatus,
                  PeerInfo.isBanned, hcs]
              · intro j
                simp [PeerInfo.setConnectionStatus, applyAction_connectionStatus,
                  PeerInfo.isBanned, hcs]
          | dialing since =>
              unfold PeerDB.updateConnectionState
              rw [hlk]
              simp [hss, hcs, applyAction_connectionStatus]
              refine goodShape_set_some db pid old _ _ _ _ hlk hinv hds ?_ ?_
                ?_ ?_ ?_
              · simp [PeerInfo.setConnectionStatus, applyAction_isTrusted, hot]
              · simpa [PeerInfo.setConnectionStatus, applyAction_seenIps] using hon
              · simp [PeerInfo.setConnectionStatus, applyAction_connectionStatus,
                  PeerInfo.isDisconnected, hcs]
              · simp [PeerInfo.setConnectionStatus, applyAction_connectionStatus,
                  PeerInfo.isBanned, hcs]
              · intro j
                simp [PeerInfo.setConnectionStatus, applyAction_connectionStatus,
                  PeerInfo.isBanned, hcs]
          | unknown =>
              unfold PeerDB.updateConnectionState
              rw [hlk]
              simp [hss, hcs, applyAction_connectionStatus]
              refine goodShape_set_some db pid old _ _ _ _ hlk hinv hds ?_ ?_
                ?_ ?_ ?_
              · simp [PeerInfo.setConnectionStatus, applyAction_isTrusted, hot]
              · simpa [PeerInfo.setConnectionStatus, applyAction_seenIps] using hon
              · simp [PeerInfo.setConnectionStatus, applyAction_connectionStatus,
                  PeerInfo.isDisconnected, hcs]
              · simp [PeerInfo.setConnectionStatus, applyAction_connectionStatus,
                  applyAction_seenIps, PeerInfo.isBanned, hcs,
                  BannedPeersCount.addBannedPeer]
              · intro j
                have hc := count_nodup old.seenIps hon j
                by_cases hj : j ∈ old.seenIps <;>
                  simp [PeerInfo.setConnectionStatus, applyAction_connectionStatus,
                    applyAction_seenIps, PeerInfo.isBanned, hcs, hj,
                    BannedPeersCount.addBannedPeer, lookup0_bumpIps, hc]
      | healthy =>
          cases hcs : old.connectionStatus with
          | disconnected since =>
              have holdD : old.isDisconnected = true := by
                simp [PeerInfo.isDisconnected, hcs]
              have h1 : 1 ≤ db.peers.countP (fun e => e.2.isDisconnected) := by
                have := countP_pos_of_lookupP hlk holdD
                simpa using this
              unfold PeerDB.updateConnectionState
              rw [hlk]
              simp [hss, hcs, applyAction_connectionStatus]
              refine goodShape_set_some db pid old _ _ _ _ hlk hinv hds ?_ ?_
                ?_ ?_ ?_
              · simp [PeerInfo.setConnectionStatus, applyAction_isTrusted, hot]
              · simpa [PeerInfo.setConnectionStatus, applyAction_seenIps] using hon
              · simp [PeerInfo.setConnectionStatus, applyAction_connectionStatus,
                  PeerInfo.isDisconnected, hcs]
                omega
              · simp [PeerInfo.setConnectionStatus, applyAction_connectionStatus,
                  applyAction_seenIps, PeerInfo.isBanned, hcs,
                  BannedPeersCount.addBannedPeer]
              · intro j
                have hc := count_nodup old.seenIps hon j
                by_cases hj : j ∈ old.seenIps <;>
                  simp [PeerInfo.setConnectionStatus, applyAction_connectionStatus,
                    applyAction_seenIps, PeerInfo.isBanned, hcs, hj,
                    BannedPeersCount.addBannedPeer, lookup0_bumpIps, hc]
          | disconnecting toBan =>
              unfold PeerDB.updateConnectionState
              rw [hlk]
              simp [hss, hcs, applyAction_connectionStatus]
              refine goodShape_set_some db pid old _ _ _ _ hlk hinv hds ?_ ?_
                ?_ ?_ ?_
              · simp [PeerInfo.setConnectionStatus, applyAction_isTrusted, hot]
              · simpa [PeerInfo.setConnectionStatus, applyAction_seenIps] using hon
              · simp [PeerInfo.setConnectionStatus, applyAction_connectionStatus,
                  PeerInfo.isDisconnected, hcs]
              · simp [PeerInfo.setConnectionStatus, applyAction_connectionStatus,
                  PeerInfo.isBanned, hcs]
              · intro j
                simp [PeerInfo.setConnectionStatus, applyAction_connectionStatus,
                  PeerInfo.isBanned, hcs]
          | banned since =>
              unfold PeerDB.updateConnectionState
              rw [hlk]
              simp [hss, hcs, applyAction_connectionStatus]
              refine goodShape_set_some db pid old _ _ _ _ hlk hinv hds ?_ ?_
                ?_ ?_ ?_
              · simp [applyAction_isTrusted, hot]
              · simpa [applyAction_seenIps] using hon
              · simp [applyAction_connectionStatus, PeerInfo.isDisconnected, hcs]
              · simp [applyAction_connectionStatus, PeerInfo.isBanned, hcs]
              · intro j
                simp [applyAction_connectionStatus, applyAction_seenIps,
                  PeerInfo.isBanned, hcs]
          | connected nIn nOut =>
              unfold PeerDB.updateConnectionState
              rw [hlk]
              simp [hss, hcs, applyAction_connectionStatus]
              refine goodShape_set_some db pid old _ _ _ _ hlk hinv hds ?_ ?_
                ?_ ?_ ?_
              · simp [PeerInfo.setConnectionStatus, applyAction_isTrusted, hot]
              · simpa [PeerInfo.setConnectionStatus, applyAction_seenIps] using hon
              · simp [PeerInfo.setConnectionStatus, applyAction_connectionStatus,
                  PeerInfo.isDisconnected, hcs]
              · simp [PeerInfo.setConnectionStatus, applyAction_connectionStatus,
                  PeerInfo.isBanned, hcs]
              · intro j
                simp [PeerInfo.setConnectionStatus, applyAction_connectionStatus,
                  PeerInfo.isBanned, hcs]
          | dialing since =>
              unfold PeerDB.updateConnectionState
              rw [hlk]
              simp [hss, hcs, applyAction_connectionStatus]
              refine goodShape_set_some db pid old _ _ _ _ hlk hinv hds ?_ ?_
                ?_ ?_ ?_
              · simp [PeerInfo.setConnectionStatus, applyAction_isTrusted, hot]
              · simpa [PeerInfo.setConnectionStatus, applyAction_seenIps] using hon
              · simp [PeerInfo.setConnectionStatus, applyAction_connectionStatus,
                  PeerInfo.isDisconnected, hcs]
              · simp [PeerInfo.setConnectionStatus, applyAction_connectionStatus,
                  PeerInfo.isBanned, hcs]
              · intro j
                simp [PeerInfo.setConnectionStatus, applyAction_connectionStatus,
                  PeerInfo.isBanned, hcs]
          | unknown =>
              unfold PeerDB.updateConnectionState
              rw [hlk]
              simp [hss, hcs, applyAction_connectionStatus]
              refine goodShape_set_some db pid old _ _ _ _ hlk hinv hds ?_ ?_
                ?_ ?_ ?_
              · simp [PeerInfo.setConnectionStatus, applyAction_isTrusted, hot]
              · simpa [PeerInfo.setConnectionStatus, applyAction_seenIps] using hon
              · simp [PeerInfo.setConnectionStatus, applyAction_connectionStatus,
                  PeerInfo.isDisconnected, hcs]
              · simp [PeerInfo.setConnectionStatus, applyAction_connectionStatus,
                  applyAction_seenIps, PeerInfo.isBanned, hcs,
                  BannedPeersCount.addBannedPeer]
              · intro j
                have hc := count_nodup old.seenIps hon j
                by_cases hj : j ∈ old.seenIps <;>
                  simp [PeerInfo.setConnectionStatus, applyAction_connectionStatus,
                    applyAction_seenIps, PeerInfo.isBanned, hcs, hj,
                    BannedPeersCount.addBannedPeer, lookup0_bumpIps, hc]
      | forcedDisconnect =>
          cases hcs : old.connectionStatus with
          | disconnected since =>
              have holdD : old.isDisconnected = true := by
                simp [PeerInfo.isDisconnected, hcs]
              have h1 : 1 ≤ db.peers.countP (fun e => e.2.isDisconnected) := by
                have := countP_pos_of_lookupP hlk holdD
                simpa using this
              unfold PeerDB.updateConnectionState
              rw [hlk]
              simp [hss, hcs, applyAction_connectionStatus]
              refine goodShape_set_some db pid old _ _ _ _ hlk hinv hds ?_ ?_
                ?_ ?_ ?_
              · simp [PeerInfo.setConnectionStatus, applyAction_isTrusted, hot]
              · simpa [PeerInfo.setConnectionStatus, applyAction_seenIps] using hon
              · simp [PeerInfo.setConnectionStatus, applyAction_connectionStatus,
                  PeerInfo.isDisconnected, hcs]
                omega
              · simp [PeerInfo.setConnectionStatus, applyAction_connectionStatus,
                  applyAction_seenIps, PeerInfo.isBanned, hcs,
                  BannedPeersCount.addBannedPeer]
              · intro j
                have hc := count_nodup old.seenIps hon j
                by_cases hj : j ∈ old.seenIps <;>
                  simp [PeerInfo.setConnectionStatus, applyAction_connectionStatus,
                    applyAction_seenIps, PeerInfo.isBanned, hcs, hj,
                    BannedPeersCount.addBannedPeer, lookup0_bumpIps, hc]
          | disconnecting toBan =>
              unfold PeerDB.updateConnectionState
              rw [hlk]
              simp [hss, hcs, applyAction_connectionStatus]
              refine goodShape_set_some db pid old _ _ _ _ hlk hinv hds ?_ ?_
                ?_ ?_ ?_
              · simp [PeerInfo.setConnectionStatus, applyAction_isTrusted, hot]
              · simpa [PeerInfo.setConnectionStatus, applyAction_seenIps] using hon
              · simp [PeerInfo.setConnectionStatus, applyAction_connectionStatus,
                  PeerInfo.isDisconnected, hcs]
              · simp [PeerInfo.setConnectionStatus, applyAction_connectionStatus,
                  PeerInfo.isBanned, hcs]
              · intro j
                simp [PeerInfo.setConnectionStatus, applyAction_connectionStatus,
                  PeerInfo.isBanned, hcs]
          | banned since =>
              unfold PeerDB.updateConnectionState
              rw [hlk]
              simp [hss, hcs, applyAction_connectionStatus]
              refine goodShape_set_some db pid old _ _ _ _ hlk hinv hds ?_ ?_
                ?_ ?_ ?_
              · simp [applyAction_isTrusted, hot]
              · simpa [applyAction_seenIps] using hon
              · simp [applyAction_connectionStatus, PeerInfo.isDisconnected, hcs]
              · simp [applyAction_connectionStatus, PeerInfo.isBanned, hcs]
              · intro j
                simp [applyAction_connectionStatus, applyAction_seenIps,
                  PeerInfo.isBanned, hcs]
          | connected nIn nOut =>
              unfold PeerDB.updateConnectionState
              rw [hlk]
              simp [hss, hcs, applyAction_connectionStatus]
              refine goodShape_set_some db pid old _ _ _ _ hlk hinv hds ?_ ?_
                ?_ ?_ ?_
              · simp [PeerInfo.setConnectionStatus, applyAction_isTrusted, hot]
              · simpa [PeerInfo.setConnectionStatus, applyAction_seenIps] using hon
              · simp [PeerInfo.setConnectionStatus, applyAction_connectionStatus,
                  PeerInfo.isDisconnected, hcs]
              · simp [PeerInfo.setConnectionStatus, applyAction_connectionStatus,
                  PeerInfo.isBanned, hcs]
              · intro j
                simp [PeerInfo.setConnectionStatus, applyAction_connectionStatus,
                  PeerInfo.isBanned, hcs]
          | dialing since =>
              unfold PeerDB.updateConnectionState
              rw [hlk]
              simp [hss, hcs, applyAction_connectionStatus]
              refine goodShape_set_some db pid old _ _ _ _ hlk hinv hds ?_ ?_
                ?_ ?_ ?_
              · simp [PeerInfo.setConnectionStatus, applyAction_isTrusted, hot]
              · simpa [PeerInfo.setConnectionStatus, applyAction_seenIps] using hon
              · simp [PeerInfo.setConnectionStatus, applyAction_connectionStatus,
                  PeerInfo.isDisconnected, hcs]
              · simp [PeerInfo.setConnectionStatus, applyAction_connectionStatus,
                  PeerInfo.isBanned, hcs]
              · intro j
                simp [PeerInfo.setConnectionStatus, applyAction_connectionStatus,
                  PeerInfo.isBanned, hcs]
          | unknown =>
              unfold PeerDB.updateConnectionState
              rw [hlk]
              simp [hss, hcs, applyAction_connectionStatus]
              refine goodShape_set_some db pid old _ _ _ _ hlk hinv hds ?_ ?_
                ?_ ?_ ?_
              · simp [PeerInfo.setConnectionStatus, applyAction_isTrusted, hot]
              · simpa [PeerInfo.setConnectionStatus, applyAction_seenIps] using hon
              · simp [PeerInfo.setConnectionStatus, applyAction_connectionStatus,
                  PeerInfo.isDisconnected, hcs]
              · simp [PeerInfo.setConnectionStatus, applyAction_connectionStatus,
                  applyAction_seenIps, PeerInfo.isBanned, hcs,
                  BannedPeersCount.addBannedPeer]
              · intro j
                have hc := count_nodup old.seenIps hon j
                by_cases hj : j ∈ old.seenIps <;>
                  simp [PeerInfo.setConnectionStatus, applyAction_connectionStatus,
                    applyAction_seenIps, PeerInfo.isBanned, hcs, hj,
                    BannedPeersCount.addBannedPeer, lookup0_bumpIps, hc]

theorem ucs_unbanned_goodShape (db : PeerDB) (now : Nat) (pid : PeerId)
    (hinv : db.goodShape) :
    ((db.updateConnectionState now pid .unbanned).1).goodShape := by
  have hds := hinv.2.1
  have hD := hinv.2.2.2.1
  have hB := hinv.2.2.2.2.1
  have hIp := hinv.2.2.2.2.2
  simp only [PeerDB.countDisconnectedStatus] at hD
  simp only [PeerDB.countBannedStatus] at hB
  cases hlk : lookupP db.peers pid with
  | none =>
      unfold PeerDB.updateConnectionState
      rw [hlk]
      simp [hds]
      refine goodShape_set_none db pid _ _ _ _ hlk hinv rfl ?_ ?_ ?_ ?_ ?_
      · simp [PeerInfo.defaultInfo]
      · simp [PeerInfo.defaultInfo]
      · simp [PeerInfo.defaultInfo, PeerInfo.isDisconnected]
      · simp [PeerInfo.defaultInfo, PeerInfo.isBanned]
      · intro j
        simp [PeerInfo.defaultInfo, PeerInfo.isBanned]
  | some old =>
      have hmem := hinv.2.2.1 (pid, old) (lookupP_mem hlk)
      have hot : old.isTrusted = false := hmem.1
      have hon : old.seenIps.Nodup := hmem.2
      cases hcs : old.connectionStatus with
      | banned since =>
          have holdB : old.isBanned = true := by simp [PeerInfo.isBanned, hcs]
          have holdD : old.isDisconnected = false := by
            simp [PeerInfo.isDisconnected, hcs]
          have h1 : 1 ≤ db.peers.countP (fun e => e.2.isBanned) := by
            have := countP_pos_of_lookupP hlk holdB
            simpa using this
          unfold PeerDB.updateConnectionState
          rw [hlk]
          simp [hcs]
          refine goodShape_set_some db pid old _ _ _ _ hlk hinv hds ?_ ?_
            ?_ ?_ ?_
          · simp [PeerInfo.setConnectionStatus, hot]
          · simp [PeerInfo.setConnectionStatus, hon]
          · simp [holdD, PeerInfo.setConnectionStatus, PeerInfo.isDisconnected,
              hcs]
          · simp [holdB, PeerInfo.setConnectionStatus, PeerInfo.isBanned, hcs,
              BannedPeersCount.removeBannedPeer]
            omega
          · intro j
            have hc := count_nodup old.seenIps hon j
            by_cases hj : j ∈ old.seenIps
            · have h2 : 1 ≤ db.peers.countP
                  (fun e => e.2.isBanned && decide (j ∈ e.2.seenIps)) := by
                have := @countP_pos_of_lookupP PeerInfo
                  (fun i => i.isBanned && decide (j ∈ i.seenIps))
                  db.peers pid old hlk (by simp [holdB, hj])
                simpa using this
              have h3 := hIp j
              simp only [PeerDB.countBannedWithIp] at h3
              simp [holdB, hj, PeerInfo.setConnectionStatus, PeerInfo.isBanned,
                hcs, BannedPeersCount.removeBannedPeer, lookup0_decIps, hc]
              omega
            · simp [holdB, hj, PeerInfo.setConnectionStatus, PeerInfo.isBanned,
                hcs, BannedPeersCount.removeBannedPeer, lookup0_decIps, hc]
      | unknown =>
          unfold PeerDB.updateConnectionState
          rw [hlk]
          simp [hcs]
          refine goodShape_set_some db pid old _ _ _ _ hlk hinv hds hot hon
            ?_ ?_ ?_
          · rfl
          · rfl
          · intro j
            rfl
      | connected nIn nOut =>
          unfold PeerDB.updateConnectionState
          rw [hlk]
          simp [hcs]
          refine goodShape_set_some db pid old _ _ _ _ hlk hinv hds hot hon
            ?_ ?_ ?_
          · rfl
          · rfl
          · intro j
            rfl
      | dialing since =>
          unfold PeerDB.updateConnectionState
          rw [hlk]
          simp [hcs]
          refine goodShape_set_some db pid old _ _ _ _ hlk hinv hds hot hon
            ?_ ?_ ?_
          · rfl
          · rfl
          · intro j
            rfl
      | disconnected since =>
          unfold PeerDB.updateConnectionState
          rw [hlk]
          simp [hcs]
          refine goodShape_set_some db pid old _ _ _ _ hlk hinv hds hot hon
            ?_ ?_ ?_
          · rfl
          · rfl
          · intro j
            rfl
      | disconnecting toBan =>
          unfold PeerDB.updateConnectionState
          rw [hlk]
          simp [hcs]
          refine goodShape_set_some db pid old _ _ _ _ hlk hinv hds hot hon
            ?_ ?_ ?_
          · rfl
          · rfl
          · intro j
            rfl

theorem updateGossip_connectionStatus (g : ℤ) (ignore : Bool)
    (i : PeerInfo) :
    (i.updateGossipsubScore g ignore).connectionStatus =
      i.connectionStatus := rfl

theorem updateGossip_seenIps (g : ℤ) (ignore : Bool) (i : PeerInfo) :
    (i.updateGossipsubScore g ignore).seenIps = i.seenIps := rfl

theorem updateGossip_isTrusted (g : ℤ) (ignore : Bool) (i : PeerInfo) :
    (i.updateGossipsubScore g ignore).isTrusted = i.isTrusted := rfl

theorem handleScoreTransition_disconnected (prev : ScoreState)
    (i : PeerInfo)
    (h : handleScoreTransition prev i = ScoreTransitionResult.disconnected) :
    i.isConnectedOrDialing = true := by
  unfold handleScoreTransition at h
  by_cases hcd : i.isConnectedOrDialing = true
  · exact hcd
  · rw [Bool.not_eq_true] at hcd
    cases hs : i.scoreState <;> cases prev <;> simp [hs, hcd] at h

theorem isBanned_false_of_connectedOrDialing (i : PeerInfo)
    (h : i.isConnectedOrDialing = true) : i.isBanned = false := by
  cases hcs : i.connectionStatus <;>
    simp_all [PeerInfo.isConnectedOrDialing, PeerInfo.isConnected,
      PeerInfo.isDialing, PeerInfo.isBanned]

theorem updateConnectionState_goodShape (db : PeerDB) (now : Nat)
    (pid : PeerId) (ns : NewConnectionState) (hinv : db.goodShape)
    (hok : ¬ (PeerDBOp.connState pid ns).isDisconnectingOnBanned db) :
    ((db.updateConnectionState now pid ns).1).goodShape := by
  cases ns with
  | connected dir ip => exact ucs_connected_goodShape db now pid dir ip hinv
  | dialing => exact ucs_dialing_goodShape db now pid hinv
  | disconnected => exact ucs_disconnected_goodShape db now pid hinv
  | disconnecting toBan =>
      exact ucs_disconnecting_goodShape db now pid toBan hinv hok
  | banned => exact ucs_banned_goodShape db now pid hinv
  | unbanned => exact ucs_unbanned_goodShape db now pid hinv

theorem reportPeer_goodShape (db : PeerDB) (now : Nat) (pid : PeerId)
    (action : PeerAction) (hinv : db.goodShape) :
    ((db.reportPeer now pid action).1).goodShape := by
  unfold PeerDB.reportPeer
  cases hlk : lookupP db.peers pid with
  | none => exact hinv
  | some info =>
      have hmem := hinv.2.2.1 (pid, info) (lookupP_mem hlk)
      have hot : info.isTrusted = false := hmem.1
      have hon : info.seenIps.Nodup := hmem.2
      have hds := hinv.2.1
      have hdb1 : PeerDB.goodShape ⟨setP db.peers pid
          (info.applyPeerActionToScore action), db.disconnectedPeers,
          db.bannedPeersCount, db.disablePeerScoring⟩ := by
        refine goodShape_set_some db pid info _ _ _ _ hlk hinv hds ?_ ?_
          ?_ ?_ ?_
        · simp [applyAction_isTrusted, hot]
        · simpa [applyAction_seenIps] using hon
        · simp [PeerInfo.isDisconnected, applyAction_connectionStatus]
        · simp [PeerInfo.isBanned, applyAction_connectionStatus]
        · intro j
          simp [PeerInfo.isBanned, applyAction_connectionStatus,
            applyAction_seenIps]
      cases hts : handleScoreTransition info.scoreState
          (info.applyPeerActionToScore action) with
      | banned =>
          simp only [hts]
          have h2 := ucs_banned_goodShape
            ⟨setP db.peers pid (info.applyPeerActionToScore action),
              db.disconnectedPeers, db.bannedPeersCount,
              db.disablePeerScoring⟩ now pid hdb1
          cases hu : PeerDB.updateConnectionState now pid
              NewConnectionState.banned
              ⟨setP db.peers pid (info.applyPeerActionToScore action),
                db.disconnectedPeers, db.bannedPeersCount,
                db.disablePeerScoring⟩ with
          | mk db2 op =>
              rw [hu] at h2
              exact h2
      | disconnected =>
          simp only [hts]
          have hcd := handleScoreTransition_disconnected _ _ hts
          have hok2 : ¬ (PeerDBOp.connState pid
              (NewConnectionState.disconnecting false)).isDisconnectingOnBanned
              (⟨setP db.peers pid (info.applyPeerActionToScore action),
                db.disconnectedPeers, db.bannedPeersCount,
                db.disablePeerScoring⟩ : PeerDB) := by
            intro hcontra
            obtain ⟨i, hi, hib⟩ := hcontra
            simp only [PeerDB.peerInfo, lookupP_setP_self] at hi
            cases hi
            rw [isBanned_false_of_connectedOrDialing _ hcd] at hib
            cases hib
          have h2 := ucs_disconnecting_goodShape
            ⟨setP db.peers pid (info.applyPeerActionToScore action),
              db.disconnectedPeers, db.bannedPeersCount,
              db.disablePeerScoring⟩ now pid false hdb1 hok2
          cases hu : PeerDB.updateConnectionState now pid
              (NewConnectionState.disconnecting false)
              ⟨setP db.peers pid (info.applyPeerActionToScore action),
                db.disconnectedPeers, db.bannedPeersCount,
                db.disablePeerScoring⟩ with
          | mk db2 op =>
              rw [hu] at h2
              exact h2
      | noAction =>
          simp only [hts]
          exact hdb1
      | unbanned =>
          simp only [hts]
          exact hdb1

theorem ucs_peers_shape (now : Nat) (pid : PeerId)
    (ns : NewConnectionState) (db : PeerDB) :
    ∃ i, ((db.updateConnectionState now pid ns).1).peers =
      setP db.peers pid i := by
  unfold PeerDB.updateConnectionState
  dsimp only
  repeat' split
  all_goals exact ⟨_, rfl⟩

theorem ucs_lookup_ne (now : Nat) (pid : PeerId) (ns : NewConnectionState)
    (db : PeerDB) (q : PeerId) (hq : q ≠ pid) :
    lookupP ((db.updateConnectionState now pid ns).1).peers q =
      lookupP db.peers q := by
  obtain ⟨i, hi⟩ := ucs_peers_shape now pid ns db
  rw [hi, lookupP_setP_ne _ _ _ _ hq]

theorem isConnectedOrDialing_congr (i j : PeerInfo)
    (h : i.connectionStatus = j.connectionStatus) :
    i.isConnectedOrDialing = j.isConnectedOrDialing := by
  simp [PeerInfo.isConnectedOrDialing, PeerInfo.isConnected,
    PeerInfo.isDialing, h]

theorem isBanned_congr (i j : PeerInfo)
    (h : i.connectionStatus = j.connectionStatus) :
    i.isBanned = j.isBanned := by
  simp [PeerInfo.isBanned, h]

theorem applyGossipActions_cons_banned (now : Nat) (pid : PeerId)
    (rest : List (PeerId × ScoreTransitionResult)) (db : PeerDB) :
    (applyGossipActions now
        ((pid, ScoreTransitionResult.banned) :: rest) db).1 =
      (applyGossipActions now rest
        (db.updateConnectionState now pid .banned).1).1 := rfl

theorem applyGossipActions_cons_disconnected (now : Nat) (pid : PeerId)
    (rest : List (PeerId × ScoreTransitionResult)) (db : PeerDB) :
    (applyGossipActions now
        ((pid, ScoreTransitionResult.disconnected) :: rest) db).1 =
      (applyGossipActions now rest
        (db.updateConnectionState now pid (.disconnecting false)).1).1 := rfl

theorem applyGossipActions_cons_noAction (now : Nat) (pid : PeerId)
    (rest : List (PeerId × ScoreTransitionResult)) (db : PeerDB) :
    (applyGossipActions now
        ((pid, ScoreTransitionResult.noAction) :: rest) db).1 =
      (applyGossipActions now rest db).1 := rfl

theorem applyGossipActions_cons_unbanned (now : Nat) (pid : PeerId)
    (rest : List (PeerId × ScoreTransitionResult)) (db : PeerDB) :
    (applyGossipActions now
        ((pid, ScoreTransitionResult.unbanned) :: rest) db).1 =
      (applyGossipActions now rest
        (db.updateConnectionState now pid .unbanned).1).1 := rfl

theorem applyGossipActions_goodShape (now : Nat) :
    ∀ (acts : List (PeerId × ScoreTransitionResult)) (db : PeerDB),
      db.goodShape →
      (∀ p ∈ acts, p.2 = ScoreTransitionResult.disconnected →
        ∀ i, lookupP db.peers p.1 = some i → i.isBanned = false) →
      (acts.map Prod.fst).Nodup →
      ((applyGossipActions now acts db).1).goodShape := by
  intro acts
  induction acts with
  | nil =>
      intro db h _ _
      exact h
  | cons p rest ih =>
      intro db hinv hdisc hnd
      obtain ⟨pid, act⟩ := p
      simp only [List.map_cons, List.nodup_cons] at hnd
      have htail : ∀ (db1 : PeerDB),
          (∀ q, q ≠ pid →
            lookupP db1.peers q = lookupP db.peers q) →
          (∀ p2 ∈ rest, p2.2 = ScoreTransitionResult.disconnected →
            ∀ i, lookupP db1.peers p2.1 = some i → i.isBanned = false) := by
        intro db1 hsame p2 hp2 hpd i hi
        have hq : p2.1 ≠ pid := by
          intro he
          exact hnd.1 (he ▸ List.mem_map.mpr ⟨p2, hp2, rfl⟩)
        rw [hsame p2.1 hq] at hi
        exact hdisc p2 (List.mem_cons_of_mem _ hp2) hpd i hi
      cases act with
      | banned =>
          rw [applyGossipActions_cons_banned]
          exact ih _ (ucs_banned_goodShape db now pid hinv)
            (htail _ (fun q hq => ucs_lookup_ne now pid _ db q hq)) hnd.2
      | disconnected =>
          have hok : ¬ (PeerDBOp.connState pid
              (NewConnectionState.disconnecting
                false)).isDisconnectingOnBanned db := by
            intro hcontra
            obtain ⟨i, hi, hib⟩ := hcontra
            have h2 := hdisc (pid, ScoreTransitionResult.disconnected)
              (List.mem_cons_self _ _) rfl i hi
            rw [h2] at hib
            cases hib
          rw [applyGossipActions_cons_disconnected]
          exact ih _ (ucs_disconnecting_goodShape db now pid false hinv hok)
            (htail _ (fun q hq => ucs_lookup_ne now pid _ db q hq)) hnd.2
      | noAction =>
          rw [applyGossipActions_cons_noAction]
          exact ih _ hinv (htail _ (fun q hq => rfl)) hnd.2
      | unbanned =>
          rw [applyGossipActions_cons_unbanned]
          exact ih _ (ucs_unbanned_goodShape db now pid hinv)
            (htail _ (fun q hq => ucs_lookup_ne now pid _ db q hq)) hnd.2

theorem assignIgnores_map_fst (allowance : Nat)
    (l : List (PeerId × PeerInfo × ℤ)) :
    (assignIgnores allowance l).map Prod.fst = l.map Prod.fst := by
  induction l generalizing allowance with
  | nil => simp [assignIgnores]
  | cons x rest ih =>
      obtain ⟨pid, info, sc⟩ := x
      simp only [assignIgnores]
      split <;> simp [ih]

theorem filterMap_map_sublist {α β γ : Type} (f : α → Option β)
    (g : β → γ) (h : α → γ)
    (hfg : ∀ a b, f a = some b → g b = h a) :
    ∀ l : List α, ((l.filterMap f).map g).Sublist (l.map h) := by
  intro l
  induction l with
  | nil => simp
  | cons x rest ih =>
      cases hf : f x with
      | none =>
          simp only [List.filterMap_cons, hf, List.map_cons]
          exact ih.cons _
      | some b =>
          simp only [List.filterMap_cons, hf, List.map_cons, hfg x b hf]
          exact ih.cons₂ _

theorem gossipScored_fst_sublist (db : PeerDB)
    (gossipScores : List (PeerId × ℤ)) :
    ((gossipScored db gossipScores).map Prod.fst).Sublist
      (db.peers.map Prod.fst) := by
  unfold gossipScored
  refine filterMap_map_sublist _ Prod.fst Prod.fst ?_ db.peers
  intro a b hf
  by_cases hc : a.2.isConnected = true
  · rw [if_pos hc] at hf
    cases hl : lookupP gossipScores a.1 with
    | some sc =>
        rw [hl] at hf
        injection hf with h2
        rw [← h2]
    | none =>
        rw [hl] at hf
        cases hf
  · rw [if_neg hc] at hf
    cases hf

theorem gossipScored_mem {db : PeerDB} {gossipScores : List (PeerId × ℤ)}
    {t : PeerId × PeerInfo × ℤ} (h : t ∈ gossipScored db gossipScores) :
    (t.1, t.2.1) ∈ db.peers := by
  unfold gossipScored at h
  rcases List.mem_filterMap.mp h with ⟨e, he, hf⟩
  by_cases hc : e.2.isConnected = true
  · rw [if_pos hc] at hf
    cases hl : lookupP gossipScores e.1 with
    | some sc =>
        rw [hl] at hf
        injection hf with h2
        rw [← h2]
        simpa using he
    | none =>
        rw [hl] at hf
        cases hf
  · rw [if_neg hc] at hf
    cases hf

theorem gossipFlagged_lookup (db : PeerDB) (allowance : Nat)
    (gossipScores : List (PeerId × ℤ)) (hnd : keysNodup db.peers) :
    ∀ t ∈ gossipFlagged db allowance gossipScores,
      lookupP db.peers t.1 = some t.2.1 := by
  intro t ht
  unfold gossipFlagged at ht
  have h1 := mem_assignIgnores ht
  have h2 : (t.1, t.2.1, t.2.2.1) ∈ gossipScored db gossipScores :=
    (sortDescBy_perm (fun t => t.2.2)
      (gossipScored db gossipScores)).mem_iff.mp h1
  have h3 := gossipScored_mem h2
  simp only at h3
  exact mem_lookupP hnd h3

theorem gossipFlagged_fst_nodup (db : PeerDB) (allowance : Nat)
    (gossipScores : List (PeerId × ℤ)) (hnd : keysNodup db.peers) :
    ((gossipFlagged db allowance gossipScores).map Prod.fst).Nodup := by
  unfold gossipFlagged
  rw [assignIgnores_map_fst]
  have hperm : ((sortDescBy (fun t => t.2.2)
      (gossipScored db gossipScores)).map Prod.fst).Perm
      ((gossipScored db gossipScores).map Prod.fst) :=
    (sortDescBy_perm _ _).map _
  refine hperm.nodup_iff.mpr ?_
  exact List.Nodup.sublist (gossipScored_fst_sublist db gossipScores) hnd

theorem gossipFold_invariant (db0 : PeerDB) (hdb0 : db0.goodShape) :
    ∀ (flagged : List (PeerId × PeerInfo × ℤ × Bool))
      (acc : PeerDB × List (PeerId × ScoreTransitionResult)),
      (∀ t ∈ flagged, lookupP db0.peers t.1 = some t.2.1) →
      acc.1.goodShape →
      (∀ pid j0, lookupP db0.peers pid = some j0 →
        ∃ j, lookupP acc.1.peers pid = some j ∧
          j.connectionStatus = j0.connectionStatus ∧
          j.seenIps = j0.seenIps) →
      ((flagged.foldl gossipStep acc).1).goodShape ∧
      (∀ pid j0, lookupP db0.peers pid = some j0 →
        ∃ j, lookupP ((flagged.foldl gossipStep acc).1).peers pid = some j ∧
          j.connectionStatus = j0.connectionStatus ∧
          j.seenIps = j0.seenIps) ∧
      ((flagged.foldl gossipStep acc).2 =
        acc.2 ++ flagged.map (fun t =>
          (t.1, handleScoreTransition (t.2.1).scoreState
            ((t.2.1).updateGossipsubScore t.2.2.1 t.2.2.2)))) := by
  intro flagged
  induction flagged with
  | nil =>
      intro acc hflag hg hmatch
      exact ⟨hg, hmatch, by simp⟩
  | cons t rest ih =>
      intro acc hflag hg hmatch
      obtain ⟨pid, info, sc, ig⟩ := t
      have hlk0 : lookupP db0.peers pid = some info := by
        have := hflag _ (List.mem_cons_self _ _)
        simpa using this
      obtain ⟨j, hj, hjc, hjs⟩ := hmatch pid info hlk0
      have hmem0 := hdb0.2.2.1 (pid, info) (lookupP_mem hlk0)
      have hot : info.isTrusted = false := hmem0.1
      have hon : info.seenIps.Nodup := hmem0.2
      have hstep : gossipStep acc (pid, info, sc, ig) =
          (⟨setP acc.1.peers pid (info.updateGossipsubScore sc ig),
            acc.1.disconnectedPeers, acc.1.bannedPeersCount,
            acc.1.disablePeerScoring⟩,
            acc.2 ++ [(pid, handleScoreTransition info.scoreState
              (info.updateGossipsubScore sc ig))]) := rfl
      have hg2 : (⟨setP acc.1.peers pid
          (info.updateGossipsubScore sc ig),
          acc.1.disconnectedPeers, acc.1.bannedPeersCount,
          acc.1.disablePeerScoring⟩ : PeerDB).goodShape := by
        refine goodShape_set_some acc.1 pid j _ _ _ _ hj hg hg.2.1 ?_ ?_
          ?_ ?_ ?_
        · simp [updateGossip_isTrusted, hot]
        · simpa [updateGossip_seenIps] using hon
        · simp [PeerInfo.isDisconnected, updateGossip_connectionStatus, hjc]
        · simp [PeerInfo.isBanned, updateGossip_connectionStatus, hjc]
        · intro ipp
          simp [PeerInfo.isBanned, updateGossip_connectionStatus,
            updateGossip_seenIps, hjc, hjs]
      have hmatch2 : ∀ q j0, lookupP db0.peers q = some j0 →
          ∃ j2, lookupP (gossipStep acc (pid, info, sc, ig)).1.peers q =
            some j2 ∧ j2.connectionStatus = j0.connectionStatus ∧
            j2.seenIps = j0.seenIps := by
        intro q j0 hq
        rw [hstep]
        by_cases hqp : q = pid
        · subst hqp
          rw [hlk0] at hq
          injection hq with h2
          refine ⟨info.updateGossipsubScore sc ig, lookupP_setP_self _ _ _,
            ?_, ?_⟩
          · rw [updateGossip_connectionStatus, h2]
          · rw [updateGossip_seenIps, h2]
        · obtain ⟨j2, hj2, hc2, hs2⟩ := hmatch q j0 hq
          exact ⟨j2, by
            rw [show (⟨setP acc.1.peers pid
              (info.updateGossipsubScore sc ig), acc.1.disconnectedPeers,
              acc.1.bannedPeersCount, acc.1.disablePeerScoring⟩ :
                PeerDB).peers = setP acc.1.peers pid
                (info.updateGossipsubScore sc ig) from rfl]
            rw [lookupP_setP_ne _ _ _ _ hqp]
            exact hj2, hc2, hs2⟩
      have hres := ih (gossipStep acc (pid, info, sc, ig))
        (fun t2 ht2 => hflag t2 (List.mem_cons_of_mem _ ht2))
        (by rw [hstep]; exact hg2) hmatch2
      refine ⟨?_, ?_, ?_⟩
      · simpa only [List.foldl_cons] using hres.1
      · intro q j0 hq
        have := hres.2.1 q j0 hq
        simpa only [List.foldl_cons] using this
      · have h3 := hres.2.2
        simp only [List.foldl_cons, List.map_cons]
        rw [h3, hstep]
        simp

theorem updateGossipsubScores_goodShape (db : PeerDB)
    (now allowance : Nat) (gossipScores : List (PeerId × ℤ))
    (hinv : db.goodShape) :
    ((db.updateGossipsubScores now allowance gossipScores).1).goodShape := by
  have hflag := gossipFlagged_lookup db allowance gossipScores hinv.1
  have hfold := gossipFold_invariant db hinv
    (gossipFlagged db allowance gossipScores) (db, []) hflag hinv
    (fun pid j0 h => ⟨j0, h, rfl, rfl⟩)
  obtain ⟨hg1, hmatch, hacts⟩ := hfold
  unfold PeerDB.updateGossipsubScores
  dsimp only
  cases hu : (gossipFlagged db allowance gossipScores).foldl gossipStep
      (db, []) with
  | mk db1 actions =>
      rw [hu] at hg1 hmatch hacts
      simp only at hg1 hmatch hacts
      show ((applyGossipActions now actions db1).1).goodShape
      refine applyGossipActions_goodShape now actions db1 hg1 ?_ ?_
      · intro p hp hpd i hi
        rw [hacts] at hp
        simp only [List.nil_append] at hp
        rcases List.mem_map.mp hp with ⟨t, ht, hpt⟩
        subst hpt
        simp only at hpd hi
        have hcd := handleScoreTransition_disconnected _ _ hpd
        have hlk0 := hflag t ht
        obtain ⟨j, hj, hjc, hjs⟩ := hmatch t.1 t.2.1 hlk0
        rw [hj] at hi
        injection hi with h2
        have hcd2 : (t.2.1).isConnectedOrDialing = true := by
          have h3 := isConnectedOrDialing_congr
            ((t.2.1).updateGossipsubScore t.2.2.1 t.2.2.2) (t.2.1)
            (updateGossip_connectionStatus _ _ _)
          rw [← h3]
          exact hcd
        have hnb : (t.2.1).isBanned = false :=
          isBanned_false_of_connectedOrDialing _ hcd2
        rw [← h2, isBanned_congr j (t.2.1) hjc]
        exact hnb
      · rw [hacts]
        simp only [List.nil_append, List.map_map]
        have hcomp : (Prod.fst ∘ (fun t : PeerId × PeerInfo × ℤ × Bool =>
            (t.1, handleScoreTransition (t.2.1).scoreState
              ((t.2.1).updateGossipsubScore t.2.2.1 t.2.2.2)))) =
            (Prod.fst : PeerId × PeerInfo × ℤ × Bool → PeerId) := by
          funext t
          rfl
        rw [hcomp]
        exact gossipFlagged_fst_nodup db allowance gossipScores hinv.1

theorem mem_removeP {β : Type} {l : List (PeerId × β)} {k : PeerId}
    {e : PeerId × β} (h : e ∈ removeP l k) : e ∈ l := by
  induction l with
  | nil => simpa [removeP] using h
  | cons x rest ih =>
      obtain ⟨xk, xv⟩ := x
      by_cases hk : xk = k
      · simp only [removeP, if_pos hk] at h
        exact List.mem_cons_of_mem _ h
      · simp only [removeP, if_neg hk] at h
        rcases List.mem_cons.mp h with h2 | h2
        · exact h2 ▸ List.mem_cons_self _ _
        · exact List.mem_cons_of_mem _ (ih h2)

theorem isDisconnected_false_of_isBanned (i : PeerInfo)
    (h : i.isBanned = true) : i.isDisconnected = false := by
  cases hcs : i.connectionStatus <;>
    simp_all [PeerInfo.isBanned, PeerInfo.isDisconnected]

theorem isBanned_false_of_isDisconnected (i : PeerInfo)
    (h : i.isDisconnected = true) : i.isBanned = false := by
  cases hcs : i.connectionStatus <;>
    simp_all [PeerInfo.isBanned, PeerInfo.isDisconnected]

theorem goodShape_remove_banned (db : PeerDB) (pid : PeerId)
    (info : PeerInfo) (hlk : lookupP db.peers pid = some info)
    (hinv : db.goodShape) (hb : info.isBanned = true) :
    PeerDB.goodShape ⟨removeP db.peers pid, db.disconnectedPeers,
      BannedPeersCount.removeBannedPeer info.seenIps db.bannedPeersCount,
      db.disablePeerScoring⟩ := by
  obtain ⟨hnd, hds, hall, hD, hB, hIp⟩ := hinv
  have hdisc : info.isDisconnected = false :=
    isDisconnected_false_of_isBanned info hb
  have hon : info.seenIps.Nodup := (hall (pid, info) (lookupP_mem hlk)).2
  refine ⟨keysNodup_removeP _ _ hnd, hds, ?_, ?_, ?_, ?_⟩
  · intro e he
    exact hall e (mem_removeP he)
  · have h1 := countP_removeP (fun i => i.isDisconnected) db.peers pid
    rw [hlk] at h1
    simp only [PeerDB.countDisconnectedStatus] at hD ⊢
    simp [hdisc] at h1
    omega
  · have h1 := countP_removeP (fun i => i.isBanned) db.peers pid
    rw [hlk] at h1
    simp only [PeerDB.countBannedStatus] at hB ⊢
    simp [hb] at h1
    simp only [BannedPeersCount.removeBannedPeer]
    omega
  · intro ip
    have h1 := countP_removeP (fun i => i.isBanned && decide (ip ∈ i.seenIps))
      db.peers pid
    rw [hlk] at h1
    have h2 := hIp ip
    simp only [PeerDB.countBannedWithIp] at h2 ⊢
    simp only at h1
    simp only [BannedPeersCount.removeBannedPeer, lookup0_decIps,
      count_nodup info.seenIps hon ip]
    by_cases hm : ip ∈ info.seenIps
    · have h3 : 1 ≤ db.peers.countP
          (fun e => e.2.isBanned && decide (ip ∈ e.2.seenIps)) := by
        have := @countP_pos_of_lookupP PeerInfo
          (fun i => i.isBanned && decide (ip ∈ i.seenIps))
          db.peers pid info hlk (by simp [hb, hm])
        simpa using this
      simp only [hb, hm] at h1 ⊢
      simp only [if_pos trivial] at h1 ⊢
      simp at h1 ⊢
      omega
    · simp only [hb, hm] at h1 ⊢
      simp at h1 ⊢
      omega

theorem goodShape_remove_disconnected (db : PeerDB) (pid : PeerId)
    (info : PeerInfo) (hlk : lookupP db.peers pid = some info)
    (hinv : db.goodShape) (hdisc : info.isDisconnected = true) :
    PeerDB.goodShape ⟨removeP db.peers pid, db.disconnectedPeers - 1,
      db.bannedPeersCount, db.disablePeerScoring⟩ := by
  obtain ⟨hnd, hds, hall, hD, hB, hIp⟩ := hinv
  have hb : info.isBanned = false :=
    isBanned_false_of_isDisconnected info hdisc
  refine ⟨keysNodup_removeP _ _ hnd, hds, ?_, ?_, ?_, ?_⟩
  · intro e he
    exact hall e (mem_removeP he)
  · have h1 := countP_removeP (fun i => i.isDisconnected) db.peers pid
    rw [hlk] at h1
    simp only [PeerDB.countDisconnectedStatus] at hD ⊢
    simp [hdisc] at h1
    omega
  · have h1 := countP_removeP (fun i => i.isBanned) db.peers pid
    rw [hlk] at h1
    simp only [PeerDB.countBannedStatus] at hB ⊢
    simp [hb] at h1
    omega
  · intro ip
    have h1 := countP_removeP (fun i => i.isBanned && decide (ip ∈ i.seenIps))
      db.peers pid
    rw [hlk] at h1
    have h2 := hIp ip
    simp only [PeerDB.countBannedWithIp] at h2 ⊢
    simp only at h1
    simp only [hb] at h1
    simp at h1
    omega

theorem oldestBannedStep_fold_mem (l : List (PeerId × PeerInfo)) :
    ∀ (b : Option (PeerId × PeerInfo × Nat)) (pid : PeerId)
      (info : PeerInfo) (since : Nat),
      l.foldl oldestBannedStep b = some (pid, info, since) →
      b = some (pid, info, since) ∨
        ((pid, info) ∈ l ∧ info.connectionStatus =
          PeerConnectionStatus.banned since) := by
  induction l with
  | nil =>
      intro b pid info since h
      exact Or.inl h
  | cons x rest ih =>
      intro b pid info since h
      simp only [List.foldl_cons] at h
      rcases ih _ _ _ _ h with h2 | h2
      · cases hcs : x.2.connectionStatus with
        | banned s =>
            simp only [oldestBannedStep, hcs] at h2
            cases b with
            | none =>
                simp only [Option.some.injEq, Prod.mk.injEq] at h2
                obtain ⟨e1, e2, e3⟩ := h2
                refine Or.inr ⟨?_, ?_⟩
                · have : (pid, info) = x := by
                    rw [← e1, ← e2]
                  rw [this]
                  exact List.mem_cons_self _ _
                · rw [← e2, hcs, e3]
            | some bb =>
                obtain ⟨bp, bi, bs⟩ := bb
                simp only [] at h2
                by_cases hlt : s < bs
                · rw [if_pos hlt] at h2
                  simp only [Option.some.injEq, Prod.mk.injEq] at h2
                  obtain ⟨e1, e2, e3⟩ := h2
                  refine Or.inr ⟨?_, ?_⟩
                  · have : (pid, info) = x := by
                      rw [← e1, ← e2]
                    rw [this]
                    exact List.mem_cons_self _ _
                  · rw [← e2, hcs, e3]
                · rw [if_neg hlt] at h2
                  exact Or.inl h2
        | unknown =>
            simp only [oldestBannedStep, hcs] at h2
            exact Or.inl h2
        | connected nIn nOut =>
            simp only [oldestBannedStep, hcs] at h2
            exact Or.inl h2
        | dialing s =>
            simp only [oldestBannedStep, hcs] at h2
            exact Or.inl h2
        | disconnecting tb =>
            simp only [oldestBannedStep, hcs] at h2
            exact Or.inl h2
        | disconnected s =>
            simp only [oldestBannedStep, hcs] at h2
            exact Or.inl h2
      · exact Or.inr ⟨List.mem_cons_of_mem _ h2.1, h2.2⟩

theorem findOldestBanned_some {peers : List (PeerId × PeerInfo)}
    {pid : PeerId} {info : PeerInfo} {since : Nat}
    (h : findOldestBanned peers = some (pid, info, since)) :
    (pid, info) ∈ peers ∧
      info.connectionStatus = PeerConnectionStatus.banned since := by
  rcases oldestBannedStep_fold_mem peers none pid info since h with h2 | h2
  · exact absurd h2 (by simp)
  · exact h2

theorem fold_oldestBannedStep_isSome (l : List (PeerId × PeerInfo)) :
    ∀ b, b.isSome = true → (l.foldl oldestBannedStep b).isSome = true := by
  induction l with
  | nil => intro b hb; exact hb
  | cons x rest ih =>
      intro b hb
      simp only [List.foldl_cons]
      refine ih _ ?_
      cases b with
      | none => simp at hb
      | some bb =>
          obtain ⟨bp, bi, bs⟩ := bb
          cases hcs : x.2.connectionStatus <;>
            simp [oldestBannedStep, hcs]
          split <;> simp

theorem findOldestBanned_isSome {peers : List (PeerId × PeerInfo)}
    {e : PeerId × PeerInfo} (he : e ∈ peers) (hb : e.2.isBanned = true) :
    (findOldestBanned peers).isSome = true := by
  obtain ⟨l1, l2, rfl⟩ := List.append_of_mem he
  unfold findOldestBanned
  rw [List.foldl_append]
  simp only [List.foldl_cons]
  refine fold_oldestBannedStep_isSome l2 _ ?_
  cases hcs : e.2.connectionStatus with
  | banned s =>
      cases hfold : l1.foldl oldestBannedStep none with
      | none => simp [oldestBannedStep, hcs]
      | some bb =>
          obtain ⟨bp, bi, bs⟩ := bb
          simp only [oldestBannedStep, hcs]
          split <;> simp
  | unknown => simp [PeerInfo.isBanned, hcs] at hb
  | connected nIn nOut => simp [PeerInfo.isBanned, hcs] at hb
  | dialing s => simp [PeerInfo.isBanned, hcs] at hb
  | disconnecting tb => simp [PeerInfo.isBanned, hcs] at hb
  | disconnected s => simp [PeerInfo.isBanned, hcs] at hb

theorem oldestDisconnectedStep_fold_mem (l : List (PeerId × PeerInfo)) :
    ∀ (b : Option (PeerId × Nat)) (pid : PeerId) (since : Nat),
      l.foldl oldestDisconnectedStep b = some (pid, since) →
      b = some (pid, since) ∨
        ∃ info, (pid, info) ∈ l ∧ info.connectionStatus =
          PeerConnectionStatus.disconnected since := by
  induction l with
  | nil =>
      intro b pid since h
      exact Or.inl h
  | cons x rest ih =>
      intro b pid since h
      simp only [List.foldl_cons] at h
      rcases ih _ _ _ h with h2 | ⟨info, h3, h4⟩
      · by_cases hflt : (x.2.isDisconnected && !x.2.isTrusted) = true
        · cases hcs : x.2.connectionStatus with
          | disconnected s =>
              simp only [oldestDisconnectedStep, hflt, if_pos, hcs] at h2
              cases b with
              | none =>
                  simp only [Option.some.injEq, Prod.mk.injEq] at h2
                  obtain ⟨e1, e2⟩ := h2
                  refine Or.inr ⟨x.2, ?_, ?_⟩
                  · rw [← e1]
                    simpa using List.mem_cons_self x rest
                  · rw [hcs, e2]
              | some bb =>
                  obtain ⟨bp, bs⟩ := bb
                  simp only [] at h2
                  by_cases hlt : s < bs
                  · rw [if_pos hlt] at h2
                    simp only [Option.some.injEq, Prod.mk.injEq] at h2
                    obtain ⟨e1, e2⟩ := h2
                    refine Or.inr ⟨x.2, ?_, ?_⟩
                    · rw [← e1]
                      simpa using List.mem_cons_self x rest
                    · rw [hcs, e2]
                  · rw [if_neg hlt] at h2
                    exact Or.inl h2
          | unknown =>
              simp only [oldestDisconnectedStep, hflt, if_pos, hcs] at h2
              exact Or.inl h2
          | connected nIn nOut =>
              simp only [oldestDisconnectedStep, hflt, if_pos, hcs] at h2
              exact Or.inl h2
          | dialing s =>
              simp only [oldestDisconnectedStep, hflt, if_pos, hcs] at h2
              exact Or.inl h2
          | disconnecting tb =>
              simp only [oldestDisconnectedStep, hflt, if_pos, hcs] at h2
              exact Or.inl h2
          | banned s =>
              simp only [oldestDisconnectedStep, hflt, if_pos, hcs] at h2
              exact Or.inl h2
        · simp only [oldestDisconnectedStep, hflt] at h2
          simp only [Bool.not_eq_true] at hflt
          rw [if_neg (by simp [hflt])] at h2
          exact Or.inl h2
      · exact Or.inr ⟨info, List.mem_cons_of_mem _ h3, h4⟩

theorem findOldestDisconnected_some {peers : List (PeerId × PeerInfo)}
    {pid : PeerId} {since : Nat}
    (h : findOldestDisconnected peers = some (pid, since)) :
    ∃ info, (pid, info) ∈ peers ∧ info.connectionStatus =
      PeerConnectionStatus.disconnected since := by
  rcases oldestDisconnectedStep_fold_mem peers none pid since h with h2 | h2
  · exact absurd h2 (by simp)
  · exact h2

theorem fold_oldestDisconnectedStep_isSome (l : List (PeerId × PeerInfo)) :
    ∀ b, b.isSome = true →
      (l.foldl oldestDisconnectedStep b).isSome = true := by
  induction l with
  | nil => intro b hb; exact hb
  | cons x rest ih =>
      intro b hb
      simp only [List.foldl_cons]
      refine ih _ ?_
      cases b with
      | none => simp at hb
      | some bb =>
          obtain ⟨bp, bs⟩ := bb
          unfold oldestDisconnectedStep
          split
          · cases hcs : x.2.connectionStatus <;> simp
            split <;> simp
          · simp

theorem findOldestDisconnected_isSome {peers : List (PeerId × PeerInfo)}
    {e : PeerId × PeerInfo} (he : e ∈ peers)
    (hd : e.2.isDisconnected = true) (ht : e.2.isTrusted = false) :
    (findOldestDisconnected peers).isSome = true := by
  obtain ⟨l1, l2, rfl⟩ := List.append_of_mem he
  unfold findOldestDisconnected
  rw [List.foldl_append]
  simp only [List.foldl_cons]
  refine fold_oldestDisconnectedStep_isSome l2 _ ?_
  have hflt : (e.2.isDisconnected && !e.2.isTrusted) = true := by
    simp [hd, ht]
  cases hcs : e.2.connectionStatus with
  | disconnected s =>
      cases hfold : l1.foldl oldestDisconnectedStep none with
      | none => simp [oldestDisconnectedStep, hflt, hcs]
      | some bb =>
          obtain ⟨bp, bs⟩ := bb
          simp only [oldestDisconnectedStep, hflt, if_pos, hcs]
          split <;> simp
  | unknown => simp [PeerInfo.isDisconnected, hcs] at hd
  | connected nIn nOut => simp [PeerInfo.isDisconnected, hcs] at hd
  | dialing s => simp [PeerInfo.isDisconnected, hcs] at hd
  | disconnecting tb => simp [PeerInfo.isDisconnected, hcs] at hd
  | banned s => simp [PeerInfo.isDisconnected, hcs] at hd

theorem shrinkBannedStep_goodShape (db : PeerDB) (hinv : db.goodShape)
    (hpos : 1 ≤ db.bannedPeersCount.bannedPeers) :
    ((shrinkBannedStep db).1).goodShape ∧
      ((shrinkBannedStep db).1).bannedPeersCount.bannedPeers =
        db.bannedPeersCount.bannedPeers - 1 := by
  have hB := hinv.2.2.2.2.1
  have hcnt : 0 < db.peers.countP (fun e => e.2.isBanned) := by
    have : db.countBannedStatus = db.bannedPeersCount.bannedPeers := hB
    simp only [PeerDB.countBannedStatus] at this
    omega
  obtain ⟨e, he, hpe⟩ := List.countP_pos.mp hcnt
  have hsome := findOldestBanned_isSome he hpe
  cases hfind : findOldestBanned db.peers with
  | none => rw [hfind] at hsome; cases hsome
  | some triple =>
      obtain ⟨pid, info, since⟩ := triple
      obtain ⟨hmem, hst⟩ := findOldestBanned_some hfind
      have hlk : lookupP db.peers pid = some info := mem_lookupP hinv.1 hmem
      have hb : info.isBanned = true := by simp [PeerInfo.isBanned, hst]
      unfold shrinkBannedStep
      rw [hfind]
      constructor
      · exact goodShape_remove_banned db pid info hlk hinv hb
      · simp [BannedPeersCount.removeBannedPeer]

theorem shrinkBannedLoop_goodShape :
    ∀ (n : Nat) (db : PeerDB) (acc : List (PeerId × List Ip)),
      db.bannedPeersCount.bannedPeers ≤ n → db.goodShape →
      ((shrinkBannedLoop db acc).1).goodShape := by
  intro n
  induction n with
  | zero =>
      intro db acc hle hinv
      unfold shrinkBannedLoop
      rw [dif_neg (by simp [MAX_BANNED_PEERS]; omega)]
      exact hinv
  | succ n ih =>
      intro db acc hle hinv
      unfold shrinkBannedLoop
      by_cases hgt : MAX_BANNED_PEERS < db.bannedPeersCount.bannedPeers
      · rw [dif_pos hgt]
        have hpos : 1 ≤ db.bannedPeersCount.bannedPeers := by
          simp [MAX_BANNED_PEERS] at hgt
          omega
        obtain ⟨hg2, hcount⟩ := shrinkBannedStep_goodShape db hinv hpos
        exact ih _ _ (by omega) hg2
      · rw [dif_neg hgt]
        exact hinv

theorem shrinkDisconnectedStep_goodShape (db : PeerDB)
    (hinv : db.goodShape) (hpos : 1 ≤ db.disconnectedPeers) :
    (shrinkDisconnectedStep db).goodShape ∧
      (shrinkDisconnectedStep db).disconnectedPeers =
        db.disconnectedPeers - 1 := by
  have hD := hinv.2.2.2.1
  have hcnt : 0 < db.peers.countP (fun e => e.2.isDisconnected) := by
    have : db.countDisconnectedStatus = db.disconnectedPeers := hD
    simp only [PeerDB.countDisconnectedStatus] at this
    omega
  obtain ⟨e, he, hpe⟩ := List.countP_pos.mp hcnt
  have ht : e.2.isTrusted = false := (hinv.2.2.1 e he).1
  have hsome := findOldestDisconnected_isSome he hpe ht
  cases hfind : findOldestDisconnected db.peers with
  | none => rw [hfind] at hsome; cases hsome
  | some pr =>
      obtain ⟨pid, since⟩ := pr
      obtain ⟨info, hmem, hst⟩ := findOldestDisconnected_some hfind
      have hlk : lookupP db.peers pid = some info := mem_lookupP hinv.1 hmem
      have hd : info.isDisconnected = true := by
        simp [PeerInfo.isDisconnected, hst]
      unfold shrinkDisconnectedStep
      rw [hfind]
      exact ⟨goodShape_remove_disconnected db pid info hlk hinv hd, rfl⟩

theorem shrinkDisconnectedLoop_goodShape :
    ∀ (n : Nat) (db : PeerDB), db.disconnectedPeers ≤ n → db.goodShape →
      (shrinkDisconnectedLoop db).goodShape := by
  intro n
  induction n with
  | zero =>
      intro db hle hinv
      unfold shrinkDisconnectedLoop
      rw [dif_neg (by simp [MAX_DC_PEERS]; omega)]
      exact hinv
  | succ n ih =>
      intro db hle hinv
      unfold shrinkDisconnectedLoop
      by_cases hgt : MAX_DC_PEERS < db.disconnectedPeers
      · rw [dif_pos hgt]
        have hpos : 1 ≤ db.disconnectedPeers := by
          simp [MAX_DC_PEERS] at hgt
          omega
        obtain ⟨hg2, hcount⟩ := shrinkDisconnectedStep_goodShape db hinv hpos
        exact ih _ (by omega) hg2
      · rw [dif_neg hgt]
        exact hinv

theorem shrinkToFit_goodShape (db : PeerDB) (hinv : db.goodShape) :
    ((db.shrinkToFit).1).goodShape := by
  unfold PeerDB.shrinkToFit
  dsimp only
  cases hu : shrinkBannedLoop db [] with
  | mk db1 unb =>
      have h1 := shrinkBannedLoop_goodShape db.bannedPeersCount.bannedPeers
        db [] le_rfl hinv
      rw [hu] at h1
      show (shrinkDisconnectedLoop db1).goodShape
      exact shrinkDisconnectedLoop_goodShape db1.disconnectedPeers db1
        le_rfl h1

theorem applyOp_goodShape (db : PeerDB) (now : Nat) (op : PeerDBOp)
    (hinv : db.goodShape) (hok : ¬ op.isDisconnectingOnBanned db) :
    (db.applyOp now op).goodShape := by
  cases op with
  | connState pid ns =>
      exact updateConnectionState_goodShape db now pid ns hinv hok
  | report pid action => exact reportPeer_goodShape db now pid action hinv
  | gossipUpdate allowance gossipScores =>
      exact updateGossipsubScores_goodShape db now allowance gossipScores hinv
  | shrink => exact shrinkToFit_goodShape db hinv

theorem goodShape_init : (PeerDB.new [] false).goodShape := by
  refine ⟨?_, rfl, ?_, rfl, rfl, fun ip => rfl⟩
  · simp [PeerDB.new, keysNodup]
  · intro e he
    simp [PeerDB.new] at he

theorem ReachableGood_goodShape {db : PeerDB} (h : ReachableGood db) :
    db.goodShape := by
  induction h with
  | init => exact goodShape_init
  | step db now op hr hok ih => exact applyOp_goodShape db now op ih hok

/- ## Claim C1: the counting invariants of section 8. -/

/-- C1, counterexample: banning the unknown peer 7 puts one peer in the
Banned state with banned_peers = 1; a raw Disconnecting transition aimed at
that banned peer (the error-logged arm of peerdb.rs line 947) flips the
stored state to Disconnecting but leaves the banned counters untouched, so
afterwards no peer has the Banned state while banned_peers is still 1: the
second counting invariant fails on this reachable-by-raw-transitions
state. -/
theorem c1_counterexample :
    exC1b.countBannedStatus = 0 ∧
    exC1b.bannedPeersCount.bannedPeers = 1 := by
  decide

/-- C1 (amended): for every PeerDB reachable from a fresh PeerDB with no
trusted peers and peer scoring enabled, along connection-state transitions,
score reports, gossipsub score rounds and shrink passes that never apply a
raw Disconnecting transition to a peer whose stored connection state is
Banned, the three counting invariants of section 8 hold: the number of
Disconnected records equals the disconnected_peers counter, the number of
Banned records equals banned_peers_count.banned_peers, and for every ip the
per-ip banned count equals the number of Banned records that have seen that
ip. The excluded Disconnecting-on-Banned edge genuinely breaks the second
and third invariants, as the counterexample shows. -/
theorem c1_amended (db : PeerDB) (h : ReachableGood db) :
    db.countDisconnectedStatus = db.disconnectedPeers ∧
    db.countBannedStatus = db.bannedPeersCount.bannedPeers ∧
    (∀ ip, db.countBannedWithIp ip =
      lookup0 db.bannedPeersCount.bannedPeersPerIp ip) := by
  have hg := ReachableGood_goodShape h
  exact ⟨hg.2.2.2.1, hg.2.2.2.2.1, hg.2.2.2.2.2⟩

/-- Witness for c1_amended at a concrete reachable state: a fresh PeerDB
after banning the unknown peer 7. -/
theorem c1_amended_witness :
    exC1a.countDisconnectedStatus = exC1a.disconnectedPeers ∧
    exC1a.countBannedStatus = exC1a.bannedPeersCount.bannedPeers ∧
    exC1a.countBannedWithIp 3 =
      lookup0 exC1a.bannedPeersCount.bannedPeersPerIp 3 := by
  have hre : ReachableGood exC1a :=
    ReachableGood.step (PeerDB.new [] false) 0 (.connState 7 .banned)
      ReachableGood.init (fun hx => hx)
  exact ⟨(c1_amended exC1a hre).1, (c1_amended exC1a hre).2.1,
    (c1_amended exC1a hre).2.2 3⟩

end Spec2Proof
